import Mathlib

/-!
# js110_statistics: a shallow embedding of `source/js110_statistics.c`

The development follows the C file top to bottom.

* Machine integers are `Nat` / `Int` with the casts of the source written out
  (`uint16_t`, `uint32_t`, `uint64_t`, `int16_t`, `int32_t`, `int64_t` reduce
  modulo the width; signed 64-bit subtraction wraps).
* A byte buffer is a `List Nat`; `buffer + k` is `buffer.drop k` and `buffer[i]`
  is `buffer.getD i 0`.
* `double` values are exact rationals (`ℚ`): the conversion of an integer to
  `double` and the division by a power of two are taken without rounding.
* The table `devices_` is a function from the index to the slot
  (`Devices.slot`); a write to one slot is `Devices.write`.
* Every answer of the operating system (the enumeration, the transport calls)
  is an explicit argument of the function that asks for it.
* The `while` loop of `js110_scan` takes fuel, one unit per evaluation of its
  condition; `none` is fuel exhausted.  Every other loop has a fixed bound.
-/

namespace JS110

/-! ## Integer casts -/

/-- Conversion to `uint16_t`. -/
def uint16_t (x : Nat) : Nat := x % 2 ^ 16

/-- Conversion to `uint32_t`. -/
def uint32_t (x : Nat) : Nat := x % 2 ^ 32

/-- Conversion to `uint64_t`. -/
def uint64_t (x : Nat) : Nat := x % 2 ^ 64

/-- Conversion to `int16_t` (two's complement). -/
def int16_t (x : Int) : Int := (x + 2 ^ 15) % 2 ^ 16 - 2 ^ 15

/-- Conversion to `int32_t` (two's complement). -/
def int32_t (x : Int) : Int := (x + 2 ^ 31) % 2 ^ 32 - 2 ^ 31

/-- Conversion to `int64_t` (two's complement); also the result of a wrapping
64-bit signed operation. -/
def int64_t (x : Int) : Int := (x + 2 ^ 63) % 2 ^ 64 - 2 ^ 63

/-! ## Binary codec (lines 42-56) -/

/-- Source: `buf_decode_u16`. -/
def buf_decode_u16 (buffer : List Nat) : Nat :=
  uint16_t (uint16_t (buffer.getD 0 0) ||| (uint16_t (buffer.getD 1 0) <<< 8))

/-- Source: `buf_decode_u32`. -/
def buf_decode_u32 (buffer : List Nat) : Nat :=
  uint32_t (uint32_t (buf_decode_u16 buffer) |||
    uint32_t (uint32_t (buf_decode_u16 (buffer.drop 2)) <<< 16))

/-- Source: `buf_decode_u64`. -/
def buf_decode_u64 (buffer : List Nat) : Nat :=
  uint64_t (uint64_t (buf_decode_u32 buffer) |||
    uint64_t (uint64_t (buf_decode_u32 (buffer.drop 4)) <<< 32))

/-- Source: macro `buf_decode_i16`. -/
def buf_decode_i16 (buffer : List Nat) : Int := int16_t (buf_decode_u16 buffer)

/-- Source: macro `buf_decode_i32`. -/
def buf_decode_i32 (buffer : List Nat) : Int := int32_t (buf_decode_u32 buffer)

/-- Source: macro `buf_decode_i64`. -/
def buf_decode_i64 (buffer : List Nat) : Int := int64_t (buf_decode_u64 buffer)

/-! ## C `double` arithmetic (IEEE 754 binary64) -/

/-- Rounding to the nearest integer, a tie going to the even one. -/
def round_half_even (y : ℚ) : Int :=
  let f := ⌊y⌋
  let r := y - f
  if r < 1 / 2 then f else if 1 / 2 < r then f + 1 else if f % 2 = 0 then f else f + 1

/-- The exponent of the unit in the last place of the binary64 numbers around
`x`: 52 below the binade of `x`, and -1074 in the subnormal range. -/
def binary64_quantum (x : ℚ) : Int := max (Int.log 2 |x|) (-1022) - 52

/-- The value `x` rounded to IEEE 754 binary64 (53 significant bits, subnormals
below `2^-1022`, round to nearest, ties to even), as the program's target
(Windows on x64, SSE2 arithmetic, default rounding mode) does for every `double`
operation.  A result beyond `DBL_MAX` would be an infinity in C; the values the
poller rounds stay within it (`binary64_finite`, `statistics_adjust_finite`). -/
def binary64 (x : ℚ) : ℚ :=
  round_half_even (x / 2 ^ binary64_quantum x) * 2 ^ binary64_quantum x

/-- The largest finite binary64 number. -/
def DBL_MAX : ℚ := (2 ^ 53 - 1) * 2 ^ 971

/-- C conversion `(double) n` of an integer. -/
def double_of_int (n : Int) : ℚ := binary64 (n : ℚ)

/-- C `a / b` on two `double` operands. -/
def double_div (a b : ℚ) : ℚ := binary64 (a / b)

/-- C `a - b` on two `double` operands. -/
def double_sub (a b : ℚ) : ℚ := binary64 (a - b)

/-! ## Data model (lines 38, 66-104 and `js110_statistics.h` 30-68) -/

/-- Source: `DEVICE_COUNT_MAX`. -/
def DEVICE_COUNT_MAX : Nat := 128

/-- Source: `enum device_state_e`. -/
inductive device_state_e where
  | ST_EMPTY
  | ST_PRESENT
  | ST_OPEN
  | ST_MISSING
  deriving DecidableEq, Repr

open device_state_e

/-- A Windows `HANDLE`, as the value of the pointer; `0` is the null handle. -/
abbrev HANDLE := Nat

/-- Windows constant `INVALID_HANDLE_VALUE`, that is `(HANDLE) -1` on a 64-bit host. -/
def INVALID_HANDLE_VALUE : HANDLE := 2 ^ 64 - 1

/-- Source: `struct device_s`.  `DevicePath` is the wide string
`device_interface_detail.s.DevicePath` up to its terminator.  A `double` field
holds a finite binary64 number, as a rational: the table starts zeroed and the
poller stores only differences that `binary64_finite` shows to be finite. -/
structure device_s where
  id : Int
  serial_number : Int
  file : HANDLE
  winusb : HANDLE
  state : device_state_e
  mark : Int
  DevicePath : List Nat
  resync : Int
  samples_total_offset : Int
  samples_total_accum : Int
  charge_offset : ℚ
  charge_accum : ℚ
  energy_offset : ℚ
  energy_accum : ℚ
  deriving DecidableEq

/-- A slot after `memset(d, 0, sizeof(*d))`; also every slot of the static
table when the process starts. -/
def device_zero : device_s :=
  { id := 0, serial_number := 0, file := 0, winusb := 0, state := ST_EMPTY, mark := 0,
    DevicePath := [], resync := 0, samples_total_offset := 0, samples_total_accum := 0,
    charge_offset := 0, charge_accum := 0, energy_offset := 0, energy_accum := 0 }

/-- The table `devices_`: `slot i` is `devices_[i]` for `i < 128`; an index from
128 on stands for the memory that follows the 128-entry table. -/
structure Devices where
  slot : Nat → device_s

/-- The assignment `devices_[i] = d`. -/
def Devices.write (devices_ : Devices) (i : Nat) (d : device_s) : Devices :=
  ⟨Function.update devices_.slot i d⟩

/-- The table of a fresh process, and the table after `memset(devices_, 0, ...)`. -/
def devices_zero : Devices := ⟨fun _ => device_zero⟩

/-- Source: `struct js110_statistics_s`.  A `double` field holds a finite binary64
number, as a rational. -/
structure js110_statistics_s where
  serial_number : Nat
  samples_this : Int
  samples_per_update : Int
  samples_per_second : Int
  samples_total : Int
  charge : ℚ
  energy : ℚ
  current_mean : ℚ
  current_min : ℚ
  current_max : ℚ
  voltage_mean : ℚ
  voltage_min : ℚ
  voltage_max : ℚ
  power_mean : ℚ
  power_min : ℚ
  power_max : ℚ
  deriving DecidableEq

/-! ## Slot table (lines 115-168) -/

/-- The loop of `device_lookup`: `n` iterations are left, the counter is `i`. -/
def device_lookup_from (devices_ : Devices) (path : List Nat) : Nat → Nat → Nat
  | 0, _ => 0
  | n + 1, i =>
    let d := devices_.slot i
    if d.state ≠ ST_EMPTY ∧ path = d.DevicePath then i
    else device_lookup_from devices_ path n (i + 1)

/-- Source: `device_lookup`. -/
def device_lookup (devices_ : Devices) (path : List Nat) : Nat :=
  device_lookup_from devices_ path (DEVICE_COUNT_MAX - 1) 1

/-- The loop of `device_add`: `n` iterations are left, the counter is `i`. -/
def device_add_from (devices_ : Devices) (path : List Nat) : Nat → Nat → Nat × Devices
  | 0, _ => (0, devices_)
  | n + 1, i =>
    if (devices_.slot i).state ≠ ST_EMPTY then device_add_from devices_ path n (i + 1)
    else
      (i, devices_.write i
        { device_zero with id := (i : Int), state := ST_PRESENT, DevicePath := path })

/-- Source: `device_add`; returns the index and the new table. -/
def device_add (devices_ : Devices) (path : List Nat) : Nat × Devices :=
  device_add_from devices_ path (DEVICE_COUNT_MAX - 1) 1

/-- Source: `device_close`; returns the status and the new table. -/
def device_close (devices_ : Devices) (dev_id : Int) : Int × Devices :=
  if dev_id ≤ 0 ∨ dev_id > (DEVICE_COUNT_MAX : Int) then (1, devices_)
  else
    let d := devices_.slot dev_id.toNat
    if d.state ≠ ST_OPEN then (0, devices_)
    else
      let d := { d with state := ST_MISSING }
      let d := if d.winusb ≠ 0 then { d with winusb := 0 } else d
      let d := if d.file ≠ 0 then { d with file := 0 } else d
      (0, devices_.write dev_id.toNat d)

/-! ## Serial number from the device path (lines 170-199) -/

/-- The loop of `str_next_section` on a non-null pointer: the characters from
the pointer on; the end of the list and a `0` are the terminator; `35` is `#`. -/
def str_next_section_loop : List Nat → Option (List Nat)
  | [] => none
  | c :: cs =>
    if c = 0 then none
    else if c = 35 then some (c :: cs)
    else str_next_section_loop cs

/-- Source: `str_next_section`; `none` is the null pointer. -/
def str_next_section (ch : Option (List Nat)) : Option (List Nat) :=
  match ch with
  | none => none
  | some s => str_next_section_loop s

/-- C library `isspace` in the "C" locale. -/
def isspace (c : Nat) : Bool := c = 32 || (9 ≤ c && c ≤ 13)

/-- The digit loop of `atoi`: `acc` is the value read so far. -/
def atoi_digits : List Nat → Nat → Nat
  | [], acc => acc
  | c :: cs, acc => if 48 ≤ c ∧ c ≤ 57 then atoi_digits cs (acc * 10 + (c - 48)) else acc

/-- C library `atoi`: white space, an optional sign, decimal digits; `0` when
there is no digit.  A value outside `int` is returned as `INT_MAX` or `INT_MIN`,
as the Microsoft C runtime documents it. -/
def atoi (s : List Nat) : Int :=
  let s := s.dropWhile isspace
  let v : Int :=
    match s with
    | 45 :: cs => -((atoi_digits cs 0 : Nat) : Int)
    | 43 :: cs => ((atoi_digits cs 0 : Nat) : Int)
    | _ => ((atoi_digits s 0 : Nat) : Int)
  max (-(2 ^ 31)) (min v (2 ^ 31 - 1))

/-- Source: `extract_serial_number`.  After `*end = 0` the string at `start`
stops where `end` pointed. -/
def extract_serial_number (str : Option (List Nat)) : Int :=
  match str_next_section str with
  | none => 0
  | some start =>
    match str_next_section (some (start.drop 1)) with
    | none => 0
    | some start =>
      let start := start.drop 1
      match str_next_section (some start) with
      | none => 0
      | some end_ => atoi (start.take (start.length - end_.length))

/-- C library `wcstombs_s` into the 1024-byte `device_str` with `_TRUNCATE`, in
the "C" locale the program runs in: a unit below 256 becomes that byte, at most
1023 of them are stored, and a unit that cannot be converted leaves the empty
string. -/
def wcstombs_s (path : List Nat) : List Nat :=
  if path.all (fun c => c < 256) then path.take 1023 else []

/-! ## Session manager (lines 201-283) -/

/-- The answers of the transport to one run of `device_open_`:
the handle `CreateFileW` returns, the result of `WinUsb_Initialize` with the
handle it stores through `&d->winusb` (if it stores one), the result of
`WinUsb_SetPipePolicy`, and the result of the settings `WinUsb_ControlTransfer`. -/
structure transport_open where
  CreateFileW : HANDLE
  WinUsb_Initialize : Bool
  winusb : Option HANDLE
  WinUsb_SetPipePolicy : Bool
  WinUsb_ControlTransfer : Bool
  deriving DecidableEq

/-- Source: `device_open_`; returns the status and the new table.  The result
of `WinUsb_SetPipePolicy` is only logged by the source. -/
def device_open_ (devices_ : Devices) (dev_id : Int) (t : transport_open) : Int × Devices :=
  let d := devices_.slot dev_id.toNat
  let d := { d with file := t.CreateFileW }
  if d.file = INVALID_HANDLE_VALUE then (1, devices_.write dev_id.toNat d)
  else
    let d := match t.winusb with
      | some h => { d with winusb := h }
      | none => d
    if t.WinUsb_Initialize = false then
      (1, (device_close (devices_.write dev_id.toNat d) dev_id).2)
    else
      let d := { d with
        serial_number := extract_serial_number (some (wcstombs_s d.DevicePath)),
        resync := 1 }
      if t.WinUsb_ControlTransfer = true then
        (0, devices_.write dev_id.toNat { d with state := ST_OPEN })
      else (1, devices_.write dev_id.toNat d)

/-- Source: `device_open`; returns the status and the new table. -/
def device_open (devices_ : Devices) (dev_id : Int) (t : transport_open) : Int × Devices :=
  if dev_id ≤ 0 ∨ dev_id > (DEVICE_COUNT_MAX : Int) then (1, devices_)
  else
    match (devices_.slot dev_id.toNat).state with
    | ST_EMPTY => (2, devices_)
    | ST_OPEN => (0, devices_)
    | ST_MISSING => device_open_ devices_ dev_id t
    | ST_PRESENT => device_open_ devices_ dev_id t

/-! ## Scanner (lines 285-340) -/

/-- One entry of the enumeration: the answer of the second
`SetupDiGetDeviceInterfaceDetailW` call (`none` when it fails, else the device
path) and the answers of the transport if the scan opens the device. -/
structure dev_interface where
  detail : Option (List Nat)
  transport : transport_open
  deriving DecidableEq

/-- Lines 296-298: the loop that clears every mark. -/
def scan_clear_marks (devices_ : Devices) : Devices :=
  (List.range' 1 (DEVICE_COUNT_MAX - 1)).foldl
    (fun ds i =>
      let d := ds.slot i
      ds.write i { d with mark := 0 }) devices_

/-- Lines 319-328: what the scan does with one device path. -/
def scan_entry (devices_ : Devices) (path : List Nat) (t : transport_open) : Devices :=
  let device_id := device_lookup devices_ path
  if device_id = 0 then
    let added := device_add devices_ path
    let devices_ := (device_open added.2 (added.1 : Int) t).2
    let d := devices_.slot added.1
    devices_.write added.1 { d with mark := 1 }
  else if (devices_.slot device_id).state = ST_MISSING then
    let devices_ := (device_open devices_ (device_id : Int) t).2
    let d := devices_.slot device_id
    devices_.write device_id { d with mark := 1 }
  else
    let d := devices_.slot device_id
    devices_.write device_id { d with mark := 1 }

/-- Lines 302-330: the `while` loop over `member_index`.  `os` is the
enumeration, `SetupDiEnumDeviceInterfaces` fails past its end.  One unit of
fuel is one evaluation of the loop condition; `none` is fuel exhausted. -/
def scan_enumerate (os : List dev_interface) : Nat → Nat → Devices → Option Devices
  | 0, _, _ => none
  | fuel + 1, member_index, devices_ =>
    match os[member_index]? with
    | none => some devices_
    | some e =>
      match e.detail with
      | none => scan_enumerate os fuel member_index devices_
      | some path =>
        scan_enumerate os fuel (member_index + 1) (scan_entry devices_ path e.transport)

/-- Lines 333-337: the loop that closes every unmarked slot. -/
def scan_close_unmarked (devices_ : Devices) : Devices :=
  (List.range' 1 (DEVICE_COUNT_MAX - 1)).foldl
    (fun ds i =>
      let d := ds.slot i
      if d.mark = 0 then (device_close ds (i : Int)).2 else ds) devices_

/-- Source: `js110_scan`.  `os` is `none` when `SetupDiGetClassDevsW` returns a
null handle, else the enumeration.  The result is `none` when the fuel runs out. -/
def js110_scan (fuel : Nat) (devices_ : Devices) (os : Option (List dev_interface)) :
    Option (Int × Devices) :=
  match os with
  | none => some (1, devices_)
  | some os =>
    match scan_enumerate os fuel 0 (scan_clear_marks devices_) with
    | none => none
    | some devices_ => some (0, scan_close_unmarked devices_)

/-! ## Statistics poller (lines 342-416) -/

/-- Lines 373-393 of `js110_statistics`: the reply `pkt` decoded into the
update, for a slot with serial number `serial_number`.  Each integer is
converted to `double` and divided by the scale, itself a `double`. -/
def statistics_parse (serial_number : Int) (pkt : List Nat) : js110_statistics_s :=
  { serial_number := (serial_number % 2 ^ 32).toNat,
    samples_this := buf_decode_i32 (pkt.drop 56),
    samples_per_update := buf_decode_i32 (pkt.drop 60),
    samples_per_second := buf_decode_i32 (pkt.drop 64),
    samples_total := int64_t (buf_decode_u64 (pkt.drop 24)),
    charge := double_div (double_of_int (buf_decode_i64 (pkt.drop 40))) (2 ^ 27),
    energy := double_div (double_of_int (buf_decode_i64 (pkt.drop 48))) (2 ^ 27),
    current_mean := double_div (double_of_int (buf_decode_i32 (pkt.drop 68))) (2 ^ 27),
    current_min := double_div (double_of_int (buf_decode_i32 (pkt.drop 72))) (2 ^ 27),
    current_max := double_div (double_of_int (buf_decode_i32 (pkt.drop 76))) (2 ^ 27),
    voltage_mean := double_div (double_of_int (buf_decode_i32 (pkt.drop 80))) (2 ^ 17),
    voltage_min := double_div (double_of_int (buf_decode_i32 (pkt.drop 84))) (2 ^ 17),
    voltage_max := double_div (double_of_int (buf_decode_i32 (pkt.drop 88))) (2 ^ 17),
    power_mean := double_div (double_of_int (buf_decode_i64 (pkt.drop 32))) (2 ^ 34),
    power_min := double_div (double_of_int (buf_decode_i32 (pkt.drop 92))) (2 ^ 21),
    power_max := double_div (double_of_int (buf_decode_i32 (pkt.drop 96))) (2 ^ 21) }

/-- Lines 395-409 of `js110_statistics`: the resync and the adjustment of the
three running totals; returns the new slot and the adjusted update. -/
def statistics_adjust (d : device_s) (statistics : js110_statistics_s) :
    device_s × js110_statistics_s :=
  let d :=
    if d.resync ≠ 0 then
      { d with
        samples_total_offset := int64_t (statistics.samples_total - d.samples_total_accum),
        charge_offset := double_sub statistics.charge d.charge_accum,
        energy_offset := double_sub statistics.energy d.energy_accum,
        resync := 0 }
    else d
  let statistics := { statistics with
    samples_total := int64_t (statistics.samples_total - d.samples_total_offset),
    charge := double_sub statistics.charge d.charge_offset,
    energy := double_sub statistics.energy d.energy_offset }
  ({ d with
      samples_total_accum := statistics.samples_total,
      charge_accum := statistics.charge,
      energy_accum := statistics.energy },
    statistics)

/-- Source: `js110_statistics`.  `cbk_fn_` is the registered callback (`0` is
null).  `xfer` is the answer of the status `WinUsb_ControlTransfer`: `none`
when it fails, else the bytes written to `pkt`, whose number is
`length_transferred`.  Returns the status, the new table and the updates
passed to the callback, in order. -/
def js110_statistics (cbk_fn_ : Nat) (devices_ : Devices) (dev_id : Int)
    (xfer : Option (List Nat)) : Int × Devices × List js110_statistics_s :=
  if dev_id ≤ 0 ∨ dev_id > (DEVICE_COUNT_MAX : Int) then (1, devices_, [])
  else
    let d := devices_.slot dev_id.toNat
    if d.state ≠ ST_OPEN then (0, devices_, [])
    else
      match xfer with
      | none => (1, devices_, [])
      | some pkt =>
        if 104 ≠ pkt.length then (1, devices_, [])
        else if 0 = buf_decode_i32 (pkt.drop 56) then (0, devices_, [])
        else
          let adjusted := statistics_adjust d (statistics_parse d.serial_number pkt)
          (0, devices_.write dev_id.toNat adjusted.1,
            if cbk_fn_ ≠ 0 then [adjusted.2] else [])

/-! ## Predicates, drivers and closed forms used in the statements and proofs -/

/-- Whether the three transport calls that decide `device_open_` all succeed. -/
def transport_open.ok (t : transport_open) : Prop :=
  t.CreateFileW ≠ INVALID_HANDLE_VALUE ∧ t.WinUsb_Initialize = true ∧
    t.WinUsb_ControlTransfer = true

instance (t : transport_open) : Decidable t.ok := by
  unfold transport_open.ok; infer_instance

/-- The slot `device_open_` leaves in place of a slot `d` that is not open. -/
def opened_slot (d : device_s) (t : transport_open) : device_s :=
  if t.CreateFileW = INVALID_HANDLE_VALUE then { d with file := t.CreateFileW }
  else if t.WinUsb_Initialize = false then
    { d with file := t.CreateFileW, winusb := t.winusb.getD d.winusb }
  else
    { d with
      file := t.CreateFileW,
      winusb := t.winusb.getD d.winusb,
      serial_number := extract_serial_number (some (wcstombs_s d.DevicePath)),
      resync := 1,
      state := if t.WinUsb_ControlTransfer = true then ST_OPEN else d.state }

/-- Slot `i` is one of the slots 1..127, is not Empty and holds the path `p`. -/
def tracked (ds : Devices) (p : List Nat) (i : Nat) : Prop :=
  1 ≤ i ∧ i < 128 ∧ (ds.slot i).state ≠ ST_EMPTY ∧ (ds.slot i).DevicePath = p

/-- No two non-Empty slots in 1..127 hold the same path. -/
def paths_distinct (ds : Devices) : Prop :=
  ∀ i j p, tracked ds p i → tracked ds p j → i = j

/-- No slot in 1..127 is Empty. -/
def table_full (ds : Devices) : Prop :=
  ∀ i, 1 ≤ i → i < 128 → (ds.slot i).state ≠ ST_EMPTY

/-- One pass of the `while` loop of `js110_scan` on an entry whose detail
retrieval succeeds. -/
def scan_step (ds : Devices) (e : dev_interface) : Devices :=
  match e.detail with
  | some path => scan_entry ds path e.transport
  | none => ds

/-- What the scan guarantees for a path it has met: a marked slot holds it, or
the table is full and no slot holds it. -/
def path_settled (ds : Devices) (p : List Nat) : Prop :=
  (∃ i, tracked ds p i ∧ (ds.slot i).mark ≠ 0) ∨ (table_full ds ∧ ∀ i, ¬ tracked ds p i)

/-- The polls of slot `dev_id` over successive cycles of the worker loop (lines
427-431 for one slot), each with the answer `xs` gives to its status transfer;
returns the last table and the updates passed to the callback, in order. -/
def poll_all (cbk_fn_ : Nat) (dev_id : Int) : Devices → List (Option (List Nat)) →
    Devices × List js110_statistics_s
  | devices_, [] => (devices_, [])
  | devices_, x :: xs =>
    let r := js110_statistics cbk_fn_ devices_ dev_id x
    let rest := poll_all cbk_fn_ dev_id r.2.1 xs
    (rest.1, r.2.2 ++ rest.2)

/-- The raw sample count of a status transfer that yields an update: the `u64`
at offset 24 of a 104-byte reply whose samples-this-window field is not zero. -/
def raw_count (x : Option (List Nat)) : Option Nat :=
  match x with
  | none => none
  | some pkt =>
    if pkt.length = 104 ∧ buf_decode_i32 (pkt.drop 56) ≠ 0 then
      some (buf_decode_u64 (pkt.drop 24))
    else none

/-- The charge a reply carries, as the `double` line 382 computes: the `i64` at
offset 40 converted to binary64, over `2^27`. -/
def raw_charge (pkt : List Nat) : ℚ :=
  binary64 (buf_decode_i64 (pkt.drop 40) : ℚ) / 2 ^ 27

/-- The energy a reply carries, as the `double` line 383 computes: the `i64` at
offset 48 converted to binary64, over `2^27`. -/
def raw_energy (pkt : List Nat) : ℚ :=
  binary64 (buf_decode_i64 (pkt.drop 48) : ℚ) / 2 ^ 27

/-- Successive calls of `device_add`, one per path of `paths`, in order;
returns the last table. -/
def device_add_all (devices_ : Devices) (paths : List (List Nat)) : Devices :=
  paths.foldl (fun ds p => (device_add ds p).2) devices_

/-- The slot `device_add` writes at index `i`: zeroed, then id `i`, state Present
and the path. -/
def added_slot (i : Nat) (path : List Nat) : device_s :=
  { device_zero with id := (i : Int), state := ST_PRESENT, DevicePath := path }

/-- The tables reachable from the zeroed table by calls of `js110_scan` that
return and calls of `js110_statistics`, with any arguments and any answers of
the operating system. -/
inductive reachable : Devices → Prop where
  | zero : reachable devices_zero
  | scan (ds ds' : Devices) (fuel : Nat) (os : Option (List dev_interface)) (rc : Int) :
      reachable ds → js110_scan fuel ds os = some (rc, ds') → reachable ds'
  | poll (ds : Devices) (cbk_fn_ : Nat) (dev_id : Int) (xfer : Option (List Nat)) :
      reachable ds → reachable (js110_statistics cbk_fn_ ds dev_id xfer).2.1

/-- The value of a run of decimal digits (character codes 48..57), most
significant digit first. -/
def decimal_value (digits : List Nat) : Nat :=
  digits.foldl (fun v c => v * 10 + (c - 48)) 0

/-- The characters of a C string: those before the first `0`. -/
def c_string (s : List Nat) : List Nat := s.takeWhile (fun c => c ≠ 0)

/-- The text after an optional sign character (`-` is 45, `+` is 43). -/
def strip_sign (g : List Nat) : List Nat :=
  match g with
  | 45 :: cs => cs
  | 43 :: cs => cs
  | g => g

/-- Whether a text starts with a decimal digit. -/
def leading_digit (cs : List Nat) : Prop :=
  match cs with
  | c :: _ => 48 ≤ c ∧ c ≤ 57
  | [] => False

/-- Whether a field starts with a number, as `atoi` reads one: after optional
white space and an optional sign, the next character is a decimal digit. -/
def starts_with_number (field : List Nat) : Prop :=
  leading_digit (strip_sign (field.dropWhile isspace))

/-! ## Lifecycle and worker (lines 59-64, 110-113, 418-485) -/

/-- The file-scope variables of lines 59-64 and the slot table of line 104. -/
structure subsystem where
  cbk_fn_ : Nat
  cbk_user_data_ : Nat
  thread_ : HANDLE
  thread_id_ : Nat
  thread_exit_ : Bool
  device_change_ : Int
  devices_ : Devices

/-- The variables as the program image initialises them: zero, and
`thread_exit_ = false` (line 63). -/
def subsystem_zero : subsystem :=
  { cbk_fn_ := 0, cbk_user_data_ := 0, thread_ := 0, thread_id_ := 0,
    thread_exit_ := false, device_change_ := 0, devices_ := devices_zero }

/-- Source: `on_device_change`. -/
def on_device_change (g : subsystem) : subsystem :=
  { g with device_change_ := 1 }

/-- Source: `js110_finalize`.  The writes of the call itself; the wait of at most
one second for the worker and `CloseHandle` write no variable. -/
def js110_finalize (g : subsystem) : Int × subsystem :=
  let g : subsystem := { g with thread_exit_ := true }
  let g : subsystem := if g.thread_ ≠ 0 then { g with thread_ := 0 } else g
  (0, { g with cbk_fn_ := 0, cbk_user_data_ := 0 })

/-- Source: `js110_initialize`.  `CreateThread` is the answer of the call of
lines 456-462: the handle (0 is `NULL`) and the thread identifier.  Returns the
status, the variables, and whether a worker running `js110_thread` was started. -/
def js110_initialize (cbk_fn cbk_user_data : Nat) (CreateThread : HANDLE × Nat)
    (g : subsystem) : Int × subsystem × Bool :=
  let g : subsystem := if g.cbk_fn_ ≠ 0 then (js110_finalize g).2 else g
  if cbk_fn = 0 then (1, g, false)
  else
    let g : subsystem := { g with devices_ := devices_zero }
    let g : subsystem := { g with cbk_user_data_ := cbk_user_data }
    let g : subsystem := { g with cbk_fn_ := cbk_fn }
    let g : subsystem := { g with thread_ := CreateThread.1, thread_id_ := CreateThread.2 }
    if g.thread_ = 0 then (1, { g with cbk_fn_ := 0 }, false)
    else (0, g, true)

/-- What the world answers during one cycle of the worker loop: the status
transfer of each slot, the enumeration (with the fuel of the scan loop), and
whether, by the end of `Sleep(100)`, a device-change notification arrived and
`js110_finalize` asked the worker to stop. -/
structure cycle where
  xfer : Nat → Option (List Nat)
  fuel : Nat
  os : Option (List dev_interface)
  change : Bool
  stop : Bool

/-- Lines 427-431 of `js110_thread`: the polls of the slots `is`, in order. -/
def thread_poll (cbk_fn_ : Nat) (xfer : Nat → Option (List Nat)) :
    List Nat → Devices → Devices × List js110_statistics_s
  | [], devices_ => (devices_, [])
  | i :: is, devices_ =>
    if (devices_.slot i).state = ST_OPEN then
      let r := js110_statistics cbk_fn_ devices_ (i : Int) (xfer i)
      let rest := thread_poll cbk_fn_ xfer is r.2.1
      (rest.1, r.2.2 ++ rest.2)
    else thread_poll cbk_fn_ xfer is devices_

/-- Lines 427-438 of `js110_thread`, one run of the loop body: the variables
after it, the updates passed to the callback and the number of scans made;
`none` when the scan does not return. -/
def thread_body (c : cycle) (g : subsystem) :
    Option (subsystem × List js110_statistics_s × Nat) :=
  let polled := thread_poll g.cbk_fn_ c.xfer (List.range' 1 (DEVICE_COUNT_MAX - 1)) g.devices_
  let g : subsystem := { g with devices_ := polled.1 }
  let scanned : Option (subsystem × Nat) :=
    if g.device_change_ ≠ 0 then
      let g : subsystem := { g with device_change_ := 0 }
      match js110_scan c.fuel g.devices_ c.os with
      | none => none
      | some r => some ({ g with devices_ := r.2 }, 1)
    else some (g, 0)
  match scanned with
  | none => none
  | some (g, scans) =>
    let g : subsystem := if c.change then on_device_change g else g
    let g : subsystem := if c.stop then { g with thread_exit_ := true } else g
    some (g, polled.2, scans)

/-- The `while (!thread_exit_)` loop of `js110_thread` over the cycles given;
`none` when the worker has not left the loop by the end of them. -/
def thread_loop : List cycle → subsystem → Option (subsystem × List js110_statistics_s × Nat)
  | [], g => if g.thread_exit_ then some (g, [], 0) else none
  | c :: cs, g =>
    if g.thread_exit_ then some (g, [], 0)
    else
      match thread_body c g with
      | none => none
      | some r =>
        match thread_loop cs r.1 with
        | none => none
        | some r2 => some (r2.1, r.2.1 ++ r2.2.1, r.2.2 + r2.2.2)

/-- Source: `js110_thread`.  Returns the variables when the worker exits, the
updates passed to the callback and the number of scans it made. -/
def js110_thread (cycles : List cycle) (g : subsystem) :
    Option (subsystem × List js110_statistics_s × Nat) :=
  thread_loop cycles { g with device_change_ := 1 }

/-- One cycle in which no device is enumerated and the stop request arrives. -/
def fixture_cycle : cycle :=
  { xfer := fun _ => none, fuel := 1, os := some [], change := false, stop := true }

/-- The variables of a running subsystem: callback 1 with user context 9. -/
def fixture_running : subsystem :=
  ( js110_initialize 1 9 (5, 7) subsystem_zero).2.1

/-! ## Calls and accesses observed in the source -/

/-- Lines 319-326: the slot ids the scan passes to `device_open` for one device
path, on the table `devices_` the loop body starts with. -/
def scan_entry_opens (devices_ : Devices) (path : List Nat) : List Nat :=
  let device_id := device_lookup devices_ path
  if device_id = 0 then [(device_add devices_ path).1]
  else if (devices_.slot device_id).state = ST_MISSING then [device_id]
  else []

/-- Lines 302-330, as `scan_enumerate`: the slot ids passed to `device_open`
during the `while` loop, in order; `none` is fuel exhausted. -/
def scan_enumerate_opens (os : List dev_interface) : Nat → Nat → Devices → Option (List Nat)
  | 0, _, _ => none
  | fuel + 1, member_index, devices_ =>
    match os[member_index]? with
    | none => some []
    | some e =>
      match e.detail with
      | none => scan_enumerate_opens os fuel member_index devices_
      | some path =>
        (scan_enumerate_opens os fuel (member_index + 1)
          (scan_entry devices_ path e.transport)).map
            (fun rest => scan_entry_opens devices_ path ++ rest)

/-- Source: `js110_scan`, as the model `js110_scan`: the slot ids it passes to
`device_open`, in order. -/
def js110_scan_opens (fuel : Nat) (devices_ : Devices) (os : Option (List dev_interface)) :
    Option (List Nat) :=
  match os with
  | none => some []
  | some os => scan_enumerate_opens os fuel 0 (scan_clear_marks devices_)

/-- The slot ids passed to `device_open` while the entries `os`, whose detail
retrievals succeed, are handled one after the other. -/
def scan_fold_opens : Devices → List dev_interface → List Nat
  | _, [] => []
  | ds, e :: os =>
    (match e.detail with
      | some path => scan_entry_opens ds path
      | none => []) ++ scan_fold_opens (scan_step ds e) os

/-- What the entries of an enumeration do, one after the other, to a slot that
is not Empty and holds the path `path`, when no other slot holds it: an entry
with this path sets the mark, after an open attempt with the entry's transport
answers if the slot is Missing; any other entry leaves the slot as it is. -/
def known_step (path : List Nat) (d : device_s) (e : dev_interface) : device_s :=
  if e.detail = some path then
    { (if d.state = ST_MISSING then opened_slot d e.transport else d) with mark := 1 }
  else d

/-! ## Concrete inputs used by the witnesses and counterexamples -/

/-- A 104-byte status reply: sample count 1000, power accumulator `2^34`, charge
accumulator `2^27`, energy accumulator `2^28`, 7 samples in the window, 2 per
update, 3 per second, current `2^27, -2^27, 2^28`, voltage `2^17, 0, 2^18`,
power `2^21, 2^22`. -/
def fixture_reply : List Nat :=
  List.replicate 24 0 ++ [232, 3, 0, 0, 0, 0, 0, 0] ++ [0, 0, 0, 0, 4, 0, 0, 0] ++
    [0, 0, 0, 8, 0, 0, 0, 0] ++ [0, 0, 0, 16, 0, 0, 0, 0] ++
    [7, 0, 0, 0] ++ [2, 0, 0, 0] ++ [3, 0, 0, 0] ++
    [0, 0, 0, 8] ++ [0, 0, 0, 248] ++ [0, 0, 0, 16] ++
    [0, 0, 2, 0] ++ [0, 0, 0, 0] ++ [0, 0, 4, 0] ++
    [0, 0, 32, 0] ++ [0, 0, 64, 0] ++ [0, 0, 0, 0]

/-- The reply `fixture_reply` with the sample count replaced by the 8 bytes `raw`
and every other counter zero but the 7 samples of the window. -/
def reply_with_count (raw : List Nat) : List Nat :=
  List.replicate 24 0 ++ raw ++ List.replicate 24 0 ++ [7, 0, 0, 0] ++ List.replicate 44 0

/-- The zero-samples reply: 104 zero bytes. -/
def fixture_reply_idle : List Nat := List.replicate 104 0

/-- A 104-byte status reply whose power accumulator (offset 32) is `2^53 + 1`,
with 7 samples in the window. -/
def fixture_reply_power : List Nat :=
  List.replicate 32 0 ++ [1, 0, 0, 0, 0, 0, 32, 0] ++ List.replicate 16 0 ++ [7, 0, 0, 0] ++
    List.replicate 44 0

/-- A 104-byte status reply whose charge accumulator (offset 40) is `2^62`, that
is the charge `2^35`, with 7 samples in the window. -/
def fixture_reply_charge : List Nat :=
  List.replicate 40 0 ++ [0, 0, 0, 0, 0, 0, 0, 64] ++ List.replicate 8 0 ++ [7, 0, 0, 0] ++
    List.replicate 44 0

/-- An open slot: path `a#b#123#x`, serial number `serial_number`, handles 5 and
6, resync flag `resync`, 7 samples and charge 1/2 accumulated so far. -/
def fixture_slot (serial_number resync : Int) : device_s :=
  { device_zero with
    id := 1, serial_number := serial_number, file := 5, winusb := 6, state := ST_OPEN,
    DevicePath := [97, 35, 98, 35, 49, 50, 51, 35, 120], resync := resync,
    samples_total_accum := 7, charge_accum := 1 / 2 }

/-- The table whose slot 1 is `fixture_slot` and whose other slots are empty. -/
def fixture_table (serial_number resync : Int) : Devices :=
  devices_zero.write 1 (fixture_slot serial_number resync)

/-- The table whose slot 1 is open with a resync pending and the charge `2^-27`
accumulated so far. -/
def fixture_table_charge : Devices :=
  devices_zero.write 1 { fixture_slot 123 1 with charge_accum := 1 / 2 ^ 27 }

/-- A tracked slot that was never opened: path `a#b#123#x`, state Present. -/
def fixture_present : device_s :=
  { device_zero with
    id := 1, state := ST_PRESENT, DevicePath := [97, 35, 98, 35, 49, 50, 51, 35, 120] }

/-- Transport answers of a successful open: handles 5 and 6. -/
def transport_ok : transport_open :=
  { CreateFileW := 5, WinUsb_Initialize := true, winusb := some 6,
    WinUsb_SetPipePolicy := true, WinUsb_ControlTransfer := true }

/-- `CreateFileW` fails. -/
def transport_no_file : transport_open :=
  { CreateFileW := INVALID_HANDLE_VALUE, WinUsb_Initialize := false, winusb := none,
    WinUsb_SetPipePolicy := false, WinUsb_ControlTransfer := false }

/-- `CreateFileW` returns handle 5, then `WinUsb_Initialize` fails. -/
def transport_no_winusb : transport_open :=
  { CreateFileW := 5, WinUsb_Initialize := false, winusb := none,
    WinUsb_SetPipePolicy := false, WinUsb_ControlTransfer := false }

/-- Handles 5 and 6 are obtained, then the settings transfer fails. -/
def transport_no_settings : transport_open :=
  { CreateFileW := 5, WinUsb_Initialize := true, winusb := some 6,
    WinUsb_SetPipePolicy := true, WinUsb_ControlTransfer := false }

/-- A full table: every slot `i` is Present with the one-unit path `[i]`. -/
def fixture_full : Devices :=
  ⟨fun i => { fixture_present with id := (i : Int), DevicePath := [i] }⟩

/-- A table, not reachable by scans, whose slots 1 and 2 hold the same path. -/
def fixture_twice : Devices :=
  (devices_zero.write 1 fixture_present).write 2 fixture_present

/-! ## Codec lemmas -/

theorem or_shiftLeft_eq_add (a c k : Nat) (h : a < 2 ^ k) : a ||| (c <<< k) = a + c * 2 ^ k := by
  rw [Nat.shiftLeft_eq, Nat.or_comm, Nat.mul_comm c, ← Nat.mul_add_lt_is_or h, Nat.add_comm]

theorem getD_drop_zero (b : List Nat) (k i : Nat) : (b.drop k).getD i 0 = b.getD (k + i) 0 := by
  simp [List.getD_eq_getElem?_getD, List.getElem?_drop]

theorem getD_lt_of_bytes (b : List Nat) (hb : ∀ x ∈ b, x < 256) (i : Nat) : b.getD i 0 < 256 := by
  rw [List.getD_eq_getElem?_getD]
  cases h : b[i]? with
  | none => simp
  | some x => simpa using hb x (List.getElem?_mem h)

theorem buf_decode_u16_eq (b : List Nat) (hb : ∀ x ∈ b, x < 256) :
    buf_decode_u16 b = b.getD 0 0 + b.getD 1 0 * 256 := by
  have h0 := getD_lt_of_bytes b hb 0
  have h1 := getD_lt_of_bytes b hb 1
  unfold buf_decode_u16 uint16_t
  rw [Nat.mod_eq_of_lt (by omega : b.getD 0 0 < 2 ^ 16), Nat.mod_eq_of_lt (by omega : b.getD 1 0 < 2 ^ 16),
    or_shiftLeft_eq_add _ _ 8 (by omega)]
  omega

theorem bytes_drop (b : List Nat) (hb : ∀ x ∈ b, x < 256) (k : Nat) : ∀ x ∈ b.drop k, x < 256 :=
  fun x hx => hb x (List.mem_of_mem_drop hx)

theorem buf_decode_u32_eq (b : List Nat) (hb : ∀ x ∈ b, x < 256) :
    buf_decode_u32 b
      = b.getD 0 0 + b.getD 1 0 * 256 + b.getD 2 0 * 256 ^ 2 + b.getD 3 0 * 256 ^ 3 := by
  have h0 := getD_lt_of_bytes b hb 0
  have h1 := getD_lt_of_bytes b hb 1
  have h2 := getD_lt_of_bytes b hb 2
  have h3 := getD_lt_of_bytes b hb 3
  unfold buf_decode_u32 uint32_t
  rw [buf_decode_u16_eq b hb, buf_decode_u16_eq _ (bytes_drop b hb 2), getD_drop_zero, getD_drop_zero]
  simp only [Nat.add_zero, Nat.reduceAdd]
  rw [Nat.mod_eq_of_lt (by omega : b.getD 0 0 + b.getD 1 0 * 256 < 2 ^ 32),
    Nat.mod_eq_of_lt (by omega : b.getD 2 0 + b.getD 3 0 * 256 < 2 ^ 32),
    Nat.shiftLeft_eq,
    Nat.mod_eq_of_lt (by omega : (b.getD 2 0 + b.getD 3 0 * 256) * 2 ^ 16 < 2 ^ 32),
    ← Nat.shiftLeft_eq, or_shiftLeft_eq_add _ _ 16 (by omega)]
  omega

theorem buf_decode_u32_lt (b : List Nat) : buf_decode_u32 b < 2 ^ 32 := by
  unfold buf_decode_u32 uint32_t
  exact Nat.mod_lt _ (by norm_num)

theorem buf_decode_u64_eq (b : List Nat) (hb : ∀ x ∈ b, x < 256) :
    buf_decode_u64 b
      = b.getD 0 0 + b.getD 1 0 * 256 + b.getD 2 0 * 256 ^ 2 + b.getD 3 0 * 256 ^ 3
        + b.getD 4 0 * 256 ^ 4 + b.getD 5 0 * 256 ^ 5 + b.getD 6 0 * 256 ^ 6
        + b.getD 7 0 * 256 ^ 7 := by
  have l0 := buf_decode_u32_lt b
  have l1 := buf_decode_u32_lt (b.drop 4)
  have e0 := buf_decode_u32_eq b hb
  have e1 := buf_decode_u32_eq _ (bytes_drop b hb 4)
  simp only [getD_drop_zero, Nat.add_zero, Nat.reduceAdd] at e1
  unfold buf_decode_u64 uint64_t
  rw [Nat.mod_eq_of_lt (by omega : buf_decode_u32 b < 2 ^ 64),
    Nat.mod_eq_of_lt (by omega : buf_decode_u32 (b.drop 4) < 2 ^ 64),
    Nat.shiftLeft_eq,
    Nat.mod_eq_of_lt (by omega : buf_decode_u32 (b.drop 4) * 2 ^ 32 < 2 ^ 64),
    ← Nat.shiftLeft_eq, or_shiftLeft_eq_add _ _ 32 (by omega)]
  omega


theorem buf_decode_u16_lt (b : List Nat) : buf_decode_u16 b < 2 ^ 16 := by
  unfold buf_decode_u16 uint16_t
  exact Nat.mod_lt _ (by norm_num)

theorem buf_decode_u64_lt (b : List Nat) : buf_decode_u64 b < 2 ^ 64 := by
  unfold buf_decode_u64 uint64_t
  exact Nat.mod_lt _ (by norm_num)

/-- Claim C4: on a buffer of bytes, the unsigned decoders return the little-endian
value of the first 2, 4 and 8 bytes, and the signed decoders return the two's
complement reading of the same bits. -/
theorem buf_decode_little_endian (b : List Nat) (hb : ∀ x ∈ b, x < 256) (_hlen : 8 ≤ b.length) :
    buf_decode_u16 b = ∑ i in Finset.range 2, b.getD i 0 * 256 ^ i ∧
    buf_decode_u32 b = ∑ i in Finset.range 4, b.getD i 0 * 256 ^ i ∧
    buf_decode_u64 b = ∑ i in Finset.range 8, b.getD i 0 * 256 ^ i ∧
    buf_decode_i16 b =
      (if buf_decode_u16 b < 2 ^ 15 then (buf_decode_u16 b : Int)
       else (buf_decode_u16 b : Int) - 2 ^ 16) ∧
    buf_decode_i32 b =
      (if buf_decode_u32 b < 2 ^ 31 then (buf_decode_u32 b : Int)
       else (buf_decode_u32 b : Int) - 2 ^ 32) ∧
    buf_decode_i64 b =
      (if buf_decode_u64 b < 2 ^ 63 then (buf_decode_u64 b : Int)
       else (buf_decode_u64 b : Int) - 2 ^ 64) := by
  have l16 := buf_decode_u16_lt b
  have l32 := buf_decode_u32_lt b
  have l64 := buf_decode_u64_lt b
  refine ⟨?_, ?_, ?_, ?_, ?_, ?_⟩
  · rw [buf_decode_u16_eq b hb]; simp [Finset.sum_range_succ]
  · rw [buf_decode_u32_eq b hb]; simp [Finset.sum_range_succ]
  · rw [buf_decode_u64_eq b hb]; simp [Finset.sum_range_succ]
  · unfold buf_decode_i16 int16_t; split_ifs <;> omega
  · unfold buf_decode_i32 int32_t; split_ifs <;> omega
  · unfold buf_decode_i64 int64_t; split_ifs <;> omega

/-- The buffer `01 02 03 04 05 06 07 80`: `buf_decode_u16` is `0x0201` and
`buf_decode_i64` is negative. -/
theorem buf_decode_little_endian_witness :
    buf_decode_u16 [1, 2, 3, 4, 5, 6, 7, 128] = ∑ i in Finset.range 2, [1, 2, 3, 4, 5, 6, 7, 128].getD i 0 * 256 ^ i ∧
    buf_decode_i64 [1, 2, 3, 4, 5, 6, 7, 128] =
      (if buf_decode_u64 [1, 2, 3, 4, 5, 6, 7, 128] < 2 ^ 63
       then (buf_decode_u64 [1, 2, 3, 4, 5, 6, 7, 128] : Int)
       else (buf_decode_u64 [1, 2, 3, 4, 5, 6, 7, 128] : Int) - 2 ^ 64) :=
  have h := buf_decode_little_endian [1, 2, 3, 4, 5, 6, 7, 128] (by decide) (by decide)
  ⟨h.1, h.2.2.2.2.2⟩

/-! ## Table lemmas -/

@[simp] theorem slot_write (ds : Devices) (i : Nat) (d : device_s) (j : Nat) :
    (ds.write i d).slot j = if j = i then d else ds.slot j := by
  unfold Devices.write
  by_cases h : j = i
  · subst h; simp
  · simp [Function.update_noteq h, h]

theorem dev_id_guard (dev_id : Int) (h1 : 1 ≤ dev_id) (h2 : dev_id ≤ 127) :
    ¬ (dev_id ≤ 0 ∨ dev_id > (DEVICE_COUNT_MAX : Int)) := by
  unfold DEVICE_COUNT_MAX; omega

/-! ## Binary64 lemmas -/

theorem round_half_even_cases (y : ℚ) :
    (round_half_even y = ⌊y⌋ ∧ y - ⌊y⌋ ≤ 1 / 2) ∨
    (round_half_even y = ⌊y⌋ + 1 ∧ 1 / 2 ≤ y - ⌊y⌋) := by
  unfold round_half_even
  dsimp only
  by_cases h1 : y - ⌊y⌋ < 1 / 2
  · left; rw [if_pos h1]; exact ⟨rfl, le_of_lt h1⟩
  · rw [if_neg h1]
    by_cases h2 : 1 / 2 < y - ⌊y⌋
    · right; rw [if_pos h2]; exact ⟨rfl, le_of_lt h2⟩
    · rw [if_neg h2]
      have e : y - ⌊y⌋ = 1 / 2 := le_antisymm (not_lt.mp h2) (not_lt.mp h1)
      by_cases h3 : ⌊y⌋ % 2 = 0
      · left; rw [if_pos h3]; exact ⟨rfl, le_of_eq e⟩
      · right; rw [if_neg h3]; exact ⟨rfl, le_of_eq e.symm⟩

theorem round_half_even_intCast (n : Int) : round_half_even (n : ℚ) = n := by
  unfold round_half_even
  simp

theorem round_half_even_error (y : ℚ) : |(round_half_even y : ℚ) - y| ≤ 1 / 2 := by
  have hf := Int.floor_le y
  have hl := Int.lt_floor_add_one y
  rcases round_half_even_cases y with ⟨e, h⟩ | ⟨e, h⟩
  · rw [e, abs_le]; constructor <;> linarith
  · rw [e, abs_le]; push_cast; constructor <;> linarith

theorem round_half_even_abs_le (y : ℚ) (N : Int) (h : |y| ≤ N) : |round_half_even y| ≤ N := by
  have hf := Int.floor_le y
  have hl := Int.lt_floor_add_one y
  obtain ⟨h1, h2⟩ := abs_le.mp h
  have hlo : -N ≤ ⌊y⌋ := Int.le_floor.mpr (by push_cast; exact h1)
  have hhi : ⌊y⌋ ≤ N := by
    have : ((⌊y⌋ : Int) : ℚ) ≤ N := le_trans hf h2
    exact_mod_cast this
  rcases round_half_even_cases y with ⟨e, _⟩ | ⟨e, hr⟩
  · rw [e, abs_le]; exact ⟨hlo, hhi⟩
  · rw [e, abs_le]
    constructor
    · omega
    · have : ((⌊y⌋ : Int) : ℚ) < N := by linarith
      have : ⌊y⌋ < N := by exact_mod_cast this
      omega

theorem binary64_quantum_ge (x : ℚ) : -1074 ≤ binary64_quantum x := by
  unfold binary64_quantum
  have := le_max_right (Int.log 2 |x|) (-1022)
  omega

theorem binary64_zero : binary64 0 = 0 := by
  unfold binary64
  simp [round_half_even]

theorem two_zpow_pos (e : Int) : (0 : ℚ) < 2 ^ e := zpow_pos (by norm_num) e

theorem log_lt_of_abs_lt (x : ℚ) (hx : x ≠ 0) (k : Int) (h : |x| < 2 ^ k) :
    Int.log 2 |x| < k := by
  have := (Int.lt_zpow_iff_log_lt (R := ℚ) (b := 2) (by norm_num) (abs_pos.mpr hx)).mp
    (by simpa using h)
  exact this

theorem le_log_of_le_abs (x : ℚ) (hx : x ≠ 0) (k : Int) (h : 2 ^ k ≤ |x|) :
    k ≤ Int.log 2 |x| := by
  have := (Int.zpow_le_iff_le_log (R := ℚ) (b := 2) (by norm_num) (abs_pos.mpr hx)).mp
    (by simpa using h)
  exact this

theorem abs_lt_zpow_log (x : ℚ) : |x| < 2 ^ (Int.log 2 |x| + 1) := by
  have := Int.lt_zpow_succ_log_self (R := ℚ) (b := 2) (by norm_num) |x|
  simpa using this

/-- The scaled value that `binary64` rounds has magnitude below `2^53`. -/
theorem binary64_scaled_lt (x : ℚ) : |x / 2 ^ binary64_quantum x| < 2 ^ 53 := by
  have hq : Int.log 2 |x| + 1 ≤ binary64_quantum x + 53 := by
    unfold binary64_quantum
    have := le_max_left (Int.log 2 |x|) (-1022)
    omega
  have h1 := abs_lt_zpow_log x
  have h2 : (2 : ℚ) ^ (Int.log 2 |x| + 1) ≤ 2 ^ (binary64_quantum x + 53) :=
    zpow_le_zpow_right₀ (by norm_num) hq
  rw [abs_div, abs_of_pos (two_zpow_pos _), div_lt_iff₀ (two_zpow_pos _)]
  calc |x| < 2 ^ (binary64_quantum x + 53) := lt_of_lt_of_le h1 h2
    _ = 2 ^ 53 * 2 ^ binary64_quantum x := by
      rw [zpow_add₀ (by norm_num : (2 : ℚ) ≠ 0), mul_comm]; norm_num

/-- The result of `binary64` is an integer of at most 53 bits (or `2^53`)
times the quantum. -/
theorem binary64_form (x : ℚ) :
    ∃ m : Int, |m| ≤ 2 ^ 53 ∧ binary64 x = m * 2 ^ binary64_quantum x := by
  refine ⟨round_half_even (x / 2 ^ binary64_quantum x), ?_, by unfold binary64; rfl⟩
  apply round_half_even_abs_le
  have := binary64_scaled_lt x
  push_cast
  exact le_of_lt this

theorem binary64_exact_lt (m e : Int) (hm : |m| < 2 ^ 53) (he : -1074 ≤ e) :
    binary64 ((m : ℚ) * 2 ^ e) = (m : ℚ) * 2 ^ e := by
  by_cases h0 : m = 0
  · subst h0; simp [binary64_zero]
  have hx : (m : ℚ) * 2 ^ e ≠ 0 :=
    mul_ne_zero (by exact_mod_cast h0) (ne_of_gt (two_zpow_pos e))
  have habs : |(m : ℚ) * 2 ^ e| < 2 ^ (53 + e) := by
    rw [abs_mul, abs_of_pos (two_zpow_pos e), zpow_add₀ (by norm_num : (2 : ℚ) ≠ 0)]
    apply mul_lt_mul_of_pos_right _ (two_zpow_pos e)
    have : ((|m| : Int) : ℚ) < ((2 ^ 53 : Int) : ℚ) := by exact_mod_cast hm
    rw [Int.cast_abs] at this
    exact lt_of_lt_of_eq this (by norm_num)
  have hlog := log_lt_of_abs_lt _ hx _ habs
  have hq : binary64_quantum ((m : ℚ) * 2 ^ e) ≤ e := by
    unfold binary64_quantum
    have : max (Int.log 2 |(m : ℚ) * 2 ^ e|) (-1022) ≤ 52 + e := max_le (by omega) (by omega)
    omega
  unfold binary64
  generalize binary64_quantum ((m : ℚ) * 2 ^ e) = q at hq
  obtain ⟨k, hk⟩ : ∃ k : Nat, e = q + k := ⟨(e - q).toNat, by omega⟩
  have e1 : (m : ℚ) * 2 ^ e / 2 ^ q = ((m * 2 ^ k : Int) : ℚ) := by
    rw [hk, zpow_add₀ (by norm_num : (2 : ℚ) ≠ 0), zpow_natCast]
    push_cast
    field_simp
    ring
  rw [e1, round_half_even_intCast, hk, zpow_add₀ (by norm_num : (2 : ℚ) ≠ 0), zpow_natCast]
  push_cast
  ring

/-- A value `m * 2^e` with `|m| ≤ 2^53` and `e ≥ -1074` is a binary64 number:
rounding leaves it as it is. -/
theorem binary64_exact (m e : Int) (hm : |m| ≤ 2 ^ 53) (he : -1074 ≤ e) :
    binary64 ((m : ℚ) * 2 ^ e) = (m : ℚ) * 2 ^ e := by
  by_cases h : |m| < 2 ^ 53
  · exact binary64_exact_lt m e h he
  · have hm2 : |m| = 2 ^ 53 := le_antisymm hm (not_lt.mp h)
    have e2 : (m : ℚ) * 2 ^ e = ((m / 2 : Int) : ℚ) * 2 ^ (e + 1) := by
      have hd : m = (m / 2) * 2 := by
        rcases abs_eq (by norm_num : (0 : Int) ≤ 2 ^ 53) |>.mp hm2 with h | h <;> rw [h] <;> norm_num
      rw [zpow_add₀ (by norm_num : (2 : ℚ) ≠ 0)]
      conv_lhs => rw [hd]
      push_cast
      ring
    rw [e2]
    apply binary64_exact_lt _ _ _ (by omega)
    rcases abs_eq (by norm_num : (0 : Int) ≤ 2 ^ 53) |>.mp hm2 with h | h <;> rw [h] <;> norm_num

theorem binary64_idem (x : ℚ) : binary64 (binary64 x) = binary64 x := by
  obtain ⟨m, hm, e⟩ := binary64_form x
  rw [e]
  exact binary64_exact m _ hm (binary64_quantum_ge x)

theorem binary64_intCast (n : Int) (h : |n| ≤ 2 ^ 53) : binary64 (n : ℚ) = n := by
  have := binary64_exact n 0 h (by norm_num)
  simpa using this

/-- Dividing the binary64 value of an integer by a power of two is exact. -/
theorem binary64_intCast_div (n : Int) (k : Nat) (hk : k ≤ 1000) :
    binary64 (binary64 (n : ℚ) / 2 ^ k) = binary64 (n : ℚ) / 2 ^ k := by
  by_cases h0 : n = 0
  · subst h0; simp [binary64_zero]
  obtain ⟨m, hm, e⟩ := binary64_form (n : ℚ)
  have hq : -52 ≤ binary64_quantum (n : ℚ) := by
    have h1 : (2 : ℚ) ^ (0 : Int) ≤ |(n : ℚ)| := by
      have : (1 : Int) ≤ |n| := Int.one_le_abs h0
      have : ((1 : Int) : ℚ) ≤ ((|n| : Int) : ℚ) := by exact_mod_cast this
      simpa using this
    have := le_log_of_le_abs (n : ℚ) (by exact_mod_cast h0) 0 h1
    unfold binary64_quantum
    have := le_max_left (Int.log 2 |(n : ℚ)|) (-1022)
    omega
  rw [e]
  have e3 : (m : ℚ) * 2 ^ binary64_quantum (n : ℚ) / 2 ^ k =
      (m : ℚ) * 2 ^ (binary64_quantum (n : ℚ) - k) := by
    rw [zpow_sub₀ (by norm_num : (2 : ℚ) ≠ 0), zpow_natCast]
    ring
  rw [e3]
  exact binary64_exact m _ hm (by omega)

theorem binary64_quantum_eq (x : ℚ) (e : Int) (h1 : 2 ^ (e + 52) ≤ |x|) (h2 : |x| < 2 ^ (e + 53))
    (he : -1074 ≤ e) : binary64_quantum x = e := by
  have hx : x ≠ 0 := by
    intro h
    rw [h, abs_zero] at h1
    exact absurd h1 (not_le.mpr (two_zpow_pos _))
  have a := le_log_of_le_abs x hx _ h1
  have b := log_lt_of_abs_lt x hx _ h2
  unfold binary64_quantum
  rw [max_eq_left (by omega)]
  omega

/-- How `binary64` is evaluated at a value of the binade `[2^(e+52), 2^(e+53))`. -/
theorem binary64_eval (x : ℚ) (e n : Int) (h1 : 2 ^ (e + 52) ≤ |x|) (h2 : |x| < 2 ^ (e + 53))
    (he : -1074 ≤ e) (hn : round_half_even (x / 2 ^ e) = n) :
    binary64 x = (n : ℚ) * 2 ^ e := by
  unfold binary64
  rw [binary64_quantum_eq x e h1 h2 he, hn]

theorem round_half_even_of_lt (y : ℚ) (n : Int) (h1 : (n : ℚ) - 1 / 2 < y)
    (h2 : y < (n : ℚ) + 1 / 2) : round_half_even y = n := by
  have hf := Int.floor_le y
  have hl := Int.lt_floor_add_one y
  rcases round_half_even_cases y with ⟨e, h⟩ | ⟨e, h⟩
  · rw [e]
    have a : ((⌊y⌋ : Int) : ℚ) < (n : ℚ) + 1 := by linarith
    have b : (n : ℚ) - 1 < ((⌊y⌋ : Int) : ℚ) := by linarith
    have a' : ⌊y⌋ < n + 1 := by exact_mod_cast a
    have b' : n - 1 < ⌊y⌋ := by exact_mod_cast b
    omega
  · rw [e]
    have a : ((⌊y⌋ : Int) : ℚ) < (n : ℚ) := by linarith
    have b : (n : ℚ) - 2 < ((⌊y⌋ : Int) : ℚ) := by linarith
    have a' : ⌊y⌋ < n := by exact_mod_cast a
    have b' : n - 2 < ⌊y⌋ := by exact_mod_cast b
    omega

theorem round_half_even_tie (n : Int) (he : n % 2 = 0) :
    round_half_even ((n : ℚ) + 1 / 2) = n ∧ round_half_even ((n : ℚ) - 1 / 2) = n := by
  have f1 : ⌊(n : ℚ) + 1 / 2⌋ = n := by
    rw [Int.floor_eq_iff]; constructor <;> linarith
  have f2 : ⌊(n : ℚ) - 1 / 2⌋ = n - 1 := by
    rw [Int.floor_eq_iff]; push_cast; constructor <;> linarith
  constructor
  · unfold round_half_even
    dsimp only
    rw [f1, if_neg (by linarith), if_neg (by linarith), if_pos he]
  · unfold round_half_even
    dsimp only
    rw [f2, if_neg (by push_cast; linarith), if_neg (by push_cast; linarith),
      if_neg (by omega)]
    omega

/-- The binary64 value of an int64 stays within the int64 magnitudes. -/
theorem binary64_intCast_abs_le (n : Int) (h : |n| ≤ 2 ^ 63) : |binary64 (n : ℚ)| ≤ 2 ^ 63 := by
  by_cases h0 : n = 0
  · subst h0; simp [binary64_zero]
  have hx : (n : ℚ) ≠ 0 := by exact_mod_cast h0
  have habs : |(n : ℚ)| ≤ 2 ^ 63 := by
    have : ((|n| : Int) : ℚ) ≤ ((2 ^ 63 : Int) : ℚ) := by exact_mod_cast h
    rw [Int.cast_abs] at this
    exact le_of_le_of_eq this (by norm_num)
  have hlog : Int.log 2 |(n : ℚ)| < 64 :=
    log_lt_of_abs_lt _ hx 64 (lt_of_le_of_lt habs (by norm_num))
  have hq : binary64_quantum (n : ℚ) ≤ 11 := by
    unfold binary64_quantum
    have : max (Int.log 2 |(n : ℚ)|) (-1022) ≤ 63 := max_le (by omega) (by omega)
    omega
  unfold binary64
  generalize binary64_quantum (n : ℚ) = q at hq
  obtain ⟨k, hk⟩ : ∃ k : Nat, (63 : Int) = q + k := ⟨(63 - q).toNat, by omega⟩
  have hpow : (2 : ℚ) ^ (63 : Int) = 2 ^ q * 2 ^ k := by
    rw [hk, zpow_add₀ (by norm_num : (2 : ℚ) ≠ 0), zpow_natCast]
  have hy : |(n : ℚ) / 2 ^ q| ≤ ((2 ^ k : Int) : ℚ) := by
    rw [abs_div, abs_of_pos (two_zpow_pos q), div_le_iff₀ (two_zpow_pos q)]
    push_cast
    calc |(n : ℚ)| ≤ 2 ^ (63 : Int) := le_of_le_of_eq habs (by norm_num)
      _ = 2 ^ k * 2 ^ q := by rw [hpow, mul_comm]
  have hm := round_half_even_abs_le _ _ hy
  rw [abs_mul, abs_of_pos (two_zpow_pos q)]
  have hm' : |((round_half_even ((n : ℚ) / 2 ^ q) : Int) : ℚ)| ≤ 2 ^ k := by
    have : ((|round_half_even ((n : ℚ) / 2 ^ q)| : Int) : ℚ) ≤ ((2 ^ k : Int) : ℚ) := by
      exact_mod_cast hm
    rw [Int.cast_abs] at this
    simpa using this
  calc |((round_half_even ((n : ℚ) / 2 ^ q) : Int) : ℚ)| * 2 ^ q ≤ 2 ^ k * 2 ^ q :=
      mul_le_mul_of_nonneg_right hm' (le_of_lt (two_zpow_pos q))
    _ = 2 ^ (63 : Int) := by rw [hpow, mul_comm]
    _ = 2 ^ 63 := by norm_num

/-- Rounding does not overflow: a value within `2^36` of the finite range
rounds to a finite binary64 number. -/
theorem binary64_finite (x : ℚ) (h : |x| ≤ DBL_MAX + 2 ^ 36) : |binary64 x| ≤ DBL_MAX := by
  by_cases h0 : x = 0
  · subst h0; rw [binary64_zero]; unfold DBL_MAX; norm_num
  have hlt : |x| < 2 ^ (1024 : Int) := by
    refine lt_of_le_of_lt h ?_
    unfold DBL_MAX
    norm_num
  have hlog := log_lt_of_abs_lt x h0 1024 hlt
  have hq : binary64_quantum x ≤ 971 := by
    unfold binary64_quantum
    have : max (Int.log 2 |x|) (-1022) ≤ 1023 := max_le (by omega) (by omega)
    omega
  have hsc := binary64_scaled_lt x
  have herr := round_half_even_error (x / 2 ^ binary64_quantum x)
  unfold binary64
  generalize binary64_quantum x = q at hq hsc herr
  generalize hm : round_half_even (x / 2 ^ q) = m at herr
  rw [abs_mul, abs_of_pos (two_zpow_pos q)]
  have hmle : |m| ≤ 2 ^ 53 := by
    rw [← hm]
    apply round_half_even_abs_le
    push_cast
    exact le_of_lt hsc
  have hmq : |(m : ℚ)| ≤ 2 ^ 53 := by
    have : ((|m| : Int) : ℚ) ≤ ((2 ^ 53 : Int) : ℚ) := by exact_mod_cast hmle
    rw [Int.cast_abs] at this
    exact le_of_le_of_eq this (by norm_num)
  by_cases hq2 : q ≤ 970
  · have hp : (2 : ℚ) ^ q ≤ 2 ^ (970 : Int) := zpow_le_zpow_right₀ (by norm_num) hq2
    calc |(m : ℚ)| * 2 ^ q ≤ 2 ^ 53 * 2 ^ (970 : Int) :=
        mul_le_mul hmq hp (le_of_lt (two_zpow_pos q)) (by norm_num)
      _ ≤ DBL_MAX := by unfold DBL_MAX; norm_num
  · have hq3 : q = 971 := by omega
    subst hq3
    have hy : |x / 2 ^ (971 : Int)| < 2 ^ 53 - 1 / 2 := by
      rw [abs_div, abs_of_pos (two_zpow_pos _), div_lt_iff₀ (two_zpow_pos _)]
      refine lt_of_le_of_lt h ?_
      unfold DBL_MAX
      norm_num
    have hm1 : |(m : ℚ)| < 2 ^ 53 := by
      have : |(m : ℚ)| ≤ |(m : ℚ) - x / 2 ^ (971 : Int)| + |x / 2 ^ (971 : Int)| := by
        have := abs_add ((m : ℚ) - x / 2 ^ (971 : Int)) (x / 2 ^ (971 : Int))
        simpa using this
      linarith
    have hm2 : |m| < 2 ^ 53 := by
      have : ((|m| : Int) : ℚ) < ((2 ^ 53 : Int) : ℚ) := by
        rw [Int.cast_abs]; exact lt_of_lt_of_eq hm1 (by norm_num)
      exact_mod_cast this
    have hm3 : |(m : ℚ)| ≤ 2 ^ 53 - 1 := by
      have : |m| ≤ 2 ^ 53 - 1 := by omega
      have : ((|m| : Int) : ℚ) ≤ ((2 ^ 53 - 1 : Int) : ℚ) := by exact_mod_cast this
      rw [Int.cast_abs] at this
      exact le_of_le_of_eq this (by norm_num)
    calc |(m : ℚ)| * 2 ^ (971 : Int) ≤ (2 ^ 53 - 1) * 2 ^ (971 : Int) :=
        mul_le_mul_of_nonneg_right hm3 (le_of_lt (two_zpow_pos _))
      _ = DBL_MAX := by unfold DBL_MAX; norm_num

/-! ## Poller lemmas -/

theorem int64_t_sub_int64_t (a b : Int) : int64_t (int64_t a - b) = int64_t (a - b) := by
  unfold int64_t; omega

theorem int64_t_sub_sub (a b : Int) (hb : -2 ^ 63 ≤ b) (hb2 : b < 2 ^ 63) :
    int64_t (a - int64_t (a - b)) = b := by
  unfold int64_t; omega

theorem int64_t_of_range (b : Int) (hb : -2 ^ 63 ≤ b) (hb2 : b < 2 ^ 63) : int64_t b = b := by
  unfold int64_t; omega

theorem int64_t_range (a : Int) : -2 ^ 63 ≤ int64_t a ∧ int64_t a < 2 ^ 63 := by
  unfold int64_t; omega

/-- A valid reply on an open slot: the status is 0, the slot is replaced by the
adjusted one, and the adjusted update goes to the callback when there is one. -/
theorem js110_statistics_valid (cbk_fn_ : Nat) (devices_ : Devices) (dev_id : Int)
    (pkt : List Nat) (h1 : 1 ≤ dev_id) (h2 : dev_id ≤ 127)
    (hopen : (devices_.slot dev_id.toNat).state = ST_OPEN) (hlen : pkt.length = 104)
    (hnz : buf_decode_i32 (pkt.drop 56) ≠ 0) :
    js110_statistics cbk_fn_ devices_ dev_id (some pkt) =
      (0,
        devices_.write dev_id.toNat
          (statistics_adjust (devices_.slot dev_id.toNat)
            (statistics_parse (devices_.slot dev_id.toNat).serial_number pkt)).1,
        if cbk_fn_ ≠ 0 then
          [(statistics_adjust (devices_.slot dev_id.toNat)
            (statistics_parse (devices_.slot dev_id.toNat).serial_number pkt)).2]
        else []) := by
  have hnz' : ¬ (0 = buf_decode_i32 (pkt.drop 56)) := fun h => hnz h.symm
  simp only [js110_statistics, if_neg (dev_id_guard dev_id h1 h2), hopen, hlen, hnz']
  simp

theorem statistics_adjust_resync (d : device_s) (s : js110_statistics_s) (hr : d.resync ≠ 0) :
    statistics_adjust d s =
      ({ d with
          samples_total_offset := int64_t (s.samples_total - d.samples_total_accum),
          charge_offset := double_sub s.charge d.charge_accum,
          energy_offset := double_sub s.energy d.energy_accum,
          resync := 0,
          samples_total_accum :=
            int64_t (s.samples_total - int64_t (s.samples_total - d.samples_total_accum)),
          charge_accum := double_sub s.charge (double_sub s.charge d.charge_accum),
          energy_accum := double_sub s.energy (double_sub s.energy d.energy_accum) },
        { s with
          samples_total :=
            int64_t (s.samples_total - int64_t (s.samples_total - d.samples_total_accum)),
          charge := double_sub s.charge (double_sub s.charge d.charge_accum),
          energy := double_sub s.energy (double_sub s.energy d.energy_accum) }) := by
  simp [statistics_adjust, hr]

theorem statistics_adjust_steady (d : device_s) (s : js110_statistics_s) (hr : d.resync = 0) :
    statistics_adjust d s =
      ({ d with
          samples_total_accum := int64_t (s.samples_total - d.samples_total_offset),
          charge_accum := double_sub s.charge d.charge_offset,
          energy_accum := double_sub s.energy d.energy_offset },
        { s with
          samples_total := int64_t (s.samples_total - d.samples_total_offset),
          charge := double_sub s.charge d.charge_offset,
          energy := double_sub s.energy d.energy_offset }) := by
  simp [statistics_adjust, hr]

theorem int32_t_abs (x : Int) : |int32_t x| ≤ 2 ^ 31 := by
  unfold int32_t; rw [abs_le]; omega

theorem int64_t_abs (x : Int) : |int64_t x| ≤ 2 ^ 63 := by
  unfold int64_t; rw [abs_le]; omega

/-- An int32 converted to `double` and divided by a power of two gives the exact
quotient. -/
theorem double_div_int32 (n : Int) (k : Nat) (hn : |n| ≤ 2 ^ 31) (hk : k ≤ 1000) :
    double_div (double_of_int n) (2 ^ k) = (n : ℚ) / 2 ^ k := by
  have h53 : |n| ≤ 2 ^ 53 := le_trans hn (by norm_num)
  unfold double_div double_of_int
  rw [binary64_intCast n h53]
  have e := binary64_exact n (-(k : Int)) h53 (by omega)
  rw [zpow_neg, zpow_natCast, ← div_eq_mul_inv] at e
  exact e

/-- An int64 converted to `double` is rounded; the division by a power of two is
then exact. -/
theorem double_div_int64 (n : Int) (k : Nat) (hk : k ≤ 1000) :
    double_div (double_of_int n) (2 ^ k) = binary64 (n : ℚ) / 2 ^ k := by
  unfold double_div double_of_int
  exact binary64_intCast_div n k hk

theorem statistics_parse_charge (sn : Int) (pkt : List Nat) :
    (statistics_parse sn pkt).charge = raw_charge pkt ∧
    (statistics_parse sn pkt).energy = raw_energy pkt := by
  unfold raw_charge raw_energy
  exact ⟨double_div_int64 _ 27 (by norm_num), double_div_int64 _ 27 (by norm_num)⟩

theorem raw_charge_binary64 (pkt : List Nat) :
    binary64 (raw_charge pkt) = raw_charge pkt ∧ binary64 (raw_energy pkt) = raw_energy pkt := by
  unfold raw_charge raw_energy
  exact ⟨binary64_intCast_div _ 27 (by norm_num), binary64_intCast_div _ 27 (by norm_num)⟩

theorem raw_charge_abs_le (pkt : List Nat) :
    |raw_charge pkt| ≤ 2 ^ 36 ∧ |raw_energy pkt| ≤ 2 ^ 36 := by
  have key : ∀ n : Int, |n| ≤ 2 ^ 63 → |binary64 (n : ℚ) / 2 ^ 27| ≤ 2 ^ 36 := by
    intro n hn
    have := binary64_intCast_abs_le n hn
    rw [abs_div, abs_of_pos (by norm_num : (0 : ℚ) < 2 ^ 27), div_le_iff₀ (by norm_num)]
    exact le_trans this (by norm_num)
  unfold raw_charge raw_energy buf_decode_i64
  exact ⟨key _ (int64_t_abs _), key _ (int64_t_abs _)⟩

/-- A subtraction whose first operand is a reply value and whose second is a
finite `double` gives a finite `double`. -/
theorem double_sub_finite (a b : ℚ) (ha : |a| ≤ 2 ^ 36) (hb : |b| ≤ DBL_MAX) :
    |double_sub a b| ≤ DBL_MAX := by
  unfold double_sub
  apply binary64_finite
  calc |a - b| ≤ |a| + |b| := abs_sub a b
    _ ≤ DBL_MAX + 2 ^ 36 := by linarith

theorem statistics_adjust_finite_aux (d : device_s) (s : js110_statistics_s)
    (hc : |s.charge| ≤ 2 ^ 36) (he : |s.energy| ≤ 2 ^ 36)
    (h1 : |d.charge_accum| ≤ DBL_MAX) (h2 : |d.charge_offset| ≤ DBL_MAX)
    (h3 : |d.energy_accum| ≤ DBL_MAX) (h4 : |d.energy_offset| ≤ DBL_MAX) :
    |(statistics_adjust d s).1.charge_accum| ≤ DBL_MAX ∧
    |(statistics_adjust d s).1.charge_offset| ≤ DBL_MAX ∧
    |(statistics_adjust d s).1.energy_accum| ≤ DBL_MAX ∧
    |(statistics_adjust d s).1.energy_offset| ≤ DBL_MAX ∧
    |(statistics_adjust d s).2.charge| ≤ DBL_MAX ∧
    |(statistics_adjust d s).2.energy| ≤ DBL_MAX := by
  have sub := double_sub_finite
  by_cases hr : d.resync = 0
  · rw [statistics_adjust_steady _ _ hr]
    exact ⟨sub _ _ hc h2, h2, sub _ _ he h4, h4, sub _ _ hc h2, sub _ _ he h4⟩
  · rw [statistics_adjust_resync _ _ hr]
    exact ⟨sub _ _ hc (sub _ _ hc h1), sub _ _ hc h1, sub _ _ he (sub _ _ he h3),
      sub _ _ he h3, sub _ _ hc (sub _ _ hc h1), sub _ _ he (sub _ _ he h3)⟩

/-- The subtractions of the poller do not overflow: with finite totals and
offsets in the slot, every `double` the adjustment stores or emits is finite. -/
theorem statistics_adjust_finite (d : device_s) (sn : Int) (pkt : List Nat)
    (h1 : |d.charge_accum| ≤ DBL_MAX) (h2 : |d.charge_offset| ≤ DBL_MAX)
    (h3 : |d.energy_accum| ≤ DBL_MAX) (h4 : |d.energy_offset| ≤ DBL_MAX) :
    |(statistics_adjust d (statistics_parse sn pkt)).1.charge_accum| ≤ DBL_MAX ∧
    |(statistics_adjust d (statistics_parse sn pkt)).1.charge_offset| ≤ DBL_MAX ∧
    |(statistics_adjust d (statistics_parse sn pkt)).1.energy_accum| ≤ DBL_MAX ∧
    |(statistics_adjust d (statistics_parse sn pkt)).1.energy_offset| ≤ DBL_MAX ∧
    |(statistics_adjust d (statistics_parse sn pkt)).2.charge| ≤ DBL_MAX ∧
    |(statistics_adjust d (statistics_parse sn pkt)).2.energy| ≤ DBL_MAX :=
  statistics_adjust_finite_aux d (statistics_parse sn pkt)
    (le_of_eq_of_le (congrArg abs (statistics_parse_charge sn pkt).1) (raw_charge_abs_le pkt).1)
    (le_of_eq_of_le (congrArg abs (statistics_parse_charge sn pkt).2) (raw_charge_abs_le pkt).2)
    h1 h2 h3 h4

/-! ## Session manager lemmas -/

theorem device_close_eq (ds : Devices) (dev_id : Int) :
    device_close ds dev_id =
      if dev_id ≤ 0 ∨ 128 < dev_id then (1, ds)
      else if (ds.slot dev_id.toNat).state = ST_OPEN then
        (0, ds.write dev_id.toNat
          { ds.slot dev_id.toNat with state := ST_MISSING, winusb := 0, file := 0 })
      else (0, ds) := by
  unfold device_close DEVICE_COUNT_MAX
  by_cases hg : dev_id ≤ 0 ∨ 128 < dev_id
  · rw [if_pos hg, if_pos (by simpa using hg)]
  · rw [if_neg hg, if_neg (by simpa using hg)]
    by_cases ho : (ds.slot dev_id.toNat).state = ST_OPEN
    · rw [if_pos ho]
      generalize ds.slot dev_id.toNat = d at ho ⊢
      cases d with
      | mk id sn file winusb state mark path resync o1 a1 o2 a2 o3 a3 =>
        simp only at ho
        by_cases hw : winusb = 0 <;> by_cases hf : file = 0 <;> simp [hw, hf, ho]
    · rw [if_neg ho]
      simp [ho]

theorem device_close_slot (ds : Devices) (dev_id : Int) (j : Nat) :
    (device_close ds dev_id).2.slot j =
      if j = dev_id.toNat ∧ 1 ≤ dev_id ∧ dev_id ≤ 128 ∧ (ds.slot j).state = ST_OPEN then
        { ds.slot j with state := ST_MISSING, winusb := 0, file := 0 }
      else ds.slot j := by
  rw [device_close_eq]
  by_cases hg : dev_id ≤ 0 ∨ 128 < dev_id
  · rw [if_pos hg, if_neg (by omega)]
  · rw [if_neg hg]
    by_cases hj : j = dev_id.toNat
    · subst hj
      by_cases ho : (ds.slot dev_id.toNat).state = ST_OPEN
      · rw [if_pos ho, if_pos ⟨rfl, by omega, by omega, ho⟩]; simp
      · rw [if_neg ho, if_neg (fun h => ho h.2.2.2)]
    · have hn : ¬ (j = dev_id.toNat ∧ 1 ≤ dev_id ∧ dev_id ≤ 128 ∧ (ds.slot j).state = ST_OPEN) :=
        fun h => hj h.1
      rw [if_neg hn]
      by_cases ho : (ds.slot dev_id.toNat).state = ST_OPEN
      · rw [if_pos ho]; simp [hj]
      · rw [if_neg ho]

theorem device_close_not_open (ds : Devices) (dev_id : Int)
    (h : (ds.slot dev_id.toNat).state ≠ ST_OPEN) : (device_close ds dev_id).2 = ds := by
  rw [device_close_eq]
  split_ifs <;> rfl

theorem device_close_fst (ds : Devices) (dev_id : Int) (h1 : 1 ≤ dev_id) (h2 : dev_id ≤ 127) :
    (device_close ds dev_id).1 = 0 := by
  rw [device_close_eq, if_neg (by omega)]
  split_ifs <;> rfl

theorem device_open__eq (ds : Devices) (dev_id : Int) (t : transport_open)
    (h : (ds.slot dev_id.toNat).state ≠ ST_OPEN) :
    device_open_ ds dev_id t =
      (if t.ok then 0 else 1, ds.write dev_id.toNat (opened_slot (ds.slot dev_id.toNat) t)) := by
  unfold device_open_ opened_slot transport_open.ok
  by_cases h1 : t.CreateFileW = INVALID_HANDLE_VALUE
  · simp [h1]
  · by_cases h2 : t.WinUsb_Initialize = false
    · simp only [h1, h2, if_false, if_true]
      rw [device_close_not_open]
      · cases hw : t.winusb <;> simp [hw]
      · cases hw : t.winusb <;> simp [hw, h]
    · by_cases h3 : t.WinUsb_ControlTransfer = true
      · cases hw : t.winusb <;> simp [h1, h2, h3, hw]
      · cases hw : t.winusb <;> simp [h1, h2, h3, hw]

theorem device_open_eq (ds : Devices) (dev_id : Int) (t : transport_open) :
    device_open ds dev_id t =
      if dev_id ≤ 0 ∨ 128 < dev_id then (1, ds)
      else if (ds.slot dev_id.toNat).state = ST_EMPTY then (2, ds)
      else if (ds.slot dev_id.toNat).state = ST_OPEN then (0, ds)
      else (if t.ok then 0 else 1,
        ds.write dev_id.toNat (opened_slot (ds.slot dev_id.toNat) t)) := by
  unfold device_open DEVICE_COUNT_MAX
  by_cases hg : dev_id ≤ 0 ∨ 128 < dev_id
  · rw [if_pos hg, if_pos (by simpa using hg)]
  · rw [if_neg hg, if_neg (by simpa using hg)]
    cases hs : (ds.slot dev_id.toNat).state
    · simp
    · simp only [reduceCtorEq, if_false]
      rw [device_open__eq]; simp [hs]
    · simp
    · simp only [reduceCtorEq, if_false]
      rw [device_open__eq]; simp [hs]

theorem device_open_slot (ds : Devices) (dev_id : Int) (t : transport_open) (j : Nat) :
    (device_open ds dev_id t).2.slot j =
      if j = dev_id.toNat ∧ 1 ≤ dev_id ∧ dev_id ≤ 128 ∧ (ds.slot j).state ≠ ST_EMPTY ∧
          (ds.slot j).state ≠ ST_OPEN then
        opened_slot (ds.slot j) t
      else ds.slot j := by
  rw [device_open_eq]
  by_cases hg : dev_id ≤ 0 ∨ 128 < dev_id
  · rw [if_pos hg, if_neg (by omega)]
  · rw [if_neg hg]
    by_cases hj : j = dev_id.toNat
    · subst hj
      by_cases he : (ds.slot dev_id.toNat).state = ST_EMPTY
      · rw [if_pos he, if_neg (fun h => h.2.2.2.1 he)]
      · rw [if_neg he]
        by_cases ho : (ds.slot dev_id.toNat).state = ST_OPEN
        · rw [if_pos ho, if_neg (fun h => h.2.2.2.2 ho)]
        · rw [if_neg ho]
          simp only [slot_write, if_true]
          exact (if_pos ⟨trivial, by omega, by omega, he, ho⟩).symm
    · have hn : ¬ (j = dev_id.toNat ∧ 1 ≤ dev_id ∧ dev_id ≤ 128 ∧ (ds.slot j).state ≠ ST_EMPTY ∧
          (ds.slot j).state ≠ ST_OPEN) := fun h => hj h.1
      rw [if_neg hn]
      split_ifs <;> simp [hj]

theorem opened_slot_path (d : device_s) (t : transport_open) :
    (opened_slot d t).DevicePath = d.DevicePath := by
  unfold opened_slot; split_ifs <;> rfl

theorem opened_slot_mark (d : device_s) (t : transport_open) :
    (opened_slot d t).mark = d.mark := by
  unfold opened_slot; split_ifs <;> rfl

theorem opened_slot_state (d : device_s) (t : transport_open) :
    (opened_slot d t).state = if t.ok then ST_OPEN else d.state := by
  unfold opened_slot transport_open.ok
  by_cases h1 : t.CreateFileW = INVALID_HANDLE_VALUE
  · simp [h1]
  · by_cases h2 : t.WinUsb_Initialize = false
    · simp [h1, h2]
    · by_cases h3 : t.WinUsb_ControlTransfer = true <;> simp [h1, h2, h3]

theorem opened_slot_not_empty (d : device_s) (t : transport_open) (h : d.state ≠ ST_EMPTY) :
    (opened_slot d t).state ≠ ST_EMPTY := by
  rw [opened_slot_state]; split_ifs <;> simp [h]

theorem opened_slot_totals (d : device_s) (t : transport_open) :
    (opened_slot d t).samples_total_accum = d.samples_total_accum ∧
    (opened_slot d t).samples_total_offset = d.samples_total_offset ∧
    (opened_slot d t).charge_accum = d.charge_accum ∧
    (opened_slot d t).charge_offset = d.charge_offset ∧
    (opened_slot d t).energy_accum = d.energy_accum ∧
    (opened_slot d t).energy_offset = d.energy_offset ∧
    (opened_slot d t).id = d.id := by
  unfold opened_slot; split_ifs <;> simp


/-! ## Scanner lemmas -/

theorem Devices.ext_slot {a b : Devices} (h : ∀ j, a.slot j = b.slot j) : a = b := by
  cases a; cases b; simp only [Devices.mk.injEq]; funext j; exact h j

theorem write_write (ds : Devices) (i : Nat) (x y : device_s) :
    (ds.write i x).write i y = ds.write i y := by
  apply Devices.ext_slot; intro j; simp only [slot_write]; split_ifs <;> rfl

/-- A loop over distinct indices whose body rewrites slot `i` from slot `i`. -/
theorem foldl_slot (f : device_s → device_s) (step : Devices → Nat → Devices)
    (l : List Nat) (hl : l.Nodup)
    (hstep : ∀ ds i j, i ∈ l → (step ds i).slot j = if j = i then f (ds.slot i) else ds.slot j)
    (ds : Devices) (j : Nat) :
    (l.foldl step ds).slot j = if j ∈ l then f (ds.slot j) else ds.slot j := by
  induction l generalizing ds with
  | nil => simp
  | cons a l ih =>
    rw [List.nodup_cons] at hl
    rw [List.foldl_cons, ih hl.2 (fun ds i j hi => hstep ds i j (List.mem_cons_of_mem _ hi)),
      hstep ds a j (List.mem_cons_self _ _)]
    by_cases hja : j = a
    · subst hja; simp [hl.1]
    · simp [hja]

theorem mem_slots (j : Nat) : j ∈ List.range' 1 (DEVICE_COUNT_MAX - 1) ↔ 1 ≤ j ∧ j < 128 := by
  unfold DEVICE_COUNT_MAX
  rw [List.mem_range'_1]

theorem scan_clear_marks_slot (ds : Devices) (j : Nat) :
    (scan_clear_marks ds).slot j =
      if 1 ≤ j ∧ j < 128 then { ds.slot j with mark := 0 } else ds.slot j := by
  unfold scan_clear_marks
  rw [foldl_slot (fun d => { d with mark := 0 }) _ _ (List.nodup_range' _ _)
    (fun ds i j _ => by simp)]
  simp only [mem_slots]

theorem scan_close_unmarked_slot (ds : Devices) (j : Nat) :
    (scan_close_unmarked ds).slot j =
      if 1 ≤ j ∧ j < 128 ∧ (ds.slot j).mark = 0 ∧ (ds.slot j).state = ST_OPEN then
        { ds.slot j with state := ST_MISSING, winusb := 0, file := 0 }
      else ds.slot j := by
  unfold scan_close_unmarked
  rw [foldl_slot
    (fun d => if d.mark = 0 ∧ d.state = ST_OPEN then
      { d with state := ST_MISSING, winusb := 0, file := 0 } else d) _ _
    (List.nodup_range' _ _) ?_]
  · simp only [mem_slots]
    by_cases h : 1 ≤ j ∧ j < 128
    · rw [if_pos h]
      by_cases h2 : (ds.slot j).mark = 0 ∧ (ds.slot j).state = ST_OPEN
      · rw [if_pos h2, if_pos ⟨h.1, h.2, h2.1, h2.2⟩]
      · rw [if_neg h2, if_neg (fun h3 => h2 ⟨h3.2.2.1, h3.2.2.2⟩)]
    · rw [if_neg h, if_neg (fun h3 => h ⟨h3.1, h3.2.1⟩)]
  · intro ds i j hi
    rw [mem_slots] at hi
    by_cases hm : (ds.slot i).mark = 0
    · dsimp only
      rw [if_pos hm, device_close_slot]
      simp only [Int.toNat_ofNat]
      by_cases hj : j = i
      · subst hj
        by_cases ho : (ds.slot j).state = ST_OPEN
        · rw [if_pos ⟨rfl, by omega, by omega, ho⟩, if_pos rfl, if_pos ⟨hm, ho⟩]
        · rw [if_neg (fun h => ho h.2.2.2), if_pos rfl, if_neg (fun h => ho h.2)]
      · rw [if_neg (fun h => hj h.1), if_neg hj]
    · dsimp only
      rw [if_neg hm]
      by_cases hj : j = i
      · subst hj; rw [if_pos rfl, if_neg (fun h => hm h.1)]
      · rw [if_neg hj]


theorem device_lookup_from_spec (ds : Devices) (p : List Nat) (n i : Nat) (hi : 1 ≤ i) :
    (device_lookup_from ds p n i = 0 ∧
      ∀ j, i ≤ j → j < i + n → ¬ ((ds.slot j).state ≠ ST_EMPTY ∧ p = (ds.slot j).DevicePath)) ∨
    (i ≤ device_lookup_from ds p n i ∧ device_lookup_from ds p n i < i + n ∧
      (ds.slot (device_lookup_from ds p n i)).state ≠ ST_EMPTY ∧
      p = (ds.slot (device_lookup_from ds p n i)).DevicePath ∧
      ∀ j, i ≤ j → j < device_lookup_from ds p n i →
        ¬ ((ds.slot j).state ≠ ST_EMPTY ∧ p = (ds.slot j).DevicePath)) := by
  induction n generalizing i with
  | zero => left; exact ⟨rfl, fun j h1 h2 => by omega⟩
  | succ n ih =>
    unfold device_lookup_from
    dsimp only
    by_cases hm : (ds.slot i).state ≠ ST_EMPTY ∧ p = (ds.slot i).DevicePath
    · rw [if_pos hm]
      right
      exact ⟨le_refl _, by omega, hm.1, hm.2, fun j h1 h2 => by omega⟩
    · rw [if_neg hm]
      rcases ih (i + 1) (by omega) with ⟨h0, hall⟩ | ⟨h1, h2, h3, h4, h5⟩
      · left
        refine ⟨h0, fun j h1 h2 => ?_⟩
        by_cases hji : j = i
        · subst hji; exact hm
        · exact hall j (by omega) (by omega)
      · right
        refine ⟨by omega, by omega, h3, h4, fun j h6 h7 => ?_⟩
        by_cases hji : j = i
        · subst hji; exact hm
        · exact h5 j (by omega) h7

theorem device_lookup_spec (ds : Devices) (p : List Nat) :
    (device_lookup ds p = 0 ∧ ∀ j, ¬ tracked ds p j) ∨
    (tracked ds p (device_lookup ds p) ∧
      ∀ j, j < device_lookup ds p → ¬ tracked ds p j) := by
  have e : DEVICE_COUNT_MAX - 1 = 127 := rfl
  unfold device_lookup tracked
  rw [e]
  rcases device_lookup_from_spec ds p 127 1 (le_refl _) with ⟨h0, hall⟩ | ⟨h1, h2, h3, h4, h5⟩
  · left
    refine ⟨h0, fun j hj => hall j hj.1 (by omega) ⟨hj.2.2.1, hj.2.2.2.symm⟩⟩
  · right
    refine ⟨⟨h1, by omega, h3, h4.symm⟩, fun j hj ht => h5 j ht.1 hj ⟨ht.2.2.1, ht.2.2.2.symm⟩⟩

theorem device_add_from_spec (ds : Devices) (p : List Nat) (n i : Nat) (hi : 1 ≤ i) :
    (device_add_from ds p n i = (0, ds) ∧
      ∀ j, i ≤ j → j < i + n → (ds.slot j).state ≠ ST_EMPTY) ∨
    (∃ a, i ≤ a ∧ a < i + n ∧ (ds.slot a).state = ST_EMPTY ∧
      (∀ j, i ≤ j → j < a → (ds.slot j).state ≠ ST_EMPTY) ∧
      device_add_from ds p n i =
        (a, ds.write a
          { device_zero with id := (a : Int), state := ST_PRESENT, DevicePath := p })) := by
  induction n generalizing i with
  | zero => left; exact ⟨rfl, fun j h1 h2 => by omega⟩
  | succ n ih =>
    unfold device_add_from
    by_cases hm : (ds.slot i).state ≠ ST_EMPTY
    · rw [if_pos hm]
      rcases ih (i + 1) (by omega) with ⟨h0, hall⟩ | ⟨a, h1, h2, h3, h4, h5⟩
      · left
        refine ⟨h0, fun j h1 h2 => ?_⟩
        by_cases hji : j = i
        · subst hji; exact hm
        · exact hall j (by omega) (by omega)
      · right
        refine ⟨a, by omega, by omega, h3, fun j h6 h7 => ?_, h5⟩
        by_cases hji : j = i
        · subst hji; exact hm
        · exact h4 j (by omega) h7
    · rw [if_neg hm]
      right
      exact ⟨i, le_refl _, by omega, by simpa using hm, fun j h1 h2 => by omega, rfl⟩

theorem device_add_spec (ds : Devices) (p : List Nat) :
    (device_add ds p = (0, ds) ∧ table_full ds) ∨
    (∃ a, 1 ≤ a ∧ a < 128 ∧ (ds.slot a).state = ST_EMPTY ∧
      (∀ j, 1 ≤ j → j < a → (ds.slot j).state ≠ ST_EMPTY) ∧
      device_add ds p =
        (a, ds.write a
          { device_zero with id := (a : Int), state := ST_PRESENT, DevicePath := p })) := by
  have e : DEVICE_COUNT_MAX - 1 = 127 := rfl
  unfold device_add table_full
  rw [e]
  rcases device_add_from_spec ds p 127 1 (le_refl _) with ⟨h0, hall⟩ | ⟨a, h1, h2, h3, h4, h5⟩
  · left; exact ⟨h0, fun j h1 h2 => hall j h1 (by omega)⟩
  · right; exact ⟨a, h1, by omega, h3, h4, h5⟩

theorem device_open_closed (ds : Devices) (i : Nat) (t : transport_open)
    (h1 : 1 ≤ i) (h2 : i < 128) (he : (ds.slot i).state ≠ ST_EMPTY)
    (ho : (ds.slot i).state ≠ ST_OPEN) :
    (device_open ds (i : Int) t).2 = ds.write i (opened_slot (ds.slot i) t) := by
  rw [device_open_eq, if_neg (by omega)]
  simp only [Int.toNat_ofNat]
  rw [if_neg he, if_neg ho]

/-- The three ways `scan_entry` can go: the path is found in slot `l`; it is not
found and slot `a` is allocated; it is not found and the table is full. -/
theorem scan_entry_cases (ds : Devices) (p : List Nat) (t : transport_open) :
    (∃ l, tracked ds p l ∧ (∀ j, j < l → ¬ tracked ds p j) ∧
      scan_entry ds p t = ds.write l
        { (if (ds.slot l).state = ST_MISSING then opened_slot (ds.slot l) t else ds.slot l) with
          mark := 1 }) ∨
    (∃ a, 1 ≤ a ∧ a < 128 ∧ (∀ j, ¬ tracked ds p j) ∧ (ds.slot a).state = ST_EMPTY ∧
      (∀ j, 1 ≤ j → j < a → (ds.slot j).state ≠ ST_EMPTY) ∧
      scan_entry ds p t = ds.write a
        { opened_slot { device_zero with id := (a : Int), state := ST_PRESENT, DevicePath := p } t
          with mark := 1 }) ∨
    ((∀ j, ¬ tracked ds p j) ∧ table_full ds ∧
      scan_entry ds p t = ds.write 0 { ds.slot 0 with mark := 1 }) := by
  unfold scan_entry
  dsimp only
  rcases device_lookup_spec ds p with ⟨h0, hall⟩ | ⟨ht, hfirst⟩
  · rw [if_pos h0]
    rcases device_add_spec ds p with ⟨ha, hfull⟩ | ⟨a, h1, h2, h3, h4, h5⟩
    · right; right
      refine ⟨hall, hfull, ?_⟩
      rw [ha]
      simp [device_open_eq]
    · right; left
      refine ⟨a, h1, h2, hall, h3, h4, ?_⟩
      rw [h5]
      dsimp only
      rw [device_open_closed _ a t h1 h2 (by simp) (by simp)]
      simp only [slot_write, if_pos]
      rw [write_write, write_write]
  · left
    have hne : device_lookup ds p ≠ 0 := by have := ht.1; omega
    rw [if_neg hne]
    refine ⟨_, ht, hfirst, ?_⟩
    by_cases hs : (ds.slot (device_lookup ds p)).state = ST_MISSING
    · rw [if_pos hs, if_pos hs]
      rw [device_open_closed _ _ t ht.1 ht.2.1 (by simp [hs]) (by simp [hs])]
      simp only [slot_write, if_pos]
      rw [write_write]
    · rw [if_neg hs, if_neg hs]


theorem scan_entry_keep (ds : Devices) (p : List Nat) (t : transport_open) (i : Nat)
    (h : (ds.slot i).state ≠ ST_EMPTY) :
    ((scan_entry ds p t).slot i).state ≠ ST_EMPTY ∧
    ((scan_entry ds p t).slot i).DevicePath = (ds.slot i).DevicePath ∧
    ((ds.slot i).mark ≠ 0 → ((scan_entry ds p t).slot i).mark ≠ 0) := by
  rcases scan_entry_cases ds p t with ⟨l, ht, _, e⟩ | ⟨a, _, _, _, ha, _, e⟩ | ⟨_, _, e⟩
  · rw [e, slot_write]
    by_cases hi : i = l
    · subst hi
      rw [if_pos rfl]
      by_cases hs : (ds.slot i).state = ST_MISSING
      · rw [if_pos hs]
        exact ⟨opened_slot_not_empty _ _ h, opened_slot_path _ _, fun _ => one_ne_zero⟩
      · rw [if_neg hs]
        exact ⟨h, rfl, fun _ => one_ne_zero⟩
    · rw [if_neg hi]; exact ⟨h, rfl, id⟩
  · rw [e, slot_write]
    by_cases hi : i = a
    · subst hi; exact absurd ha h
    · rw [if_neg hi]; exact ⟨h, rfl, id⟩
  · rw [e, slot_write]
    by_cases hi : i = 0
    · subst hi; rw [if_pos rfl]; exact ⟨h, rfl, fun _ => one_ne_zero⟩
    · rw [if_neg hi]; exact ⟨h, rfl, id⟩

theorem scan_entry_frame (ds : Devices) (p : List Nat) (t : transport_open) (i : Nat)
    (h1 : 1 ≤ i) (h : (ds.slot i).state ≠ ST_EMPTY) (hp : (ds.slot i).DevicePath ≠ p) :
    (scan_entry ds p t).slot i = ds.slot i := by
  rcases scan_entry_cases ds p t with ⟨l, ht, _, e⟩ | ⟨a, _, _, _, ha, _, e⟩ | ⟨_, _, e⟩
  · rw [e, slot_write, if_neg]
    intro hi; subst hi; exact hp ht.2.2.2
  · rw [e, slot_write, if_neg]
    intro hi; subst hi; exact h ha
  · rw [e, slot_write, if_neg (by omega)]

theorem scan_entry_change (ds : Devices) (p : List Nat) (t : transport_open) (i : Nat)
    (h1 : 1 ≤ i) :
    (scan_entry ds p t).slot i = ds.slot i ∨
    (((scan_entry ds p t).slot i).state ≠ ST_EMPTY ∧
      ((scan_entry ds p t).slot i).DevicePath = p) := by
  by_cases he : (ds.slot i).state ≠ ST_EMPTY
  · by_cases hp : (ds.slot i).DevicePath = p
    · right
      have := scan_entry_keep ds p t i he
      exact ⟨this.1, this.2.1.trans hp⟩
    · left; exact scan_entry_frame ds p t i h1 he hp
  · rcases scan_entry_cases ds p t with ⟨l, ht, _, e⟩ | ⟨a, _, _, _, ha, _, e⟩ | ⟨_, _, e⟩
    · left
      rw [e, slot_write, if_neg]
      intro hi; subst hi; exact he ht.2.2.1
    · rw [e, slot_write]
      by_cases hi : i = a
      · right
        rw [if_pos hi]
        exact ⟨opened_slot_not_empty _ _ (by simp), opened_slot_path _ _⟩
      · left; rw [if_neg hi]
    · left; rw [e, slot_write, if_neg (by omega)]

/-- After `scan_entry`, the tracked slots are those tracked before, plus the
freshly allocated one when the path was not tracked. -/
theorem scan_entry_tracked (ds : Devices) (p : List Nat) (t : transport_open) (q : List Nat)
    (i : Nat) (h : tracked (scan_entry ds p t) q i) :
    tracked ds q i ∨ (q = p ∧ (∀ j, ¬ tracked ds p j) ∧ (ds.slot i).state = ST_EMPTY ∧
      ∀ j, tracked (scan_entry ds p t) p j → j = i) := by
  obtain ⟨h1, h2, h3, h4⟩ := h
  by_cases he : (ds.slot i).state ≠ ST_EMPTY
  · left
    exact ⟨h1, h2, he, (scan_entry_keep ds p t i he).2.1.symm.trans h4⟩
  · right
    have he' : (ds.slot i).state = ST_EMPTY := by simpa using he
    rcases scan_entry_cases ds p t with ⟨l, ht, _, e⟩ | ⟨a, _, _, hun, ha, _, e⟩ | ⟨_, _, e⟩
    · exfalso
      rw [e, slot_write, if_neg] at h3
      · exact h3 he'
      · intro hi; subst hi; exact he ht.2.2.1
    · by_cases hi : i = a
      · subst hi
        refine ⟨?_, hun, he', ?_⟩
        · rw [e, slot_write, if_pos rfl] at h4
          exact h4.symm.trans (opened_slot_path _ _)
        · intro j hj
          by_contra hji
          obtain ⟨j1, j2, j3, j4⟩ := hj
          rw [e, slot_write, if_neg hji] at j3 j4
          exact hun j ⟨j1, j2, j3, j4⟩
      · exfalso
        rw [e, slot_write, if_neg hi] at h3
        exact h3 he'
    · exfalso
      rw [e, slot_write, if_neg (by omega)] at h3
      exact h3 he'

theorem scan_entry_distinct (ds : Devices) (p : List Nat) (t : transport_open)
    (hd : paths_distinct ds) : paths_distinct (scan_entry ds p t) := by
  intro i j q hi hj
  rcases scan_entry_tracked ds p t q i hi with hi' | ⟨hq, hun, _, hu⟩
  · rcases scan_entry_tracked ds p t q j hj with hj' | ⟨hq, hun, _, hu⟩
    · exact hd i j q hi' hj'
    · subst hq; exact absurd hi' (hun i)
  · subst hq; exact (hu j hj).symm

theorem scan_entry_settles (ds : Devices) (p : List Nat) (t : transport_open) :
    path_settled (scan_entry ds p t) p := by
  rcases scan_entry_cases ds p t with ⟨l, ht, _, e⟩ | ⟨a, a1, a2, _, ha, _, e⟩ | ⟨hun, hfull, e⟩
  · left
    refine ⟨l, ⟨ht.1, ht.2.1, (scan_entry_keep ds p t l ht.2.2.1).1,
      (scan_entry_keep ds p t l ht.2.2.1).2.1.trans ht.2.2.2⟩, ?_⟩
    rw [e, slot_write, if_pos rfl]; exact one_ne_zero
  · left
    refine ⟨a, ⟨a1, a2, ?_, ?_⟩, ?_⟩
    · rw [e, slot_write, if_pos rfl]; exact opened_slot_not_empty _ _ (by simp)
    · rw [e, slot_write, if_pos rfl]; exact opened_slot_path _ _
    · rw [e, slot_write, if_pos rfl]; exact one_ne_zero
  · right
    constructor
    · intro i i1 i2; exact (scan_entry_keep ds p t i (hfull i i1 i2)).1
    · intro i hi
      rcases scan_entry_tracked ds p t p i hi with h | ⟨_, _, he, _⟩
      · exact hun i h
      · exact hfull i hi.1 hi.2.1 he

theorem scan_entry_settled (ds : Devices) (p : List Nat) (t : transport_open) (q : List Nat)
    (h : path_settled ds q) : path_settled (scan_entry ds p t) q := by
  rcases h with ⟨i, ht, hm⟩ | ⟨hfull, hun⟩
  · left
    have k := scan_entry_keep ds p t i ht.2.2.1
    exact ⟨i, ⟨ht.1, ht.2.1, k.1, k.2.1.trans ht.2.2.2⟩, k.2.2 hm⟩
  · right
    constructor
    · intro i i1 i2; exact (scan_entry_keep ds p t i (hfull i i1 i2)).1
    · intro i hi
      have k := scan_entry_keep ds p t i (hfull i hi.1 hi.2.1)
      exact hun i ⟨hi.1, hi.2.1, hfull i hi.1 hi.2.1, k.2.1.symm.trans hi.2.2.2⟩


theorem scan_step_keep (ds : Devices) (e : dev_interface) (i : Nat)
    (h : (ds.slot i).state ≠ ST_EMPTY) :
    ((scan_step ds e).slot i).state ≠ ST_EMPTY ∧
    ((scan_step ds e).slot i).DevicePath = (ds.slot i).DevicePath ∧
    ((ds.slot i).mark ≠ 0 → ((scan_step ds e).slot i).mark ≠ 0) := by
  unfold scan_step
  cases e.detail with
  | none => exact ⟨h, rfl, id⟩
  | some p => exact scan_entry_keep ds p e.transport i h

theorem scan_fold_keep (os : List dev_interface) (ds : Devices) (i : Nat)
    (h : (ds.slot i).state ≠ ST_EMPTY) :
    ((os.foldl scan_step ds).slot i).state ≠ ST_EMPTY ∧
    ((os.foldl scan_step ds).slot i).DevicePath = (ds.slot i).DevicePath ∧
    ((ds.slot i).mark ≠ 0 → ((os.foldl scan_step ds).slot i).mark ≠ 0) := by
  induction os generalizing ds with
  | nil => exact ⟨h, rfl, id⟩
  | cons e os ih =>
    have k := scan_step_keep ds e i h
    have k2 := ih (scan_step ds e) k.1
    rw [List.foldl_cons]
    exact ⟨k2.1, k2.2.1.trans k.2.1, fun hm => k2.2.2 (k.2.2 hm)⟩

theorem scan_fold_frame (os : List dev_interface) (ds : Devices) (i : Nat) (h1 : 1 ≤ i)
    (h : (ds.slot i).state ≠ ST_EMPTY)
    (hp : ∀ e ∈ os, e.detail ≠ some (ds.slot i).DevicePath) :
    (os.foldl scan_step ds).slot i = ds.slot i := by
  induction os generalizing ds with
  | nil => rfl
  | cons e os ih =>
    have hs : (scan_step ds e).slot i = ds.slot i := by
      unfold scan_step
      cases hd : e.detail with
      | none => rfl
      | some p =>
        apply scan_entry_frame ds p e.transport i h1 h
        intro hpp
        exact hp e (List.mem_cons_self _ _) (by rw [hd, hpp])
    rw [List.foldl_cons, ih (scan_step ds e) (by rw [hs]; exact h)
      (by rw [hs]; exact fun e' he' => hp e' (List.mem_cons_of_mem _ he')), hs]

theorem scan_fold_change (os : List dev_interface) (ds : Devices) (i : Nat) (h1 : 1 ≤ i) :
    (os.foldl scan_step ds).slot i = ds.slot i ∨
    (((os.foldl scan_step ds).slot i).state ≠ ST_EMPTY ∧
      ∃ e ∈ os, e.detail = some ((os.foldl scan_step ds).slot i).DevicePath) := by
  induction os generalizing ds with
  | nil => left; rfl
  | cons e os ih =>
    rw [List.foldl_cons]
    rcases ih (scan_step ds e) with h | ⟨hne, e', he', hd⟩
    · have hs : (scan_step ds e).slot i = ds.slot i ∨
          (((scan_step ds e).slot i).state ≠ ST_EMPTY ∧
            e.detail = some ((scan_step ds e).slot i).DevicePath) := by
        unfold scan_step
        cases hd : e.detail with
        | none => left; rfl
        | some p =>
          rcases scan_entry_change ds p e.transport i h1 with hc | ⟨hc1, hc2⟩
          · left; exact hc
          · right; exact ⟨hc1, by rw [hc2]⟩
      rcases hs with hs | ⟨hs1, hs2⟩
      · left; rw [h, hs]
      · right
        rw [h]
        exact ⟨hs1, e, List.mem_cons_self _ _, hs2⟩
    · right
      exact ⟨hne, e', List.mem_cons_of_mem _ he', hd⟩

theorem scan_fold_distinct (os : List dev_interface) (ds : Devices) (hd : paths_distinct ds) :
    paths_distinct (os.foldl scan_step ds) := by
  induction os generalizing ds with
  | nil => exact hd
  | cons e os ih =>
    rw [List.foldl_cons]
    apply ih
    unfold scan_step
    cases e.detail with
    | none => exact hd
    | some p => exact scan_entry_distinct ds p e.transport hd

theorem scan_fold_settled (os : List dev_interface) (ds : Devices) (q : List Nat)
    (h : path_settled ds q) : path_settled (os.foldl scan_step ds) q := by
  induction os generalizing ds with
  | nil => exact h
  | cons e os ih =>
    rw [List.foldl_cons]
    apply ih
    unfold scan_step
    cases e.detail with
    | none => exact h
    | some p => exact scan_entry_settled ds p e.transport q h

theorem scan_fold_settles (os : List dev_interface) (ds : Devices) (e : dev_interface)
    (he : e ∈ os) (p : List Nat) (hp : e.detail = some p) :
    path_settled (os.foldl scan_step ds) p := by
  induction os generalizing ds with
  | nil => cases he
  | cons e' os ih =>
    rw [List.foldl_cons]
    rcases List.mem_cons.mp he with h | h
    · subst h
      apply scan_fold_settled
      unfold scan_step
      rw [hp]
      exact scan_entry_settles ds p e.transport
    · exact ih (scan_step ds e') h

/-- With enough fuel and no failing detail retrieval, the `while` loop handles
the entries from `member_index` on, one after the other, and ends. -/
theorem scan_enumerate_ok (os : List dev_interface) (hok : ∀ e ∈ os, e.detail ≠ none)
    (fuel k : Nat) (ds : Devices) (hf : os.length - k < fuel) :
    scan_enumerate os fuel k ds = some ((os.drop k).foldl scan_step ds) := by
  induction fuel generalizing k ds with
  | zero => omega
  | succ fuel ih =>
    unfold scan_enumerate
    by_cases hk : k < os.length
    · rw [List.getElem?_eq_getElem hk]
      dsimp only
      have hmem : os[k] ∈ os := List.getElem_mem hk
      cases hd : os[k].detail with
      | none => exact absurd hd (hok _ hmem)
      | some p =>
        dsimp only
        rw [ih (k + 1) _ (by omega), List.drop_eq_getElem_cons hk, List.foldl_cons]
        unfold scan_step
        rw [hd]
    · rw [List.getElem?_eq_none (by omega)]
      dsimp only
      rw [List.drop_eq_nil_of_le (by omega)]
      rfl

theorem js110_scan_eq (os : List dev_interface) (hok : ∀ e ∈ os, e.detail ≠ none)
    (fuel : Nat) (hf : os.length < fuel) (ds : Devices) :
    js110_scan fuel ds (some os) =
      some (0, scan_close_unmarked (os.foldl scan_step (scan_clear_marks ds))) := by
  unfold js110_scan
  dsimp only
  rw [scan_enumerate_ok os hok fuel 0 _ (by omega)]
  rfl

/-- When the `while` loop ends, no detail retrieval from `member_index` on has
failed, and the entries have been handled one after the other. -/
theorem scan_enumerate_some (os : List dev_interface) (fuel k : Nat) (ds ds' : Devices)
    (h : scan_enumerate os fuel k ds = some ds') :
    (∀ j, k ≤ j → ∀ hj : j < os.length, os[j].detail ≠ none) ∧
    ds' = (os.drop k).foldl scan_step ds := by
  induction fuel generalizing k ds with
  | zero => unfold scan_enumerate at h; cases h
  | succ fuel ih =>
    unfold scan_enumerate at h
    by_cases hk : k < os.length
    · rw [List.getElem?_eq_getElem hk] at h
      dsimp only at h
      cases hd : os[k].detail with
      | none =>
        rw [hd] at h
        dsimp only at h
        exact absurd hd ((ih k ds h).1 k (le_refl _) hk)
      | some p =>
        rw [hd] at h
        dsimp only at h
        obtain ⟨h1, h2⟩ := ih (k + 1) _ h
        constructor
        · intro j hkj hj
          by_cases hjk : j = k
          · subst hjk; rw [hd]; simp
          · exact h1 j (by omega) hj
        · rw [h2, List.drop_eq_getElem_cons hk, List.foldl_cons]
          unfold scan_step
          rw [hd]
    · rw [List.getElem?_eq_none (by omega)] at h
      dsimp only at h
      constructor
      · intro j hkj hj; omega
      · rw [List.drop_eq_nil_of_le (by omega)]
        exact (Option.some.inj h).symm

/-- When `js110_scan` returns on an enumeration, every detail retrieval has
succeeded, the status is 0 and the table is the one left by the three loops. -/
theorem js110_scan_some (os : List dev_interface) (fuel : Nat) (ds : Devices) (rc : Int)
    (ds' : Devices) (h : js110_scan fuel ds (some os) = some (rc, ds')) :
    (∀ e ∈ os, e.detail ≠ none) ∧ rc = 0 ∧
    ds' = scan_close_unmarked (os.foldl scan_step (scan_clear_marks ds)) := by
  unfold js110_scan at h
  dsimp only at h
  cases he : scan_enumerate os fuel 0 (scan_clear_marks ds) with
  | none => rw [he] at h; cases h
  | some d1 =>
    rw [he] at h
    dsimp only at h
    obtain ⟨h1, h2⟩ := scan_enumerate_some os fuel 0 _ d1 he
    obtain ⟨h3, h4⟩ := Prod.mk.inj (Option.some.inj h)
    refine ⟨?_, h3.symm, ?_⟩
    · intro e hmem
      obtain ⟨j, hj, rfl⟩ := List.getElem_of_mem hmem
      exact h1 j (Nat.zero_le _) hj
    · rw [← h4, h2, List.drop_zero]

/-! ## Running totals over a session -/

/-- A transfer that yields no update leaves the table as it is. -/
theorem js110_statistics_no_update (cbk_fn_ : Nat) (ds : Devices) (dev_id : Int)
    (x : Option (List Nat)) (h : raw_count x = none) :
    (js110_statistics cbk_fn_ ds dev_id x).2 = (ds, []) := by
  unfold js110_statistics
  cases x with
  | none => dsimp only; split_ifs <;> rfl
  | some pkt =>
    dsimp only
    unfold raw_count at h
    dsimp only at h
    by_cases hv : pkt.length = 104 ∧ buf_decode_i32 (pkt.drop 56) ≠ 0
    · rw [if_pos hv] at h; cases h
    · by_cases hg : dev_id ≤ 0 ∨ dev_id > (DEVICE_COUNT_MAX : Int)
      · rw [if_pos hg]
      · rw [if_neg hg]
        by_cases ho : (ds.slot dev_id.toNat).state ≠ ST_OPEN
        · rw [if_pos ho]
        · rw [if_neg ho]
          by_cases hl : 104 ≠ pkt.length
          · rw [if_pos hl]
          · rw [if_neg hl]
            have hz : 0 = buf_decode_i32 (pkt.drop 56) := by
              by_contra hz
              exact hv ⟨by omega, fun h0 => hz h0.symm⟩
            rw [if_pos hz]

theorem raw_count_some (x : Option (List Nat)) (r : Nat) (h : raw_count x = some r) :
    ∃ pkt, x = some pkt ∧ pkt.length = 104 ∧ buf_decode_i32 (pkt.drop 56) ≠ 0 ∧
      r = buf_decode_u64 (pkt.drop 24) := by
  unfold raw_count at h
  cases x with
  | none => cases h
  | some pkt =>
    dsimp only at h
    by_cases hv : pkt.length = 104 ∧ buf_decode_i32 (pkt.drop 56) ≠ 0
    · rw [if_pos hv] at h
      exact ⟨pkt, rfl, hv.1, hv.2, (Option.some.inj h).symm⟩
    · rw [if_neg hv] at h; cases h

/-- Once the resync is done, every update carries the raw count minus the
offset, wrapped to 64 bits. -/
theorem poll_all_steady (cbk_fn_ : Nat) (dev_id : Int) (h1 : 1 ≤ dev_id) (h2 : dev_id ≤ 127)
    (xs : List (Option (List Nat))) (ds : Devices)
    (hopen : (ds.slot dev_id.toNat).state = ST_OPEN)
    (hr : (ds.slot dev_id.toNat).resync = 0) :
    (poll_all cbk_fn_ dev_id ds xs).2.map (fun u => u.samples_total) =
      (if cbk_fn_ ≠ 0 then
        (xs.filterMap raw_count).map
          (fun (r : Nat) => int64_t ((r : Int) - (ds.slot dev_id.toNat).samples_total_offset))
       else []) ∧
    ((poll_all cbk_fn_ dev_id ds xs).1.slot dev_id.toNat).samples_total_accum =
      ((xs.filterMap raw_count).map
          (fun (r : Nat) => int64_t ((r : Int) - (ds.slot dev_id.toNat).samples_total_offset))).getLastD
        (ds.slot dev_id.toNat).samples_total_accum ∧
    ((poll_all cbk_fn_ dev_id ds xs).1.slot dev_id.toNat).state = ST_OPEN := by
  induction xs generalizing ds with
  | nil => unfold poll_all; simp [hopen]
  | cons x xs ih =>
    unfold poll_all
    dsimp only
    cases hx : raw_count x with
    | none =>
      have e := js110_statistics_no_update cbk_fn_ ds dev_id x hx
      have e1 : (js110_statistics cbk_fn_ ds dev_id x).2.1 = ds := by rw [e]
      have e2 : (js110_statistics cbk_fn_ ds dev_id x).2.2 = [] := by rw [e]
      rw [e1, e2, List.filterMap_cons, hx]
      simpa using ih ds hopen hr
    | some r =>
      obtain ⟨pkt, rfl, hlen, hnz, rfl⟩ := raw_count_some x r hx
      rw [js110_statistics_valid cbk_fn_ ds dev_id pkt h1 h2 hopen hlen hnz,
        statistics_adjust_steady _ _ hr]
      dsimp only
      have ih' := ih (ds.write dev_id.toNat
        { ds.slot dev_id.toNat with
          samples_total_accum := int64_t
            ((statistics_parse (ds.slot dev_id.toNat).serial_number pkt).samples_total -
              (ds.slot dev_id.toNat).samples_total_offset),
          charge_accum :=
            double_sub (statistics_parse (ds.slot dev_id.toNat).serial_number pkt).charge
              (ds.slot dev_id.toNat).charge_offset,
          energy_accum :=
            double_sub (statistics_parse (ds.slot dev_id.toNat).serial_number pkt).energy
              (ds.slot dev_id.toNat).energy_offset })
        (by simp [hopen]) (by simp [hr])
      simp only [slot_write, if_pos] at ih'
      rw [List.filterMap_cons, hx]
      refine ⟨?_, ?_, ih'.2.2⟩
      · rw [List.map_append, ih'.1]
        by_cases hc : cbk_fn_ ≠ 0
        · simp [hc, statistics_parse, int64_t_sub_int64_t]
        · simp [hc]
      · rw [ih'.2.1]
        simp only [List.map_cons, statistics_parse, int64_t_sub_int64_t]
        cases hl : (List.filterMap raw_count xs) with
        | nil => simp
        | cons a l => simp [List.getLastD]


theorem int64_t_rebase (r' r a : Int) :
    int64_t (r' - int64_t (int64_t r - a)) = int64_t (a + (r' - r)) := by
  unfold int64_t; omega

/-- From the resync on, the updates of a session carry the accumulated total
of its start plus the raw progress since the first update, wrapped to 64 bits. -/
theorem poll_all_start (cbk_fn_ : Nat) (dev_id : Int) (h1 : 1 ≤ dev_id) (h2 : dev_id ≤ 127)
    (xs : List (Option (List Nat))) (ds : Devices)
    (hopen : (ds.slot dev_id.toNat).state = ST_OPEN)
    (hr : (ds.slot dev_id.toNat).resync ≠ 0)
    (hlo : -2 ^ 63 ≤ (ds.slot dev_id.toNat).samples_total_accum)
    (hhi : (ds.slot dev_id.toNat).samples_total_accum < 2 ^ 63) :
    (poll_all cbk_fn_ dev_id ds xs).2.map (fun u => u.samples_total) =
      (if cbk_fn_ ≠ 0 then
        (xs.filterMap raw_count).map
          (fun (r : Nat) => int64_t ((ds.slot dev_id.toNat).samples_total_accum +
            ((r : Int) - ((xs.filterMap raw_count).headD 0 : Nat))))
       else []) ∧
    ((poll_all cbk_fn_ dev_id ds xs).1.slot dev_id.toNat).samples_total_accum =
      ((xs.filterMap raw_count).map
          (fun (r : Nat) => int64_t ((ds.slot dev_id.toNat).samples_total_accum +
            ((r : Int) - ((xs.filterMap raw_count).headD 0 : Nat))))).getLastD
        (ds.slot dev_id.toNat).samples_total_accum ∧
    ((poll_all cbk_fn_ dev_id ds xs).1.slot dev_id.toNat).state = ST_OPEN := by
  induction xs generalizing ds with
  | nil => unfold poll_all; simp [hopen]
  | cons x xs ih =>
    cases hx : raw_count x with
    | none =>
      unfold poll_all
      dsimp only
      have e := js110_statistics_no_update cbk_fn_ ds dev_id x hx
      have e1 : (js110_statistics cbk_fn_ ds dev_id x).2.1 = ds := by rw [e]
      have e2 : (js110_statistics cbk_fn_ ds dev_id x).2.2 = [] := by rw [e]
      rw [e1, e2, List.filterMap_cons, hx]
      simpa using ih ds hopen hr hlo hhi
    | some r =>
      obtain ⟨pkt, rfl, hlen, hnz, rfl⟩ := raw_count_some x r hx
      unfold poll_all
      dsimp only
      rw [js110_statistics_valid cbk_fn_ ds dev_id pkt h1 h2 hopen hlen hnz]
      dsimp only
      have e := int64_t_sub_sub (int64_t (buf_decode_u64 (pkt.drop 24)))
        (ds.slot dev_id.toNat).samples_total_accum hlo hhi
      have e0 := int64_t_of_range (ds.slot dev_id.toNat).samples_total_accum hlo hhi
      obtain ⟨d1, u1, hadj, hs, hr1, ho1, ha1, hu1⟩ :
          ∃ d1 u1, statistics_adjust (ds.slot dev_id.toNat)
              (statistics_parse (ds.slot dev_id.toNat).serial_number pkt) = (d1, u1) ∧
            d1.state = ST_OPEN ∧ d1.resync = 0 ∧
            d1.samples_total_offset = int64_t (int64_t (buf_decode_u64 (pkt.drop 24)) -
              (ds.slot dev_id.toNat).samples_total_accum) ∧
            d1.samples_total_accum = (ds.slot dev_id.toNat).samples_total_accum ∧
            u1.samples_total = (ds.slot dev_id.toNat).samples_total_accum := by
        rw [statistics_adjust_resync _ _ hr]
        refine ⟨_, _, rfl, hopen, rfl, ?_, ?_, ?_⟩
        · simp [statistics_parse]
        · simpa [statistics_parse] using e
        · simpa [statistics_parse] using e
      rw [hadj]
      dsimp only
      have st := poll_all_steady cbk_fn_ dev_id h1 h2 xs (ds.write dev_id.toNat d1)
        (by simp [hs]) (by simp [hr1])
      simp only [slot_write, if_pos, ho1, ha1, int64_t_rebase] at st
      rw [List.filterMap_cons, hx]
      simp only [List.headD_cons, List.map_cons, sub_self, add_zero, e0]
      refine ⟨?_, ?_, ?_⟩
      · rw [List.map_append, st.1]
        by_cases hc : cbk_fn_ ≠ 0
        · simp [hc, hu1]
        · simp [hc]
      · rw [st.2.1]
        cases hl : (List.filterMap raw_count xs) with
        | nil => simp
        | cons a l => simp [List.getLastD]
      · exact st.2.2


theorem getLastD_map_int64_range (l : List Nat) (f : Nat → Int) (a : Int)
    (hlo : -2 ^ 63 ≤ a) (hhi : a < 2 ^ 63) :
    -2 ^ 63 ≤ (l.map (fun r => int64_t (f r))).getLastD a ∧
    (l.map (fun r => int64_t (f r))).getLastD a < 2 ^ 63 := by
  induction l generalizing a with
  | nil => exact ⟨hlo, hhi⟩
  | cons x l ih =>
    rw [List.map_cons, List.getLastD_cons]
    exact ih _ (int64_t_range _).1 (int64_t_range _).2

/-- After `device_close` and a successful `device_open`, an open slot is open
again with its resync flag set and the same accumulated sample count. -/
theorem reopen_slot (ds : Devices) (dev_id : Int) (t : transport_open) (h1 : 1 ≤ dev_id)
    (h2 : dev_id ≤ 127) (hopen : (ds.slot dev_id.toNat).state = ST_OPEN) (ht : t.ok) :
    ((device_open (device_close ds dev_id).2 dev_id t).2.slot dev_id.toNat).state = ST_OPEN ∧
    ((device_open (device_close ds dev_id).2 dev_id t).2.slot dev_id.toNat).resync ≠ 0 ∧
    ((device_open (device_close ds dev_id).2 dev_id t).2.slot dev_id.toNat).samples_total_accum
      = (ds.slot dev_id.toNat).samples_total_accum := by
  have hc : (device_close ds dev_id).2.slot dev_id.toNat =
      { ds.slot dev_id.toNat with state := ST_MISSING, winusb := 0, file := 0 } := by
    rw [device_close_slot, if_pos ⟨rfl, h1, by omega, hopen⟩]
  rw [device_open_slot, if_pos ⟨rfl, h1, by omega, by rw [hc]; simp, by rw [hc]; simp⟩, hc]
  have h3 : t.CreateFileW ≠ INVALID_HANDLE_VALUE := ht.1
  have h4 : t.WinUsb_Initialize = true := ht.2.1
  have h5 : t.WinUsb_ControlTransfer = true := ht.2.2
  simp [opened_slot, h3, h4, h5]

theorem sorted_head_le (r1 : Nat) (rest : List Nat) (hs : (r1 :: rest).Sorted (· ≤ ·)) :
    ∀ r ∈ r1 :: rest, r1 ≤ r := by
  intro r hr
  rcases List.mem_cons.mp hr with h | h
  · rw [h]
  · exact List.rel_of_sorted_cons hs r h

/-! ## Statistics poller: claims -/
/-- Claim C2, as the source has it.  A session starts on an open slot with the
resync flag set and `samples_total_accum` in the `int64_t` range; `xs` are the
answers to its status transfers.  When the raw sample counts of the replies
that yield an update are non-decreasing and the adjusted total stays below
`2^63`, the emitted `samples_total` values are the accumulated total of the
start plus the raw progress since the first update, so they are non-decreasing
and each increment is the raw increment.  And after `device_close` and a
successful `device_open`, the first update, whatever its raw count, carries
the last `samples_total` emitted before the close (the accumulated total of the
start if none was emitted). -/
theorem js110_statistics_totals_continue (cbk_fn_ : Nat) (ds : Devices) (dev_id : Int)
    (h1 : 1 ≤ dev_id) (h2 : dev_id ≤ 127)
    (hopen : (ds.slot dev_id.toNat).state = ST_OPEN)
    (hresync : (ds.slot dev_id.toNat).resync ≠ 0)
    (hlo : -2 ^ 63 ≤ (ds.slot dev_id.toNat).samples_total_accum)
    (hhi : (ds.slot dev_id.toNat).samples_total_accum < 2 ^ 63)
    (xs : List (Option (List Nat)))
    (t : transport_open) (ht : t.ok)
    (pkt : List Nat) (hlen : pkt.length = 104) (hnz : buf_decode_i32 (pkt.drop 56) ≠ 0) :
    ((xs.filterMap raw_count).Sorted (· ≤ ·) →
      (∀ r ∈ xs.filterMap raw_count,
        (ds.slot dev_id.toNat).samples_total_accum
          + ((r : Int) - ((xs.filterMap raw_count).headD 0 : Nat)) < 2 ^ 63) →
      (poll_all cbk_fn_ dev_id ds xs).2.map (fun u => u.samples_total) =
        (if cbk_fn_ ≠ 0 then
          (xs.filterMap raw_count).map
            (fun (r : Nat) => (ds.slot dev_id.toNat).samples_total_accum
              + ((r : Int) - ((xs.filterMap raw_count).headD 0 : Nat)))
         else []) ∧
      ((poll_all cbk_fn_ dev_id ds xs).2.map (fun u => u.samples_total)).Sorted (· ≤ ·)) ∧
    (js110_statistics cbk_fn_
        (device_open (device_close (poll_all cbk_fn_ dev_id ds xs).1 dev_id).2 dev_id t).2
        dev_id (some pkt)).2.2.map (fun u => u.samples_total) =
      (if cbk_fn_ ≠ 0 then
        [((poll_all cbk_fn_ dev_id ds xs).2.map (fun u => u.samples_total)).getLastD
          (ds.slot dev_id.toNat).samples_total_accum]
       else []) := by
  have st := poll_all_start cbk_fn_ dev_id h1 h2 xs ds hopen hresync hlo hhi
  constructor
  · intro hs hb
    have hmap : (xs.filterMap raw_count).map
          (fun (r : Nat) => int64_t ((ds.slot dev_id.toNat).samples_total_accum
            + ((r : Int) - ((xs.filterMap raw_count).headD 0 : Nat)))) =
        (xs.filterMap raw_count).map
          (fun (r : Nat) => (ds.slot dev_id.toNat).samples_total_accum
            + ((r : Int) - ((xs.filterMap raw_count).headD 0 : Nat))) := by
      apply List.map_congr_left
      intro r hr
      have hb' := hb r hr
      have hle : ((xs.filterMap raw_count).headD 0 : Nat) ≤ r := by
        cases hl : xs.filterMap raw_count with
        | nil => rw [hl] at hr; cases hr
        | cons r1 rest =>
          rw [hl] at hs hr
          exact sorted_head_le r1 rest hs r hr
      apply int64_t_of_range <;> omega
    rw [st.1, hmap]
    constructor
    · rfl
    · by_cases hc : cbk_fn_ ≠ 0
      · rw [if_pos hc]
        apply List.Pairwise.map _ _ hs
        intro a b hab
        omega
      · rw [if_neg hc]; exact List.sorted_nil
  · have hacc := st.2.1
    have hrng := getLastD_map_int64_range (xs.filterMap raw_count)
      (fun r => (ds.slot dev_id.toNat).samples_total_accum
        + ((r : Int) - ((xs.filterMap raw_count).headD 0 : Nat)))
      (ds.slot dev_id.toNat).samples_total_accum hlo hhi
    rw [← hacc] at hrng
    obtain ⟨ro1, ro2, ro3⟩ := reopen_slot (poll_all cbk_fn_ dev_id ds xs).1 dev_id t h1 h2 st.2.2 ht
    rw [js110_statistics_valid cbk_fn_ _ dev_id pkt h1 h2 ro1 hlen hnz,
      statistics_adjust_resync _ _ ro2]
    by_cases hc : cbk_fn_ ≠ 0
    · rw [if_pos hc, if_pos hc, st.1, if_pos hc, ← hacc]
      simp only [List.map_cons, List.map_nil, ro3]
      rw [int64_t_sub_sub _ _ hrng.1 hrng.2]
    · rw [if_neg hc, if_neg hc]; rfl


/-- A session on slot 1 (7 samples accumulated, resync pending) with raw counts
10 and 25, a failed transfer and an idle reply in between: the updates carry 7
and 22; after a close and a reopen the device restarts at raw count 3 and the
first update carries 22. -/
theorem js110_statistics_totals_continue_witness :
    (poll_all 1 1 (fixture_table 123 1)
        [some (reply_with_count [10, 0, 0, 0, 0, 0, 0, 0]), none, some fixture_reply_idle,
          some (reply_with_count [25, 0, 0, 0, 0, 0, 0, 0])]).2.map (fun u => u.samples_total)
      = [7, 22] ∧
    (js110_statistics 1
        (device_open (device_close (poll_all 1 1 (fixture_table 123 1)
          [some (reply_with_count [10, 0, 0, 0, 0, 0, 0, 0]), none, some fixture_reply_idle,
            some (reply_with_count [25, 0, 0, 0, 0, 0, 0, 0])]).1 1).2 1 transport_ok).2
        1 (some (reply_with_count [3, 0, 0, 0, 0, 0, 0, 0]))).2.2.map (fun u => u.samples_total)
      = [22] := by
  obtain ⟨hA, hB⟩ := js110_statistics_totals_continue 1 (fixture_table 123 1) 1 (by decide)
    (by decide) (by decide) (by decide) (by decide) (by decide)
    [some (reply_with_count [10, 0, 0, 0, 0, 0, 0, 0]), none, some fixture_reply_idle,
      some (reply_with_count [25, 0, 0, 0, 0, 0, 0, 0])]
    transport_ok (by decide) (reply_with_count [3, 0, 0, 0, 0, 0, 0, 0]) (by decide) (by decide)
  have hA' := (hA (by decide) (by decide)).1
  have e : (poll_all 1 1 (fixture_table 123 1)
        [some (reply_with_count [10, 0, 0, 0, 0, 0, 0, 0]), none, some fixture_reply_idle,
          some (reply_with_count [25, 0, 0, 0, 0, 0, 0, 0])]).2.map (fun u => u.samples_total)
      = [7, 22] := hA'.trans (by decide)
  refine ⟨e, ?_⟩
  rw [hB, e]
  decide

/-- Claim C2 fails as stated: in one session on slot 1 (7 samples accumulated)
the raw counts 0 and then `2^63` are non-decreasing, yet the updates carry 7
and then `7 - 2^63`. -/
theorem js110_statistics_totals_counterexample :
    ((fixture_table 123 1).slot 1).state = ST_OPEN ∧
    [some (reply_with_count [0, 0, 0, 0, 0, 0, 0, 0]),
      some (reply_with_count [0, 0, 0, 0, 0, 0, 0, 128])].filterMap raw_count
      = [0, 2 ^ 63] ∧
    (poll_all 1 1 (fixture_table 123 1)
        [some (reply_with_count [0, 0, 0, 0, 0, 0, 0, 0]),
          some (reply_with_count [0, 0, 0, 0, 0, 0, 0, 128])]).2.map (fun u => u.samples_total)
      = [7, 7 - 2 ^ 63] := by
  refine ⟨by decide, by decide, ?_⟩
  exact (poll_all_start 1 1 (by decide) (by decide) _ (fixture_table 123 1) (by decide)
    (by decide) (by decide) (by decide)).1.trans (by decide)


/-- Claim C10: on an open slot, a 104-byte reply whose samples-this-window field
is zero makes `js110_statistics` return 0, pass nothing to the callback and
leave the whole table as it was. -/
theorem js110_statistics_zero_samples (cbk_fn_ : Nat) (devices_ : Devices) (dev_id : Int)
    (pkt : List Nat) (h1 : 1 ≤ dev_id) (h2 : dev_id ≤ 127)
    (hopen : (devices_.slot dev_id.toNat).state = ST_OPEN) (hlen : pkt.length = 104)
    (hz : buf_decode_i32 (pkt.drop 56) = 0) :
    js110_statistics cbk_fn_ devices_ dev_id (some pkt) = (0, devices_, []) := by
  simp [js110_statistics, dev_id_guard dev_id h1 h2, hopen, hlen, hz]

/-- Slot 1 open with a resync pending, the idle reply: nothing changes. -/
theorem js110_statistics_zero_samples_witness :
    js110_statistics 1 (fixture_table 123 1) 1 (some fixture_reply_idle)
      = (0, fixture_table 123 1, []) :=
  js110_statistics_zero_samples 1 (fixture_table 123 1) 1 fixture_reply_idle
    (by decide) (by decide) (by decide) (by decide) (by decide)

/-- The adjustment of a parsed reply on a slot whose resync flag is set, with the
charge and energy of the reply written as `raw_charge` and `raw_energy`. -/
theorem statistics_adjust_parse_resync (d : device_s) (sn : Int) (pkt : List Nat)
    (hr : d.resync ≠ 0) :
    (statistics_adjust d (statistics_parse sn pkt)).1 =
      { d with
        samples_total_offset :=
          int64_t ((statistics_parse sn pkt).samples_total - d.samples_total_accum),
        charge_offset := binary64 (raw_charge pkt - d.charge_accum),
        energy_offset := binary64 (raw_energy pkt - d.energy_accum),
        resync := 0,
        samples_total_accum :=
          int64_t ((statistics_parse sn pkt).samples_total -
            int64_t ((statistics_parse sn pkt).samples_total - d.samples_total_accum)),
        charge_accum :=
          binary64 (raw_charge pkt - binary64 (raw_charge pkt - d.charge_accum)),
        energy_accum :=
          binary64 (raw_energy pkt - binary64 (raw_energy pkt - d.energy_accum)) } ∧
    (statistics_adjust d (statistics_parse sn pkt)).2.samples_total =
      int64_t ((statistics_parse sn pkt).samples_total -
        int64_t ((statistics_parse sn pkt).samples_total - d.samples_total_accum)) ∧
    (statistics_adjust d (statistics_parse sn pkt)).2.charge =
      binary64 (raw_charge pkt - binary64 (raw_charge pkt - d.charge_accum)) ∧
    (statistics_adjust d (statistics_parse sn pkt)).2.energy =
      binary64 (raw_energy pkt - binary64 (raw_energy pkt - d.energy_accum)) := by
  have hc := (statistics_parse_charge sn pkt).1
  have he := (statistics_parse_charge sn pkt).2
  generalize statistics_parse sn pkt = s at hc he ⊢
  rw [statistics_adjust_resync d s hr, hc, he]
  unfold double_sub
  exact ⟨rfl, rfl, rfl, rfl⟩

/-- Claim C1, as the source has it: on an open slot with the resync flag set and
a valid reply, `js110_statistics` returns 0 and clears the resync flag; when a
callback is registered it passes it one update, and when none is registered it
emits nothing.  The sample offset becomes raw minus accumulated (wrapped to 64
bits), the accumulated sample count is unchanged and is the count emitted.  For
charge and energy the offset is raw minus accumulated rounded to binary64, and
the value emitted and stored as the new total is raw minus that offset, rounded
again: it is the accumulated total, unchanged, when the total is a binary64
number and raw minus accumulated needs no rounding, in particular when the total
is 0 (the first poll after process start). -/
theorem js110_statistics_resync (cbk_fn_ : Nat) (devices_ : Devices) (dev_id : Int)
    (pkt : List Nat) (h1 : 1 ≤ dev_id) (h2 : dev_id ≤ 127)
    (hopen : (devices_.slot dev_id.toNat).state = ST_OPEN)
    (hresync : (devices_.slot dev_id.toNat).resync ≠ 0)
    (hlo : -2 ^ 63 ≤ (devices_.slot dev_id.toNat).samples_total_accum)
    (hhi : (devices_.slot dev_id.toNat).samples_total_accum < 2 ^ 63)
    (hlen : pkt.length = 104) (hnz : buf_decode_i32 (pkt.drop 56) ≠ 0) :
    (js110_statistics cbk_fn_ devices_ dev_id (some pkt)).1 = 0 ∧
    (cbk_fn_ = 0 → (js110_statistics cbk_fn_ devices_ dev_id (some pkt)).2.2 = []) ∧
    (cbk_fn_ ≠ 0 → ∃ u, (js110_statistics cbk_fn_ devices_ dev_id (some pkt)).2.2 = [u] ∧
      u.samples_total = (devices_.slot dev_id.toNat).samples_total_accum ∧
      u.charge =
        ((js110_statistics cbk_fn_ devices_ dev_id (some pkt)).2.1.slot dev_id.toNat).charge_accum ∧
      u.energy =
        ((js110_statistics cbk_fn_ devices_ dev_id (some pkt)).2.1.slot dev_id.toNat).energy_accum) ∧
    ((js110_statistics cbk_fn_ devices_ dev_id (some pkt)).2.1.slot dev_id.toNat).samples_total_offset
      = int64_t ((buf_decode_u64 (pkt.drop 24) : Int)
          - (devices_.slot dev_id.toNat).samples_total_accum) ∧
    ((js110_statistics cbk_fn_ devices_ dev_id (some pkt)).2.1.slot dev_id.toNat).samples_total_accum
      = (devices_.slot dev_id.toNat).samples_total_accum ∧
    ((js110_statistics cbk_fn_ devices_ dev_id (some pkt)).2.1.slot dev_id.toNat).resync = 0 ∧
    ((js110_statistics cbk_fn_ devices_ dev_id (some pkt)).2.1.slot dev_id.toNat).charge_offset
      = binary64 (raw_charge pkt - (devices_.slot dev_id.toNat).charge_accum) ∧
    ((js110_statistics cbk_fn_ devices_ dev_id (some pkt)).2.1.slot dev_id.toNat).energy_offset
      = binary64 (raw_energy pkt - (devices_.slot dev_id.toNat).energy_accum) ∧
    ((js110_statistics cbk_fn_ devices_ dev_id (some pkt)).2.1.slot dev_id.toNat).charge_accum
      = binary64 (raw_charge pkt -
          binary64 (raw_charge pkt - (devices_.slot dev_id.toNat).charge_accum)) ∧
    ((js110_statistics cbk_fn_ devices_ dev_id (some pkt)).2.1.slot dev_id.toNat).energy_accum
      = binary64 (raw_energy pkt -
          binary64 (raw_energy pkt - (devices_.slot dev_id.toNat).energy_accum)) ∧
    (binary64 (devices_.slot dev_id.toNat).charge_accum = (devices_.slot dev_id.toNat).charge_accum →
      binary64 (raw_charge pkt - (devices_.slot dev_id.toNat).charge_accum) =
        raw_charge pkt - (devices_.slot dev_id.toNat).charge_accum →
      ((js110_statistics cbk_fn_ devices_ dev_id (some pkt)).2.1.slot dev_id.toNat).charge_accum
        = (devices_.slot dev_id.toNat).charge_accum) ∧
    (binary64 (devices_.slot dev_id.toNat).energy_accum = (devices_.slot dev_id.toNat).energy_accum →
      binary64 (raw_energy pkt - (devices_.slot dev_id.toNat).energy_accum) =
        raw_energy pkt - (devices_.slot dev_id.toNat).energy_accum →
      ((js110_statistics cbk_fn_ devices_ dev_id (some pkt)).2.1.slot dev_id.toNat).energy_accum
        = (devices_.slot dev_id.toNat).energy_accum) ∧
    ((devices_.slot dev_id.toNat).charge_accum = 0 →
      ((js110_statistics cbk_fn_ devices_ dev_id (some pkt)).2.1.slot dev_id.toNat).charge_accum
        = 0) ∧
    ((devices_.slot dev_id.toNat).energy_accum = 0 →
      ((js110_statistics cbk_fn_ devices_ dev_id (some pkt)).2.1.slot dev_id.toNat).energy_accum
        = 0) := by
  have e := int64_t_sub_sub (int64_t (buf_decode_u64 (pkt.drop 24)))
    (devices_.slot dev_id.toNat).samples_total_accum hlo hhi
  have hst : (statistics_parse (devices_.slot dev_id.toNat).serial_number pkt).samples_total =
      int64_t (buf_decode_u64 (pkt.drop 24)) := rfl
  obtain ⟨a1, a2, a3, a4⟩ := statistics_adjust_parse_resync (devices_.slot dev_id.toNat)
    (devices_.slot dev_id.toNat).serial_number pkt hresync
  rw [hst] at a1 a2
  have hv := js110_statistics_valid cbk_fn_ devices_ dev_id pkt h1 h2 hopen hlen hnz
  have hslot : (js110_statistics cbk_fn_ devices_ dev_id (some pkt)).2.1.slot dev_id.toNat =
      (statistics_adjust (devices_.slot dev_id.toNat)
        (statistics_parse (devices_.slot dev_id.toNat).serial_number pkt)).1 := by
    rw [hv]
    exact (slot_write _ _ _ _).trans (if_pos rfl)
  have hupd : (js110_statistics cbk_fn_ devices_ dev_id (some pkt)).2.2 =
      if cbk_fn_ ≠ 0 then
        [(statistics_adjust (devices_.slot dev_id.toNat)
          (statistics_parse (devices_.slot dev_id.toNat).serial_number pkt)).2]
      else [] := by rw [hv]
  have hfst : (js110_statistics cbk_fn_ devices_ dev_id (some pkt)).1 = 0 := by rw [hv]
  rw [hslot, hupd, a1]
  generalize statistics_adjust (devices_.slot dev_id.toNat)
    (statistics_parse (devices_.slot dev_id.toNat).serial_number pkt) = r at a2 a3 a4
  generalize devices_.slot dev_id.toNat = d at e a2 a3 a4
  have hcz : ∀ x : ℚ, binary64 x = x → binary64 (x - binary64 (x - 0)) = 0 := by
    intro x hx
    rw [sub_zero, hx, sub_self, binary64_zero]
  have hex : ∀ x c : ℚ, binary64 c = c → binary64 (x - c) = x - c →
      binary64 (x - binary64 (x - c)) = c := by
    intro x c hc hxc
    rw [hxc, sub_sub_cancel, hc]
  refine ⟨hfst, ?_, ?_, ?_, ?_, rfl, rfl, rfl, rfl, rfl, ?_, ?_, ?_, ?_⟩
  · intro h; rw [if_neg (by simpa using h)]
  · intro h
    rw [if_pos h]
    exact ⟨_, rfl, by rw [a2]; exact e, a3, a4⟩
  · rw [int64_t_sub_int64_t]
  · exact e
  · exact fun hc hxc => hex _ _ hc hxc
  · exact fun hc hxc => hex _ _ hc hxc
  · intro h0
    show binary64 (raw_charge pkt - binary64 (raw_charge pkt - d.charge_accum)) = 0
    rw [h0]
    exact hcz _ (raw_charge_binary64 pkt).1
  · intro h0
    show binary64 (raw_energy pkt - binary64 (raw_energy pkt - d.energy_accum)) = 0
    rw [h0]
    exact hcz _ (raw_charge_binary64 pkt).2

/-- Slot 1 open with a resync pending and 7 samples, charge 1/2 accumulated; the
device reports 1000 samples and the charge 1: the update carries 7 samples and
the charge 1/2, and the accumulated charge is still 1/2.  With the charge
`2^-27` accumulated and a device that reports the charge `2^35`, the offset is
rounded to `2^35` and the accumulated charge becomes 0. -/
theorem js110_statistics_resync_witness :
    (∃ u, (js110_statistics 1 (fixture_table 123 1) 1 (some fixture_reply)).2.2 = [u] ∧
      u.samples_total = ((fixture_table 123 1).slot (1 : Int).toNat).samples_total_accum ∧
      u.charge = 1 / 2 ∧
      ((fixture_table 123 1).slot (1 : Int).toNat).charge_accum = 1 / 2) ∧
    (fixture_table_charge.slot (1 : Int).toNat).charge_accum = 1 / 2 ^ 27 ∧
    raw_charge fixture_reply_charge = 2 ^ 35 ∧
    ((js110_statistics 1 fixture_table_charge 1 (some fixture_reply_charge)).2.1.slot
      (1 : Int).toNat).charge_offset = 2 ^ 35 ∧
    ((js110_statistics 1 fixture_table_charge 1 (some fixture_reply_charge)).2.1.slot
      (1 : Int).toNat).charge_accum = 0 := by
  have k := js110_statistics_resync 1 (fixture_table 123 1) 1 fixture_reply (by decide)
    (by decide) (by decide) (by decide) (by decide) (by decide) (by decide) (by decide)
  have k2 := js110_statistics_resync 1 fixture_table_charge 1 fixture_reply_charge (by decide)
    (by decide) (by decide) (by decide) (by decide) (by decide) (by decide) (by decide)
  have ha : ((fixture_table 123 1).slot (1 : Int).toNat).charge_accum = 1 / 2 := rfl
  have ha2 : (fixture_table_charge.slot (1 : Int).toNat).charge_accum = 1 / 2 ^ 27 := rfl
  have hhalf : binary64 (1 / 2) = 1 / 2 := by
    have := binary64_exact 1 (-1) (by norm_num) (by norm_num)
    norm_num at this
    exact this
  have hraw : raw_charge fixture_reply = 1 := by
    have e40 : buf_decode_i64 (fixture_reply.drop 40) = 2 ^ 27 := by decide
    unfold raw_charge
    rw [e40, binary64_intCast _ (by norm_num)]
    norm_num
  have hraw2 : raw_charge fixture_reply_charge = 2 ^ 35 := by
    have e40 : buf_decode_i64 (fixture_reply_charge.drop 40) = 2 ^ 62 := by decide
    have := binary64_exact 1 62 (by norm_num) (by norm_num)
    unfold raw_charge
    rw [e40]
    norm_num at this ⊢
    rw [this]
    norm_num
  have hround : binary64 (2 ^ 35 - 1 / 2 ^ 27) = 2 ^ 35 := by
    have h := binary64_eval (2 ^ 35 - 1 / 2 ^ 27) (-18) (2 ^ 53) (by norm_num [abs_of_pos])
      (by norm_num [abs_of_pos]) (by norm_num)
      (round_half_even_of_lt _ _ (by norm_num) (by norm_num))
    rw [h]; norm_num
  refine ⟨?_, ha2, hraw2, ?_, ?_⟩
  · obtain ⟨u, hu, hs, hc, -⟩ := k.2.2.1 (by decide)
    refine ⟨u, hu, hs, ?_, ha⟩
    rw [hc]
    have := k.2.2.2.2.2.2.2.2.2.2.1 (by rw [ha]; exact hhalf)
      (by rw [ha, hraw]; norm_num; exact hhalf)
    rw [this, ha]
  · rw [k2.2.2.2.2.2.2.1, ha2, hraw2, hround]
  · rw [k2.2.2.2.2.2.2.2.2.1, ha2, hraw2, hround, sub_self, binary64_zero]

/-- Claim C1 fails as stated: slot 1 is open with a resync pending, the reply is
valid, no callback is registered, and no update is emitted. -/
theorem js110_statistics_resync_counterexample :
    ((fixture_table 123 1).slot 1).state = ST_OPEN ∧
    ((fixture_table 123 1).slot 1).resync ≠ 0 ∧
    fixture_reply.length = 104 ∧
    buf_decode_i32 (fixture_reply.drop 56) ≠ 0 ∧
    (js110_statistics 0 (fixture_table 123 1) 1 (some fixture_reply)).2.2 = [] := by
  refine ⟨by decide, by decide, by decide, by decide, ?_⟩
  rw [js110_statistics_valid 0 (fixture_table 123 1) 1 fixture_reply (by decide) (by decide)
    (by decide) (by decide) (by decide)]
  rfl

/-- The adjustment leaves the window fields and the serial number of the update
as parsed. -/
theorem statistics_adjust_window (d : device_s) (s : js110_statistics_s) :
    (statistics_adjust d s).2.serial_number = s.serial_number ∧
    (statistics_adjust d s).2.samples_this = s.samples_this ∧
    (statistics_adjust d s).2.samples_per_update = s.samples_per_update ∧
    (statistics_adjust d s).2.samples_per_second = s.samples_per_second ∧
    (statistics_adjust d s).2.current_mean = s.current_mean ∧
    (statistics_adjust d s).2.current_min = s.current_min ∧
    (statistics_adjust d s).2.current_max = s.current_max ∧
    (statistics_adjust d s).2.voltage_mean = s.voltage_mean ∧
    (statistics_adjust d s).2.voltage_min = s.voltage_min ∧
    (statistics_adjust d s).2.voltage_max = s.voltage_max ∧
    (statistics_adjust d s).2.power_min = s.power_min ∧
    (statistics_adjust d s).2.power_max = s.power_max ∧
    (statistics_adjust d s).2.power_mean = s.power_mean := by
  by_cases hr : d.resync = 0
  · rw [statistics_adjust_steady d s hr]
    exact ⟨rfl, rfl, rfl, rfl, rfl, rfl, rfl, rfl, rfl, rfl, rfl, rfl, rfl⟩
  · rw [statistics_adjust_resync d s hr]
    exact ⟨rfl, rfl, rfl, rfl, rfl, rfl, rfl, rfl, rfl, rfl, rfl, rfl, rfl⟩

/-- The window fields of a parsed reply: the int32 ones are exact quotients, the
mean power is the int64 rounded to binary64 over `2^34`. -/
theorem statistics_parse_window (sn : Int) (pkt : List Nat) :
    (statistics_parse sn pkt).serial_number = (sn % 2 ^ 32).toNat ∧
    (statistics_parse sn pkt).samples_this = buf_decode_i32 (pkt.drop 56) ∧
    (statistics_parse sn pkt).samples_per_update = buf_decode_i32 (pkt.drop 60) ∧
    (statistics_parse sn pkt).samples_per_second = buf_decode_i32 (pkt.drop 64) ∧
    (statistics_parse sn pkt).current_mean = (buf_decode_i32 (pkt.drop 68) : ℚ) / 2 ^ 27 ∧
    (statistics_parse sn pkt).current_min = (buf_decode_i32 (pkt.drop 72) : ℚ) / 2 ^ 27 ∧
    (statistics_parse sn pkt).current_max = (buf_decode_i32 (pkt.drop 76) : ℚ) / 2 ^ 27 ∧
    (statistics_parse sn pkt).voltage_mean = (buf_decode_i32 (pkt.drop 80) : ℚ) / 2 ^ 17 ∧
    (statistics_parse sn pkt).voltage_min = (buf_decode_i32 (pkt.drop 84) : ℚ) / 2 ^ 17 ∧
    (statistics_parse sn pkt).voltage_max = (buf_decode_i32 (pkt.drop 88) : ℚ) / 2 ^ 17 ∧
    (statistics_parse sn pkt).power_min = (buf_decode_i32 (pkt.drop 92) : ℚ) / 2 ^ 21 ∧
    (statistics_parse sn pkt).power_max = (buf_decode_i32 (pkt.drop 96) : ℚ) / 2 ^ 21 ∧
    (statistics_parse sn pkt).power_mean =
      binary64 (buf_decode_i64 (pkt.drop 32) : ℚ) / 2 ^ 34 := by
  have h32 : ∀ (b : List Nat) (k : Nat), k ≤ 1000 →
      double_div (double_of_int (buf_decode_i32 b)) (2 ^ k) = (buf_decode_i32 b : ℚ) / 2 ^ k :=
    fun b k hk => double_div_int32 _ k (int32_t_abs _) hk
  exact ⟨rfl, rfl, rfl, rfl, h32 _ 27 (by norm_num), h32 _ 27 (by norm_num),
    h32 _ 27 (by norm_num), h32 _ 17 (by norm_num), h32 _ 17 (by norm_num),
    h32 _ 17 (by norm_num), h32 _ 21 (by norm_num), h32 _ 21 (by norm_num),
    double_div_int64 _ 34 (by norm_num)⟩

/-- The update a valid reply yields on an open slot, when a callback is
registered. -/
theorem js110_statistics_update (cbk_fn_ : Nat) (devices_ : Devices) (dev_id : Int)
    (pkt : List Nat) (h1 : 1 ≤ dev_id) (h2 : dev_id ≤ 127)
    (hopen : (devices_.slot dev_id.toNat).state = ST_OPEN) (hlen : pkt.length = 104)
    (hnz : buf_decode_i32 (pkt.drop 56) ≠ 0) (hc : cbk_fn_ ≠ 0) :
    (js110_statistics cbk_fn_ devices_ dev_id (some pkt)).2.2 =
      [(statistics_adjust (devices_.slot dev_id.toNat)
        (statistics_parse (devices_.slot dev_id.toNat).serial_number pkt)).2] := by
  rw [js110_statistics_valid cbk_fn_ devices_ dev_id pkt h1 h2 hopen hlen hnz]
  exact if_pos hc

/-- Claim C3, as the source has it: on an open slot and a valid reply, when a
callback is registered `js110_statistics` passes it exactly one update.  Its
int32 window fields are the integers of the reply at the documented offsets
over the documented scales, exactly; its mean power is the int64 at offset 32
rounded to binary64 (53 significant bits), over `2^34`, which is the exact
quotient when the integer has magnitude at most `2^53`; its serial number is the
slot's, converted to `uint32_t` (the same number when the slot's is not
negative).  When no callback is registered nothing is emitted. -/
theorem js110_statistics_decodes (cbk_fn_ : Nat) (devices_ : Devices) (dev_id : Int)
    (pkt : List Nat) (h1 : 1 ≤ dev_id) (h2 : dev_id ≤ 127)
    (hopen : (devices_.slot dev_id.toNat).state = ST_OPEN) (hlen : pkt.length = 104)
    (hnz : buf_decode_i32 (pkt.drop 56) ≠ 0) :
    (cbk_fn_ = 0 → (js110_statistics cbk_fn_ devices_ dev_id (some pkt)).2.2 = []) ∧
    (cbk_fn_ ≠ 0 → ∃ u, (js110_statistics cbk_fn_ devices_ dev_id (some pkt)).2.2 = [u] ∧
      u.serial_number = ((devices_.slot dev_id.toNat).serial_number % 2 ^ 32).toNat ∧
      (0 ≤ (devices_.slot dev_id.toNat).serial_number →
        (devices_.slot dev_id.toNat).serial_number < 2 ^ 31 →
        (u.serial_number : Int) = (devices_.slot dev_id.toNat).serial_number) ∧
      u.samples_this = buf_decode_i32 (pkt.drop 56) ∧
      u.samples_per_update = buf_decode_i32 (pkt.drop 60) ∧
      u.samples_per_second = buf_decode_i32 (pkt.drop 64) ∧
      u.current_mean = (buf_decode_i32 (pkt.drop 68) : ℚ) / 2 ^ 27 ∧
      u.current_min = (buf_decode_i32 (pkt.drop 72) : ℚ) / 2 ^ 27 ∧
      u.current_max = (buf_decode_i32 (pkt.drop 76) : ℚ) / 2 ^ 27 ∧
      u.voltage_mean = (buf_decode_i32 (pkt.drop 80) : ℚ) / 2 ^ 17 ∧
      u.voltage_min = (buf_decode_i32 (pkt.drop 84) : ℚ) / 2 ^ 17 ∧
      u.voltage_max = (buf_decode_i32 (pkt.drop 88) : ℚ) / 2 ^ 17 ∧
      u.power_min = (buf_decode_i32 (pkt.drop 92) : ℚ) / 2 ^ 21 ∧
      u.power_max = (buf_decode_i32 (pkt.drop 96) : ℚ) / 2 ^ 21 ∧
      u.power_mean = binary64 (buf_decode_i64 (pkt.drop 32) : ℚ) / 2 ^ 34 ∧
      (|buf_decode_i64 (pkt.drop 32)| ≤ 2 ^ 53 →
        u.power_mean = (buf_decode_i64 (pkt.drop 32) : ℚ) / 2 ^ 34)) := by
  constructor
  · intro h
    rw [js110_statistics_valid cbk_fn_ devices_ dev_id pkt h1 h2 hopen hlen hnz]
    exact if_neg (by simpa using h)
  · intro h
    refine ⟨_, js110_statistics_update cbk_fn_ devices_ dev_id pkt h1 h2 hopen hlen hnz h, ?_⟩
    obtain ⟨w0, w1, w2, w3, w4, w5, w6, w7, w8, w9, w10, w11, w12⟩ :=
      statistics_adjust_window (devices_.slot dev_id.toNat)
        (statistics_parse (devices_.slot dev_id.toNat).serial_number pkt)
    obtain ⟨p0, p1, p2, p3, p4, p5, p6, p7, p8, p9, p10, p11, p12⟩ :=
      statistics_parse_window (devices_.slot dev_id.toNat).serial_number pkt
    refine ⟨w0.trans p0, ?_, w1.trans p1, w2.trans p2, w3.trans p3, w4.trans p4, w5.trans p5,
      w6.trans p6, w7.trans p7, w8.trans p8, w9.trans p9, w10.trans p10, w11.trans p11,
      w12.trans p12, ?_⟩
    · intro h0 h31
      rw [w0.trans p0]
      omega
    · intro hb
      rw [w12.trans p12, binary64_intCast _ hb]

/-- The fixture reply on slot 1 (serial number 123) with a callback: one update,
with serial number 123 and the hand-computed window values. -/
theorem js110_statistics_decodes_witness :
    ∃ u, (js110_statistics 1 (fixture_table 123 0) 1 (some fixture_reply)).2.2 = [u] ∧
      u.serial_number = 123 ∧ u.samples_this = 7 ∧ u.samples_per_update = 2 ∧
      u.samples_per_second = 3 ∧ u.current_mean = 1 ∧ u.current_min = -1 ∧
      u.current_max = 2 ∧ u.voltage_mean = 1 ∧ u.voltage_min = 0 ∧ u.voltage_max = 2 ∧
      u.power_min = 1 ∧ u.power_max = 2 ∧ u.power_mean = 1 := by
  obtain ⟨u, hu, hs, -, h1, h2, h3, c1, c2, c3, v1, v2, v3, p1, p2, -, p3⟩ :=
    (js110_statistics_decodes 1 (fixture_table 123 0) 1 fixture_reply (by decide) (by decide)
      (by decide) (by decide) (by decide)).2 (by decide)
  have e68 : buf_decode_i32 (fixture_reply.drop 68) = 2 ^ 27 := by decide
  have e72 : buf_decode_i32 (fixture_reply.drop 72) = -2 ^ 27 := by decide
  have e76 : buf_decode_i32 (fixture_reply.drop 76) = 2 ^ 28 := by decide
  have e80 : buf_decode_i32 (fixture_reply.drop 80) = 2 ^ 17 := by decide
  have e84 : buf_decode_i32 (fixture_reply.drop 84) = 0 := by decide
  have e88 : buf_decode_i32 (fixture_reply.drop 88) = 2 ^ 18 := by decide
  have e92 : buf_decode_i32 (fixture_reply.drop 92) = 2 ^ 21 := by decide
  have e96 : buf_decode_i32 (fixture_reply.drop 96) = 2 ^ 22 := by decide
  have e32 : buf_decode_i64 (fixture_reply.drop 32) = 2 ^ 34 := by decide
  rw [e68] at c1; rw [e72] at c2; rw [e76] at c3; rw [e80] at v1; rw [e84] at v2
  rw [e88] at v3; rw [e92] at p1; rw [e96] at p2; rw [e32] at p3
  have p3' := p3 (by norm_num)
  exact ⟨u, hu, hs.trans (by decide), h1.trans (by decide), h2.trans (by decide),
    h3.trans (by decide), c1.trans (by norm_num), c2.trans (by norm_num),
    c3.trans (by norm_num), v1.trans (by norm_num), v2.trans (by norm_num),
    v3.trans (by norm_num), p1.trans (by norm_num), p2.trans (by norm_num),
    p3'.trans (by norm_num)⟩

/-- Claim C3 fails as stated: with no callback registered the valid reply on the
open slot 1 yields no update; with a callback, on a slot whose serial number is
`-1`, the update carries the serial number `4294967295`; and a reply whose power
accumulator is `2^53 + 1` yields the mean power 524288, that is `2^53 / 2^34`,
not `(2^53 + 1) / 2^34`. -/
theorem js110_statistics_decodes_counterexample :
    ((fixture_table 123 0).slot 1).state = ST_OPEN ∧
    fixture_reply.length = 104 ∧
    buf_decode_i32 (fixture_reply.drop 56) ≠ 0 ∧
    (js110_statistics 0 (fixture_table 123 0) 1 (some fixture_reply)).2.2 = [] ∧
    ((fixture_table (-1) 0).slot 1).state = ST_OPEN ∧
    ((fixture_table (-1) 0).slot 1).serial_number = -1 ∧
    (js110_statistics 1 (fixture_table (-1) 0) 1 (some fixture_reply)).2.2.map
      (fun u => u.serial_number) = [4294967295] ∧
    fixture_reply_power.length = 104 ∧
    buf_decode_i32 (fixture_reply_power.drop 56) ≠ 0 ∧
    buf_decode_i64 (fixture_reply_power.drop 32) = 2 ^ 53 + 1 ∧
    (js110_statistics 1 (fixture_table 123 0) 1 (some fixture_reply_power)).2.2.map
      (fun u => u.power_mean) = [524288] ∧
    ((2 ^ 53 + 1 : Int) : ℚ) / 2 ^ 34 ≠ 524288 := by
  have e32 : buf_decode_i64 (fixture_reply_power.drop 32) = 2 ^ 53 + 1 := by decide
  have hround : binary64 (((2 ^ 53 + 1 : Int)) : ℚ) = 2 ^ 53 := by
    have h := binary64_eval (((2 ^ 53 + 1 : Int)) : ℚ) 1 (2 ^ 52)
      (by norm_num [abs_of_pos]) (by norm_num [abs_of_pos]) (by norm_num) (by
        have := (round_half_even_tie (2 ^ 52) (by norm_num)).1
        rw [← this]; congr 1; norm_num)
    rw [h]; norm_num
  refine ⟨by decide, by decide, by decide, ?_, by decide, by decide, ?_, by decide, by decide,
    e32, ?_, by norm_num⟩
  · rw [js110_statistics_valid 0 (fixture_table 123 0) 1 fixture_reply (by decide) (by decide)
      (by decide) (by decide) (by decide)]
    rfl
  · rw [js110_statistics_update 1 (fixture_table (-1) 0) 1 fixture_reply (by decide) (by decide)
      (by decide) (by decide) (by decide) (by decide)]
    rw [List.map_cons, List.map_nil, (statistics_adjust_window _ _).1,
      (statistics_parse_window _ _).1]
    rfl
  · rw [js110_statistics_update 1 (fixture_table 123 0) 1 fixture_reply_power (by decide)
      (by decide) (by decide) (by decide) (by decide) (by decide)]
    rw [List.map_cons, List.map_nil, (statistics_adjust_window _ _).2.2.2.2.2.2.2.2.2.2.2.2,
      (statistics_parse_window _ _).2.2.2.2.2.2.2.2.2.2.2.2, e32, hround]
    norm_num

/-! ## Session manager: claims -/

/-- Claim C9: for a slot id in 1..127, `device_open` on an Empty slot returns 2
and changes nothing; on an Open slot it returns 0 and changes nothing; on a
Present or Missing slot it returns 0 and makes the slot Open exactly when the
transport open, the handle initialisation and the settings transfer all
succeed, and otherwise returns non-zero and leaves the lifecycle state as it
was; no other slot is touched. -/
theorem device_open_lifecycle (ds : Devices) (dev_id : Int) (t : transport_open)
    (h1 : 1 ≤ dev_id) (h2 : dev_id ≤ 127) :
    ((ds.slot dev_id.toNat).state = ST_EMPTY → device_open ds dev_id t = (2, ds)) ∧
    ((ds.slot dev_id.toNat).state = ST_OPEN → device_open ds dev_id t = (0, ds)) ∧
    ((ds.slot dev_id.toNat).state = ST_PRESENT ∨ (ds.slot dev_id.toNat).state = ST_MISSING →
      (t.ok → (device_open ds dev_id t).1 = 0 ∧
        ((device_open ds dev_id t).2.slot dev_id.toNat).state = ST_OPEN) ∧
      (¬ t.ok → (device_open ds dev_id t).1 ≠ 0 ∧
        ((device_open ds dev_id t).2.slot dev_id.toNat).state
          = (ds.slot dev_id.toNat).state)) ∧
    (∀ j, j ≠ dev_id.toNat → (device_open ds dev_id t).2.slot j = ds.slot j) := by
  have hg : ¬ (dev_id ≤ 0 ∨ 128 < dev_id) := by omega
  refine ⟨?_, ?_, ?_, ?_⟩
  · intro h; rw [device_open_eq, if_neg hg, if_pos h]
  · intro h; rw [device_open_eq, if_neg hg, if_neg (by simp [h]), if_pos h]
  · intro h
    have he : (ds.slot dev_id.toNat).state ≠ ST_EMPTY := by rcases h with h | h <;> simp [h]
    have ho : (ds.slot dev_id.toNat).state ≠ ST_OPEN := by rcases h with h | h <;> simp [h]
    rw [device_open_eq, if_neg hg, if_neg he, if_neg ho]
    constructor
    · intro hok; simp [hok, opened_slot_state]
    · intro hok; simp [hok, opened_slot_state]
  · intro j hj
    rw [device_open_slot, if_neg (fun h => hj h.1)]

/-- Slot 1 is Present and every transport call succeeds: `device_open` returns 0
and the slot is Open. -/
theorem device_open_lifecycle_witness :
    (device_open (devices_zero.write 1 fixture_present) 1 transport_ok).1 = 0 ∧
    ((device_open (devices_zero.write 1 fixture_present) 1 transport_ok).2.slot
      (1 : Int).toNat).state = ST_OPEN :=
  ((device_open_lifecycle (devices_zero.write 1 fixture_present) 1 transport_ok
    (by decide) (by decide)).2.2.1 (Or.inl (by decide))).1 (by decide)

set_option maxRecDepth 100000 in
/-- Claim C8 at its failing inputs: slot 1 is Present without handles; when
`WinUsb_Initialize` fails `device_open` returns 1 and the slot, still Present,
keeps the file handle 5; when the settings transfer fails it keeps both
handles; when `CreateFileW` fails it holds `INVALID_HANDLE_VALUE`.  The first
of these states is reached from the zeroed table by one scan. -/
theorem device_open_failure_keeps_handle :
    (fixture_present.file = 0 ∧ fixture_present.winusb = 0) ∧
    ((device_open (devices_zero.write 1 fixture_present) 1 transport_no_winusb).1 = 1 ∧
      ((device_open (devices_zero.write 1 fixture_present) 1 transport_no_winusb).2.slot 1).state
        = ST_PRESENT ∧
      ((device_open (devices_zero.write 1 fixture_present) 1 transport_no_winusb).2.slot 1).file
        = 5) ∧
    ((device_open (devices_zero.write 1 fixture_present) 1 transport_no_settings).1 = 1 ∧
      ((device_open (devices_zero.write 1 fixture_present) 1 transport_no_settings).2.slot 1).state
        = ST_PRESENT ∧
      ((device_open (devices_zero.write 1 fixture_present) 1 transport_no_settings).2.slot 1).file
        = 5 ∧
      ((device_open (devices_zero.write 1 fixture_present) 1 transport_no_settings).2.slot 1).winusb
        = 6) ∧
    ((device_open (devices_zero.write 1 fixture_present) 1 transport_no_file).1 = 1 ∧
      ((device_open (devices_zero.write 1 fixture_present) 1 transport_no_file).2.slot 1).state
        = ST_PRESENT ∧
      ((device_open (devices_zero.write 1 fixture_present) 1 transport_no_file).2.slot 1).file
        = INVALID_HANDLE_VALUE) ∧
    (js110_scan 2 devices_zero
        (some [⟨some [97, 35, 98, 35, 49, 50, 51, 35, 120], transport_no_winusb⟩])).map
      (fun r => (r.1, (r.2.slot 1).state, (r.2.slot 1).file, (r.2.slot 1).winusb))
      = some (0, ST_PRESENT, 5, 0) := by
  refine ⟨by decide, by decide, by decide, by decide, ?_⟩
  decide!


/-! ## Scanner: claims -/

/-- Claim C7: for every table and enumeration, `js110_scan` returns (with status
0) when every detail retrieval succeeds and the fuel suffices, and whenever it
returns, every slot in 1..127 that was Open and whose path is not enumerated is
left Missing with both handles null and its mark clear; every other field
(path, serial number, resync flag, offsets, accumulated totals) is as before. -/
theorem js110_scan_closes_absent (ds : Devices) (os : List dev_interface) (fuel : Nat)
    (i : Nat) (h1 : 1 ≤ i) (h2 : i ≤ 127) (hopen : (ds.slot i).state = ST_OPEN)
    (hp : ∀ e ∈ os, e.detail ≠ some (ds.slot i).DevicePath) :
    ((∀ e ∈ os, e.detail ≠ none) → os.length < fuel →
      ∃ ds', js110_scan fuel ds (some os) = some (0, ds')) ∧
    ∀ rc ds', js110_scan fuel ds (some os) = some (rc, ds') →
      rc = 0 ∧
      ds'.slot i = { ds.slot i with state := ST_MISSING, file := 0, winusb := 0, mark := 0 } := by
  refine ⟨fun hok hf => ⟨_, js110_scan_eq os hok fuel hf ds⟩, ?_⟩
  intro rc ds' hret
  obtain ⟨_, hrc, hds⟩ := js110_scan_some os fuel ds rc ds' hret
  refine ⟨hrc, ?_⟩
  rw [hds]
  have hc : (scan_clear_marks ds).slot i = { ds.slot i with mark := 0 } := by
    rw [scan_clear_marks_slot, if_pos ⟨h1, by omega⟩]
  have hfr : (os.foldl scan_step (scan_clear_marks ds)).slot i = { ds.slot i with mark := 0 } := by
    rw [scan_fold_frame os _ i h1 (by rw [hc]; simp [hopen]) (by rw [hc]; exact hp), hc]
  rw [scan_close_unmarked_slot, hfr, if_pos ⟨h1, by omega, rfl, hopen⟩]

/-- Slot 1 is Open and nothing is enumerated: the scan returns 0 and leaves it
Missing with no handle. -/
theorem js110_scan_closes_absent_witness :
    ∃ ds', js110_scan 1 (fixture_table 123 0) (some []) = some (0, ds') ∧
      ds'.slot 1 =
        { (fixture_table 123 0).slot 1 with
          state := ST_MISSING, file := 0, winusb := 0, mark := 0 } := by
  have h := js110_scan_closes_absent (fixture_table 123 0) [] 1 1 (by decide) (by decide)
    (by decide) (by simp)
  obtain ⟨ds', hret⟩ := h.1 (by simp) (by decide)
  exact ⟨ds', hret, (h.2 0 ds' hret).2⟩

/-- Claim C6, as the source has it: for every table and enumeration,
`js110_scan` returns (with status 0) when every detail retrieval succeeds and
the fuel suffices, and whenever it returns, every slot in 1..127 whose path is
not enumerated keeps its path and is not Open: it is Missing if it was Open,
and otherwise in the state it was in (Empty, Missing, or Present for a slot
that was tracked but never opened). -/
theorem js110_scan_absent_not_open (ds : Devices) (os : List dev_interface) (fuel : Nat) :
    ((∀ e ∈ os, e.detail ≠ none) → os.length < fuel →
      ∃ ds', js110_scan fuel ds (some os) = some (0, ds')) ∧
    ∀ rc ds', js110_scan fuel ds (some os) = some (rc, ds') →
      rc = 0 ∧
      ∀ i, 1 ≤ i → i ≤ 127 → (∀ e ∈ os, e.detail ≠ some (ds'.slot i).DevicePath) →
        (ds'.slot i).DevicePath = (ds.slot i).DevicePath ∧
        (ds'.slot i).state
          = (if (ds.slot i).state = ST_OPEN then ST_MISSING else (ds.slot i).state) ∧
        (ds'.slot i).state ≠ ST_OPEN := by
  refine ⟨fun hok hf => ⟨_, js110_scan_eq os hok fuel hf ds⟩, ?_⟩
  intro rc ds' hret
  obtain ⟨_, hrc, hds⟩ := js110_scan_some os fuel ds rc ds' hret
  refine ⟨hrc, ?_⟩
  rw [hds]
  intro i h1 h2 hp
  have hc : (scan_clear_marks ds).slot i = { ds.slot i with mark := 0 } := by
    rw [scan_clear_marks_slot, if_pos ⟨h1, by omega⟩]
  have hpath : ((scan_close_unmarked (os.foldl scan_step (scan_clear_marks ds))).slot i).DevicePath
      = ((os.foldl scan_step (scan_clear_marks ds)).slot i).DevicePath := by
    rw [scan_close_unmarked_slot]; split_ifs <;> rfl
  rw [hpath] at hp
  have hfr : (os.foldl scan_step (scan_clear_marks ds)).slot i = { ds.slot i with mark := 0 } := by
    rcases scan_fold_change os (scan_clear_marks ds) i h1 with h | ⟨_, e, he, hd⟩
    · rw [h, hc]
    · exact absurd hd (hp e he)
  rw [scan_close_unmarked_slot, hfr]
  by_cases ho : (ds.slot i).state = ST_OPEN
  · rw [if_pos ⟨h1, by omega, rfl, ho⟩, if_pos ho]
    exact ⟨rfl, rfl, by simp⟩
  · rw [if_neg (fun h => ho h.2.2.2), if_neg ho]
    exact ⟨rfl, rfl, ho⟩

/-- Slot 1 is Open and nothing is enumerated: the scan returns 0 and slot 1 is
Missing afterwards. -/
theorem js110_scan_absent_not_open_witness :
    ∃ ds', js110_scan 1 (fixture_table 123 0) (some []) = some (0, ds') ∧
      (ds'.slot 1).DevicePath = ((fixture_table 123 0).slot 1).DevicePath ∧
      (ds'.slot 1).state = ST_MISSING := by
  have h := js110_scan_absent_not_open (fixture_table 123 0) [] 1
  obtain ⟨ds', hret⟩ := h.1 (by simp) (by decide)
  have k := (h.2 0 ds' hret).2 1 (by decide) (by decide) (by simp)
  exact ⟨ds', hret, k.1, k.2.1.trans (by decide)⟩

set_option maxRecDepth 100000 in
/-- Claim C6 fails as stated: from the zeroed table, a scan that enumerates one
device whose `WinUsb_Initialize` fails leaves slot 1 Present; a second scan
that enumerates nothing returns 0 and slot 1, whose path is not enumerated, is
still Present, neither Missing nor Empty. -/
theorem js110_scan_absent_counterexample :
    ((js110_scan 2 devices_zero
        (some [⟨some [97, 35, 98, 35, 49, 50, 51, 35, 120], transport_no_winusb⟩])).bind
      (fun r => js110_scan 1 r.2 (some []))).map
        (fun r => (r.1, (r.2.slot 1).state, (r.2.slot 1).DevicePath))
      = some (0, ST_PRESENT, [97, 35, 98, 35, 49, 50, 51, 35, 120]) := by
  decide!


theorem tracked_clear_marks (ds : Devices) (p : List Nat) (i : Nat) :
    tracked (scan_clear_marks ds) p i ↔ tracked ds p i := by
  unfold tracked
  rw [scan_clear_marks_slot]
  split_ifs <;> rfl

theorem tracked_close_unmarked (ds : Devices) (p : List Nat) (i : Nat) :
    tracked (scan_close_unmarked ds) p i ↔ tracked ds p i := by
  unfold tracked
  rw [scan_close_unmarked_slot]
  split_ifs with h
  · simp [h.2.2.2]
  · rfl

theorem mark_close_unmarked (ds : Devices) (i : Nat) :
    ((scan_close_unmarked ds).slot i).mark = (ds.slot i).mark := by
  rw [scan_close_unmarked_slot]
  split_ifs <;> rfl

theorem path_settled_close_unmarked (ds : Devices) (p : List Nat) (h : path_settled ds p) :
    path_settled (scan_close_unmarked ds) p := by
  rcases h with ⟨i, ht, hm⟩ | ⟨hfull, hun⟩
  · left
    exact ⟨i, (tracked_close_unmarked ds p i).mpr ht, by rw [mark_close_unmarked]; exact hm⟩
  · right
    constructor
    · intro i i1 i2
      rw [scan_close_unmarked_slot]
      split_ifs with h
      · simp
      · exact hfull i i1 i2
    · intro i hi
      exact hun i ((tracked_close_unmarked ds p i).mp hi)

/-- Claim C5, as the source has it: on a table in which no two non-Empty slots
of 1..127 hold the same path, `js110_scan` returns (with status 0) when every
detail retrieval succeeds and the fuel suffices, and whenever it returns,
whatever the open attempts answer, each enumerated path is either the path of
exactly one non-Empty slot in 1..127, whose mark is set, or the path of no such
slot, the table having no Empty slot left in 1..127. -/
theorem js110_scan_marks_enumerated (ds : Devices) (os : List dev_interface) (fuel : Nat)
    (hd : paths_distinct ds) :
    ((∀ e ∈ os, e.detail ≠ none) → os.length < fuel →
      ∃ ds', js110_scan fuel ds (some os) = some (0, ds')) ∧
    ∀ rc ds', js110_scan fuel ds (some os) = some (rc, ds') →
      rc = 0 ∧
      ∀ e ∈ os, ∀ p, e.detail = some p →
        (∃ i, tracked ds' p i ∧ (ds'.slot i).mark ≠ 0 ∧ ∀ j, tracked ds' p j → j = i) ∨
        (table_full ds' ∧ ∀ i, ¬ tracked ds' p i) := by
  refine ⟨fun hok hf => ⟨_, js110_scan_eq os hok fuel hf ds⟩, ?_⟩
  intro rc ds' hret
  obtain ⟨_, hrc, hds⟩ := js110_scan_some os fuel ds rc ds' hret
  refine ⟨hrc, ?_⟩
  rw [hds]
  intro e he p hp
  have hd1 : paths_distinct (scan_clear_marks ds) := by
    intro i j q hi hj
    exact hd i j q ((tracked_clear_marks ds q i).mp hi) ((tracked_clear_marks ds q j).mp hj)
  have hd2 := scan_fold_distinct os _ hd1
  have hs := path_settled_close_unmarked _ p (scan_fold_settles os (scan_clear_marks ds) e he p hp)
  rcases hs with ⟨i, ht, hm⟩ | h
  · left
    refine ⟨i, ht, hm, fun j hj => ?_⟩
    exact hd2 j i p ((tracked_close_unmarked _ p j).mp hj) ((tracked_close_unmarked _ p i).mp ht)
  · right; exact h

/-- From the zeroed table, one device is enumerated: the scan returns 0 and the
path is settled. -/
theorem js110_scan_marks_enumerated_witness :
    ∃ ds', js110_scan 2 devices_zero
        (some [⟨some [97, 35, 98, 35, 49, 50, 51, 35, 120], transport_ok⟩]) = some (0, ds') ∧
      ((∃ i, tracked ds' [97, 35, 98, 35, 49, 50, 51, 35, 120] i ∧ (ds'.slot i).mark ≠ 0 ∧
          ∀ j, tracked ds' [97, 35, 98, 35, 49, 50, 51, 35, 120] j → j = i) ∨
        (table_full ds' ∧ ∀ i, ¬ tracked ds' [97, 35, 98, 35, 49, 50, 51, 35, 120] i)) := by
  have h := js110_scan_marks_enumerated devices_zero
    [⟨some [97, 35, 98, 35, 49, 50, 51, 35, 120], transport_ok⟩] 2
    (fun i j p hi _ => absurd rfl hi.2.2.1)
  obtain ⟨ds', hret⟩ := h.1 (by simp) (by decide)
  exact ⟨ds', hret, (h.2 0 ds' hret).2 _ (List.mem_cons_self _ _) _ rfl⟩

set_option maxRecDepth 100000 in
/-- Claim C5 fails as stated.  On the full table `fixture_full` the scan of one
new path `[200]` returns 0 and no slot in 1..127 holds `[200]` afterwards.  And
on `fixture_twice`, where slots 1 and 2 hold the same path, the scan of that
path leaves both slots non-Empty with that path. -/
theorem js110_scan_marks_enumerated_counterexample :
    (∃ ds', js110_scan 2 fixture_full (some [⟨some [200], transport_ok⟩]) = some (0, ds') ∧
      ∀ i, 1 ≤ i → i ≤ 127 → (ds'.slot i).DevicePath ≠ [200]) ∧
    (js110_scan 2 fixture_twice
        (some [⟨some [97, 35, 98, 35, 49, 50, 51, 35, 120], transport_ok⟩])).map
      (fun r => (r.1, (r.2.slot 1).state, (r.2.slot 1).DevicePath,
        (r.2.slot 2).state, (r.2.slot 2).DevicePath))
      = some (0, ST_PRESENT, [97, 35, 98, 35, 49, 50, 51, 35, 120],
          ST_PRESENT, [97, 35, 98, 35, 49, 50, 51, 35, 120]) := by
  constructor
  · refine ⟨_, js110_scan_eq _ (by simp) 2 (by decide) fixture_full, ?_⟩
    intro i h1 h2
    have hne : ((scan_clear_marks fixture_full).slot i).state ≠ ST_EMPTY := by
      rw [scan_clear_marks_slot]; split_ifs <;> simp [fixture_full, fixture_present]
    have hp : ((scan_clear_marks fixture_full).slot i).DevicePath = [i] := by
      rw [scan_clear_marks_slot]; split_ifs <;> simp [fixture_full]
    have k := scan_fold_keep [⟨some [200], transport_ok⟩] _ i hne
    rw [scan_close_unmarked_slot]
    have : ((List.foldl scan_step (scan_clear_marks fixture_full)
        [⟨some [200], transport_ok⟩]).slot i).DevicePath ≠ [200] := by
      rw [k.2.1, hp]; simp; omega
    split_ifs <;> exact this
  · decide!

/-- Claim C11: on an open slot, when the status transfer fails or transfers a
number of bytes other than 104, `js110_statistics` returns 1, passes nothing to
the callback and leaves the whole table as it was, so the slot is still Open
with the same handles, resync flag, offsets and accumulated totals. -/
theorem js110_statistics_soft_failure (cbk_fn_ : Nat) (devices_ : Devices) (dev_id : Int)
    (xfer : Option (List Nat)) (h1 : 1 ≤ dev_id) (h2 : dev_id ≤ 127)
    (hopen : (devices_.slot dev_id.toNat).state = ST_OPEN)
    (hfail : xfer = none ∨ ∃ pkt, xfer = some pkt ∧ pkt.length ≠ 104) :
    js110_statistics cbk_fn_ devices_ dev_id xfer = (1, devices_, []) := by
  rcases hfail with h | ⟨pkt, h, hl⟩
  · subst h
    simp [js110_statistics, dev_id_guard dev_id h1 h2, hopen]
  · subst h
    have hl' : ¬ (104 = pkt.length) := fun e => hl e.symm
    simp [js110_statistics, dev_id_guard dev_id h1 h2, hopen, hl']

/-- Slot 1 is open with a resync pending: a failed transfer and a 103-byte reply
both return 1 and change nothing. -/
theorem js110_statistics_soft_failure_witness :
    js110_statistics 1 (fixture_table 123 1) 1 none = (1, fixture_table 123 1, []) ∧
    js110_statistics 1 (fixture_table 123 1) 1 (some (List.replicate 103 1))
      = (1, fixture_table 123 1, []) :=
  ⟨js110_statistics_soft_failure 1 (fixture_table 123 1) 1 none (by decide) (by decide)
      (by decide) (Or.inl rfl),
    js110_statistics_soft_failure 1 (fixture_table 123 1) 1 (some (List.replicate 103 1))
      (by decide) (by decide) (by decide) (Or.inr ⟨_, rfl, by decide⟩)⟩

/-! ## Slot table: claims -/

/-- Claim C16: for a slot id in 1..127, `device_close` returns 0; on a slot that
is not Open it changes nothing; on an Open slot it sets the state to Missing
and both handles to null and leaves the id, path, serial number, mark, resync
flag, offsets and accumulated totals of that slot, and every other slot, as
they were; and closing twice gives the table of closing once. -/
theorem device_close_effect (ds : Devices) (dev_id : Int) (h1 : 1 ≤ dev_id) (h2 : dev_id ≤ 127) :
    (device_close ds dev_id).1 = 0 ∧
    ((ds.slot dev_id.toNat).state ≠ ST_OPEN → (device_close ds dev_id).2 = ds) ∧
    ((ds.slot dev_id.toNat).state = ST_OPEN →
      (device_close ds dev_id).2 =
        ds.write dev_id.toNat
          { ds.slot dev_id.toNat with state := ST_MISSING, file := 0, winusb := 0 }) ∧
    (device_close (device_close ds dev_id).2 dev_id).2 = (device_close ds dev_id).2 := by
  have hg : ¬ (dev_id ≤ 0 ∨ 128 < dev_id) := by omega
  refine ⟨device_close_fst ds dev_id h1 h2, device_close_not_open ds dev_id, ?_, ?_⟩
  · intro ho
    rw [device_close_eq, if_neg hg, if_pos ho]
  · apply device_close_not_open
    rw [device_close_slot]
    split_ifs with h
    · simp
    · intro ho
      exact h ⟨rfl, h1, by omega, ho⟩

/-- Closing the open slot 1 returns 0, leaves it Missing without handles and
with its 7 accumulated samples; closing again changes nothing. -/
theorem device_close_effect_witness :
    (device_close (fixture_table 123 1) 1).1 = 0 ∧
    (device_close (fixture_table 123 1) 1).2 =
      (fixture_table 123 1).write (1 : Int).toNat
        { (fixture_table 123 1).slot (1 : Int).toNat with
          state := ST_MISSING, file := 0, winusb := 0 } ∧
    (device_close (device_close (fixture_table 123 1) 1).2 1).2
      = (device_close (fixture_table 123 1) 1).2 :=
  have h := device_close_effect (fixture_table 123 1) 1 (by decide) (by decide)
  ⟨h.1, h.2.2.1 (by decide), h.2.2.2⟩

/-- Claim C15: `device_lookup`, which only reads the table, returns the lowest
index in 1..127 of a non-Empty slot holding the path when there is one, and 0
when there is none; what it returns is never the index of an Empty slot. -/
theorem device_lookup_lowest (ds : Devices) (p : List Nat) :
    ((∃ j, tracked ds p j) →
      tracked ds p (device_lookup ds p) ∧ ∀ j, tracked ds p j → device_lookup ds p ≤ j) ∧
    ((¬ ∃ j, tracked ds p j) → device_lookup ds p = 0) ∧
    (device_lookup ds p ≠ 0 →
      1 ≤ device_lookup ds p ∧ device_lookup ds p ≤ 127 ∧
      (ds.slot (device_lookup ds p)).state ≠ ST_EMPTY ∧
      (ds.slot (device_lookup ds p)).DevicePath = p) := by
  rcases device_lookup_spec ds p with ⟨h0, hall⟩ | ⟨ht, hfirst⟩
  · refine ⟨fun ⟨j, hj⟩ => absurd hj (hall j), fun _ => h0, fun hne => absurd h0 hne⟩
  · refine ⟨fun _ => ⟨ht, fun j hj => ?_⟩, fun hn => absurd ⟨_, ht⟩ hn, fun _ => ?_⟩
    · by_contra hlt
      exact hfirst j (by omega) hj
    · have := ht.2.1
      exact ⟨ht.1, by omega, ht.2.2.1, ht.2.2.2⟩

/-- The witness of C15: in `fixture_table` the path of slot 1 is found at 1, and
a path held by no slot gives 0. -/
theorem device_lookup_lowest_witness :
    tracked (fixture_table 123 1) [97, 35, 98, 35, 49, 50, 51, 35, 120]
      (device_lookup (fixture_table 123 1) [97, 35, 98, 35, 49, 50, 51, 35, 120]) ∧
    device_lookup (fixture_table 123 1) [97, 35, 98, 35, 49, 50, 51, 35, 120] = 1 :=
  ⟨((device_lookup_lowest (fixture_table 123 1) [97, 35, 98, 35, 49, 50, 51, 35, 120]).1
      ⟨1, by decide, by decide, by decide, by decide⟩).1, by decide⟩

/-- On a table whose slots `1..k` are taken and whose slots `k+1..127` are
Empty, `device_add` allocates slot `k + 1`. -/
theorem device_add_next (ds : Devices) (p : List Nat) (k : Nat) (hk : k < 127)
    (hfill : ∀ i, 1 ≤ i → i < 128 → ((ds.slot i).state ≠ ST_EMPTY ↔ i ≤ k)) :
    device_add ds p = (k + 1, ds.write (k + 1) (added_slot (k + 1) p)) := by
  rcases device_add_spec ds p with ⟨_, hfull⟩ | ⟨a, a1, a2, a3, a4, a5⟩
  · exact absurd ((hfill 127 (by omega) (by omega)).mp (hfull 127 (by omega) (by omega)))
      (by omega)
  · have ha : a = k + 1 := by
      have h1 : ¬ a ≤ k := fun h => (hfill a a1 a2).mpr h a3
      by_contra hne
      have h2 : k + 1 < a := by omega
      exact absurd ((hfill (k + 1) (by omega) (by omega)).mp (a4 (k + 1) (by omega) h2)) (by omega)
    subst ha
    exact a5

theorem device_add_all_fill (ps : List (List Nat)) (ds : Devices) (k : Nat)
    (hk : k + ps.length ≤ 127)
    (hfill : ∀ i, 1 ≤ i → i < 128 → ((ds.slot i).state ≠ ST_EMPTY ↔ i ≤ k)) :
    ∀ i, (device_add_all ds ps).slot i =
      if k < i ∧ i ≤ k + ps.length then added_slot i (ps.getD (i - k - 1) [])
      else ds.slot i := by
  induction ps generalizing ds k with
  | nil =>
    intro i
    rw [if_neg (by simp)]
    rfl
  | cons p ps ih =>
    intro i
    have hlen : (p :: ps).length = ps.length + 1 := rfl
    unfold device_add_all
    rw [List.foldl_cons, device_add_next ds p k (by omega) hfill]
    have hfill' : ∀ i, 1 ≤ i → i < 128 →
        (((ds.write (k + 1) (added_slot (k + 1) p)).slot i).state ≠ ST_EMPTY ↔ i ≤ k + 1) := by
      intro i i1 i2
      rw [slot_write]
      by_cases hi : i = k + 1
      · rw [if_pos hi]; simp [added_slot]; omega
      · rw [if_neg hi, hfill i i1 i2]; omega
    have := ih _ (k + 1) (by omega) hfill' i
    unfold device_add_all at this
    rw [this]
    by_cases hi : i = k + 1
    · subst hi
      rw [if_neg (by omega), if_pos (by omega), slot_write, if_pos rfl]
      simp
    · by_cases hr : k + 1 < i ∧ i ≤ k + 1 + ps.length
      · rw [if_pos hr, if_pos (by omega)]
        have e : i - k - 1 = (i - (k + 1) - 1) + 1 := by omega
        rw [e, List.getD_cons_succ]
      · rw [if_neg hr, if_neg (by omega), slot_write, if_neg hi]

theorem device_add_all_append (ds : Devices) (ps qs : List (List Nat)) :
    device_add_all ds (ps ++ qs) = device_add_all (device_add_all ds ps) qs := by
  unfold device_add_all
  rw [List.foldl_append]

theorem device_add_all_full (qs : List (List Nat)) (ds : Devices) (hfull : table_full ds) :
    device_add_all ds qs = ds := by
  induction qs with
  | nil => rfl
  | cons q qs ih =>
    unfold device_add_all
    rw [List.foldl_cons]
    rcases device_add_spec ds q with ⟨h, _⟩ | ⟨a, a1, a2, a3, _⟩
    · rw [h]; exact ih
    · exact absurd a3 (hfull a a1 a2)

/-- Claim C14: `device_add` returns the lowest index in 1..127 whose slot is
Empty and makes that slot the zeroed slot with id, state Present and the path,
every other slot unchanged; when no slot in 1..127 is Empty it returns 0 and
the table is unchanged.  So on an all-Empty table, after `device_add` on more
than 127 paths, slot `i` of 1..127 is Present with the `i`-th path, every other
index (slot 0 included) is as before, the paths past the 127th have changed
nothing, and any further `device_add` returns 0 and changes nothing. -/
theorem device_add_allocates (ds : Devices) (p : List Nat) :
    ((∃ a, 1 ≤ a ∧ a ≤ 127 ∧ (ds.slot a).state = ST_EMPTY ∧
        (∀ j, 1 ≤ j → j < a → (ds.slot j).state ≠ ST_EMPTY) ∧
        device_add ds p =
          (a, ds.write a
            { id := (a : Int), serial_number := 0, file := 0, winusb := 0,
              state := ST_PRESENT, mark := 0, DevicePath := p, resync := 0,
              samples_total_offset := 0, samples_total_accum := 0, charge_offset := 0,
              charge_accum := 0, energy_offset := 0, energy_accum := 0 })) ∨
      ((∀ j, 1 ≤ j → j ≤ 127 → (ds.slot j).state ≠ ST_EMPTY) ∧ device_add ds p = (0, ds))) ∧
    (∀ ps : List (List Nat), (∀ i, (ds.slot i).state = ST_EMPTY) → 127 < ps.length →
      (∀ i, 1 ≤ i → i ≤ 127 →
        (device_add_all ds ps).slot i =
          { id := (i : Int), serial_number := 0, file := 0, winusb := 0,
            state := ST_PRESENT, mark := 0, DevicePath := ps.getD (i - 1) [], resync := 0,
            samples_total_offset := 0, samples_total_accum := 0, charge_offset := 0,
            charge_accum := 0, energy_offset := 0, energy_accum := 0 }) ∧
      (∀ i, i = 0 ∨ 128 ≤ i → (device_add_all ds ps).slot i = ds.slot i) ∧
      device_add_all ds ps = device_add_all ds (ps.take 127) ∧
      ∀ q, device_add (device_add_all ds ps) q = (0, device_add_all ds ps)) := by
  constructor
  · rcases device_add_spec ds p with ⟨h, hfull⟩ | ⟨a, a1, a2, a3, a4, a5⟩
    · right; exact ⟨fun j j1 j2 => hfull j j1 (by omega), h⟩
    · left; exact ⟨a, a1, by omega, a3, a4, a5⟩
  · intro ps hempty hlen
    have hfill : ∀ i, 1 ≤ i → i < 128 → ((ds.slot i).state ≠ ST_EMPTY ↔ i ≤ 0) := by
      intro i i1 _
      constructor
      · intro h; exact absurd (hempty i) h
      · intro h; omega
    have htake : (ps.take 127).length = 127 := by rw [List.length_take]; omega
    have hslots := device_add_all_fill (ps.take 127) ds 0 (by omega) hfill
    have hfull : table_full (device_add_all ds (ps.take 127)) := by
      intro i i1 i2
      rw [hslots i, if_pos (by omega)]
      simp [added_slot]
    have hall : device_add_all ds ps = device_add_all ds (ps.take 127) := by
      conv_lhs => rw [← List.take_append_drop 127 ps]
      rw [device_add_all_append, device_add_all_full _ _ hfull]
    refine ⟨?_, ?_, hall, ?_⟩
    · intro i i1 i2
      rw [hall, hslots i, if_pos (by omega)]
      have e : (List.take 127 ps).getD (i - 0 - 1) [] = ps.getD (i - 1) [] := by
        rw [List.getD_eq_getElem?_getD, List.getD_eq_getElem?_getD, List.getElem?_take]
        simp only [Nat.sub_zero]
        rw [if_pos (by omega)]
      rw [e]
      rfl
    · intro i hi
      rw [hall, hslots i, if_neg (by omega)]
    · intro q
      rw [hall]
      rcases device_add_spec (device_add_all ds (ps.take 127)) q with ⟨h, _⟩ | ⟨a, a1, a2, a3, _⟩
      · exact h
      · exact absurd a3 (hfull a a1 a2)

/-- On the zeroed table, `device_add` of the 128 paths `[0], [1], ..., [127]`:
slot 127 holds the 127th path `[126]`, slot 0 is still the zeroed slot and the
128th path `[127]` is dropped. -/
theorem device_add_allocates_witness :
    (device_add_all devices_zero ((List.range 128).map (fun i => [i]))).slot 127 =
      { id := 127, serial_number := 0, file := 0, winusb := 0,
        state := ST_PRESENT, mark := 0, DevicePath := [126], resync := 0,
        samples_total_offset := 0, samples_total_accum := 0, charge_offset := 0,
        charge_accum := 0, energy_offset := 0, energy_accum := 0 } ∧
    (device_add_all devices_zero ((List.range 128).map (fun i => [i]))).slot 0 = device_zero ∧
    device_add_all devices_zero ((List.range 128).map (fun i => [i])) =
      device_add_all devices_zero (((List.range 128).map (fun i => [i])).take 127) := by
  have h := (device_add_allocates devices_zero []).2 ((List.range 128).map (fun i => [i]))
    (fun _ => rfl) (by simp)
  refine ⟨(h.1 127 (by decide) (by decide)).trans ?_, h.2.1 0 (Or.inl rfl), h.2.2.1⟩
  simp

/-! ## Allocation is append-only -/

theorem statistics_adjust_keep (d : device_s) (s : js110_statistics_s) :
    (statistics_adjust d s).1.state = d.state ∧
    (statistics_adjust d s).1.DevicePath = d.DevicePath := by
  unfold statistics_adjust
  dsimp only
  split_ifs <;> exact ⟨rfl, rfl⟩

theorem js110_statistics_keep (cbk_fn_ : Nat) (ds : Devices) (dev_id : Int)
    (xfer : Option (List Nat)) (i : Nat) :
    ((js110_statistics cbk_fn_ ds dev_id xfer).2.1.slot i).state = (ds.slot i).state ∧
    ((js110_statistics cbk_fn_ ds dev_id xfer).2.1.slot i).DevicePath
      = (ds.slot i).DevicePath := by
  unfold js110_statistics
  dsimp only
  by_cases hg : dev_id ≤ 0 ∨ dev_id > (DEVICE_COUNT_MAX : Int)
  · rw [if_pos hg]; exact ⟨rfl, rfl⟩
  · rw [if_neg hg]
    by_cases ho : (ds.slot dev_id.toNat).state ≠ ST_OPEN
    · rw [if_pos ho]; exact ⟨rfl, rfl⟩
    · rw [if_neg ho]
      cases xfer with
      | none => exact ⟨rfl, rfl⟩
      | some pkt =>
        dsimp only
        by_cases hl : 104 ≠ pkt.length
        · rw [if_pos hl]; exact ⟨rfl, rfl⟩
        · rw [if_neg hl]
          by_cases hz : 0 = buf_decode_i32 (pkt.drop 56)
          · rw [if_pos hz]; exact ⟨rfl, rfl⟩
          · rw [if_neg hz]
            dsimp only
            rw [slot_write]
            by_cases hi : i = dev_id.toNat
            · rw [if_pos hi, hi]
              exact statistics_adjust_keep _ _
            · rw [if_neg hi]; exact ⟨rfl, rfl⟩

theorem device_open_keep (ds : Devices) (dev_id : Int) (t : transport_open) (i : Nat)
    (h : (ds.slot i).state ≠ ST_EMPTY) :
    ((device_open ds dev_id t).2.slot i).state ≠ ST_EMPTY ∧
    ((device_open ds dev_id t).2.slot i).DevicePath = (ds.slot i).DevicePath := by
  rw [device_open_slot]
  split_ifs
  · exact ⟨opened_slot_not_empty _ _ h, opened_slot_path _ _⟩
  · exact ⟨h, rfl⟩

theorem device_close_keep (ds : Devices) (dev_id : Int) (i : Nat)
    (h : (ds.slot i).state ≠ ST_EMPTY) :
    ((device_close ds dev_id).2.slot i).state ≠ ST_EMPTY ∧
    ((device_close ds dev_id).2.slot i).DevicePath = (ds.slot i).DevicePath := by
  rw [device_close_slot]
  split_ifs
  · exact ⟨by simp, rfl⟩
  · exact ⟨h, rfl⟩

theorem js110_scan_keep (fuel : Nat) (ds : Devices) (os : Option (List dev_interface))
    (rc : Int) (ds' : Devices) (hret : js110_scan fuel ds os = some (rc, ds')) (i : Nat)
    (h : (ds.slot i).state ≠ ST_EMPTY) :
    (ds'.slot i).state ≠ ST_EMPTY ∧ (ds'.slot i).DevicePath = (ds.slot i).DevicePath := by
  cases os with
  | none =>
    unfold js110_scan at hret
    obtain ⟨_, h2⟩ := Prod.mk.inj (Option.some.inj hret)
    rw [← h2]; exact ⟨h, rfl⟩
  | some l =>
    obtain ⟨_, _, hds⟩ := js110_scan_some l fuel ds rc ds' hret
    rw [hds]
    have hc : ((scan_clear_marks ds).slot i).state ≠ ST_EMPTY ∧
        ((scan_clear_marks ds).slot i).DevicePath = (ds.slot i).DevicePath := by
      rw [scan_clear_marks_slot]; split_ifs <;> exact ⟨h, rfl⟩
    have hf := scan_fold_keep l (scan_clear_marks ds) i hc.1
    rw [scan_close_unmarked_slot]
    split_ifs
    · exact ⟨by simp, hf.2.1.trans hc.2⟩
    · exact ⟨hf.1, hf.2.1.trans hc.2⟩

/-- Claim C20: a slot that is not Empty before a call of `js110_scan`,
`device_open`, `device_close` or `js110_statistics` is not Empty after it and
holds the same path, whatever the arguments and the answers of the operating
system; so a path is only ever written to a slot that was Empty.  (The scan
returns 1 without an enumeration, and 0 when every detail retrieval succeeds
and the fuel suffices.) -/
theorem slot_never_reclaimed (ds : Devices) (i : Nat) (h : (ds.slot i).state ≠ ST_EMPTY) :
    (∀ fuel os rc ds', js110_scan fuel ds os = some (rc, ds') →
      (ds'.slot i).state ≠ ST_EMPTY ∧ (ds'.slot i).DevicePath = (ds.slot i).DevicePath) ∧
    (∀ fuel, js110_scan fuel ds none = some (1, ds)) ∧
    (∀ fuel l, (∀ e ∈ l, e.detail ≠ none) → l.length < fuel →
      ∃ ds', js110_scan fuel ds (some l) = some (0, ds')) ∧
    (∀ dev_id t,
      ((device_open ds dev_id t).2.slot i).state ≠ ST_EMPTY ∧
      ((device_open ds dev_id t).2.slot i).DevicePath = (ds.slot i).DevicePath) ∧
    (∀ dev_id,
      ((device_close ds dev_id).2.slot i).state ≠ ST_EMPTY ∧
      ((device_close ds dev_id).2.slot i).DevicePath = (ds.slot i).DevicePath) ∧
    (∀ cbk_fn_ dev_id xfer,
      ((js110_statistics cbk_fn_ ds dev_id xfer).2.1.slot i).state ≠ ST_EMPTY ∧
      ((js110_statistics cbk_fn_ ds dev_id xfer).2.1.slot i).DevicePath
        = (ds.slot i).DevicePath) := by
  refine ⟨fun fuel os rc ds' hret => js110_scan_keep fuel ds os rc ds' hret i h,
    fun fuel => rfl, fun fuel l hok hf => ⟨_, js110_scan_eq l hok fuel hf ds⟩,
    fun dev_id t => device_open_keep ds dev_id t i h,
    fun dev_id => device_close_keep ds dev_id i h, fun cbk_fn_ dev_id xfer => ?_⟩
  have k := js110_statistics_keep cbk_fn_ ds dev_id xfer i
  exact ⟨by rw [k.1]; exact h, k.2⟩

/-- The open slot 1 of `fixture_table`: closing it, and a scan that enumerates
nothing, both leave it non-Empty with its path. -/
theorem slot_never_reclaimed_witness :
    (((device_close (fixture_table 123 1) 1).2.slot 1).state ≠ ST_EMPTY ∧
      ((device_close (fixture_table 123 1) 1).2.slot 1).DevicePath
        = ((fixture_table 123 1).slot 1).DevicePath) ∧
    ∃ ds', js110_scan 1 (fixture_table 123 1) (some []) = some (0, ds') ∧
      (ds'.slot 1).state ≠ ST_EMPTY ∧
      (ds'.slot 1).DevicePath = ((fixture_table 123 1).slot 1).DevicePath := by
  have h := slot_never_reclaimed (fixture_table 123 1) 1 (by decide)
  obtain ⟨ds', hret⟩ := h.2.2.1 1 [] (by simp) (by decide)
  exact ⟨h.2.2.2.2.1 1, ds', hret, h.1 1 (some []) 0 ds' hret⟩

/-! ## Paths stay pairwise distinct -/

theorem reachable_distinct (ds : Devices) (h : reachable ds) : paths_distinct ds := by
  induction h with
  | zero => exact fun i j p hi _ => absurd rfl hi.2.2.1
  | scan ds ds' fuel os rc _ hret ih =>
    cases os with
    | none =>
      unfold js110_scan at hret
      obtain ⟨_, h2⟩ := Prod.mk.inj (Option.some.inj hret)
      rw [← h2]; exact ih
    | some l =>
      obtain ⟨_, _, hds⟩ := js110_scan_some l fuel ds rc ds' hret
      rw [hds]
      have hd1 : paths_distinct (scan_clear_marks ds) := by
        intro i j q hi hj
        exact ih i j q ((tracked_clear_marks ds q i).mp hi) ((tracked_clear_marks ds q j).mp hj)
      have hd2 := scan_fold_distinct l _ hd1
      intro i j q hi hj
      exact hd2 i j q ((tracked_close_unmarked _ q i).mp hi) ((tracked_close_unmarked _ q j).mp hj)
  | poll ds cbk_fn_ dev_id xfer _ ih =>
    intro i j q hi hj
    have ki := js110_statistics_keep cbk_fn_ ds dev_id xfer i
    have kj := js110_statistics_keep cbk_fn_ ds dev_id xfer j
    apply ih i j q
    · exact ⟨hi.1, hi.2.1, by rw [← ki.1]; exact hi.2.2.1, by rw [← ki.2]; exact hi.2.2.2⟩
    · exact ⟨hj.1, hj.2.1, by rw [← kj.1]; exact hj.2.2.1, by rw [← kj.2]; exact hj.2.2.2⟩

/-- Claim C19: in every table reachable from the zeroed table by calls of
`js110_scan` and `js110_statistics`, with any enumerations and any transport
answers, two non-Empty slots of 1..127 that hold equal paths are the same
slot. -/
theorem reachable_paths_distinct (ds : Devices) (h : reachable ds) :
    ∀ i j, 1 ≤ i → i ≤ 127 → 1 ≤ j → j ≤ 127 →
      (ds.slot i).state ≠ ST_EMPTY → (ds.slot j).state ≠ ST_EMPTY →
      (ds.slot i).DevicePath = (ds.slot j).DevicePath → i = j := by
  intro i j i1 i2 j1 j2 hi hj hp
  exact reachable_distinct ds h i j (ds.slot j).DevicePath
    ⟨i1, by omega, hi, hp⟩ ⟨j1, by omega, hj, rfl⟩

/-- From the zeroed table, a scan whose enumeration lists the same path twice
and then another one returns 0, and the table it leaves has pairwise distinct
paths. -/
theorem reachable_paths_distinct_witness :
    ∃ ds', js110_scan 4 devices_zero
        (some [⟨some [97, 35, 98, 35, 49, 50, 51, 35, 120], transport_ok⟩,
          ⟨some [97, 35, 98, 35, 49, 50, 51, 35, 120], transport_no_winusb⟩,
          ⟨some [200], transport_ok⟩]) = some (0, ds') ∧
      ∀ i j, 1 ≤ i → i ≤ 127 → 1 ≤ j → j ≤ 127 →
        (ds'.slot i).state ≠ ST_EMPTY → (ds'.slot j).state ≠ ST_EMPTY →
        (ds'.slot i).DevicePath = (ds'.slot j).DevicePath → i = j := by
  have hret := js110_scan_eq
    [⟨some [97, 35, 98, 35, 49, 50, 51, 35, 120], transport_ok⟩,
      ⟨some [97, 35, 98, 35, 49, 50, 51, 35, 120], transport_no_winusb⟩,
      ⟨some [200], transport_ok⟩] (by simp) 4 (by decide) devices_zero
  exact ⟨_, hret, reachable_paths_distinct _ (reachable.scan _ _ _ _ _ reachable.zero hret)⟩

/-! ## Serial number lemmas -/

theorem str_next_section_loop_hash (a x : List Nat) (ha : ∀ c ∈ a, c ≠ 0 ∧ c ≠ 35) :
    str_next_section_loop (a ++ 35 :: x) = some (35 :: x) := by
  induction a with
  | nil => simp [str_next_section_loop]
  | cons c a ih =>
    have hc := ha c (List.mem_cons_self _ _)
    rw [List.cons_append]
    unfold str_next_section_loop
    rw [if_neg hc.1, if_neg hc.2]
    exact ih (fun d hd => ha d (List.mem_cons_of_mem _ hd))

theorem str_next_section_loop_none (u r : List Nat) (hu : ∀ c ∈ u, c ≠ 35)
    (hr : r = [] ∨ ∃ r', r = 0 :: r') : str_next_section_loop (u ++ r) = none := by
  induction u with
  | nil =>
    rcases hr with h | ⟨r', h⟩
    · subst h; rfl
    · subst h; simp [str_next_section_loop]
  | cons c u ih =>
    rw [List.cons_append]
    unfold str_next_section_loop
    by_cases h0 : c = 0
    · rw [if_pos h0]
    · rw [if_neg h0, if_neg (hu c (List.mem_cons_self _ _))]
      exact ih (fun d hd => hu d (List.mem_cons_of_mem _ hd))

/-- On a path `a#b#f#rest` the function returns `atoi` of the field `f`. -/
theorem extract_serial_number_third (a b f rest : List Nat)
    (ha : ∀ c ∈ a, c ≠ 0 ∧ c ≠ 35) (hb : ∀ c ∈ b, c ≠ 0 ∧ c ≠ 35)
    (hf : ∀ c ∈ f, c ≠ 0 ∧ c ≠ 35) :
    extract_serial_number (some (a ++ 35 :: (b ++ 35 :: (f ++ 35 :: rest)))) = atoi f := by
  unfold extract_serial_number str_next_section
  dsimp only
  rw [str_next_section_loop_hash a _ ha]
  dsimp only
  rw [List.drop_one, List.tail_cons, str_next_section_loop_hash b _ hb]
  dsimp only
  rw [List.drop_one, List.tail_cons, str_next_section_loop_hash f _ hf]
  dsimp only
  have e : (f ++ 35 :: rest).length - (35 :: rest).length = f.length := by
    simp
  rw [e, List.take_left']
  rfl

/-- On a path `a#b#f` with no `#` after the second one the function returns 0. -/
theorem extract_serial_number_two (a b f r : List Nat)
    (ha : ∀ c ∈ a, c ≠ 0 ∧ c ≠ 35) (hb : ∀ c ∈ b, c ≠ 0 ∧ c ≠ 35)
    (hf : ∀ c ∈ f, c ≠ 35) (hr : r = [] ∨ ∃ r', r = 0 :: r') :
    extract_serial_number (some (a ++ 35 :: (b ++ 35 :: (f ++ r)))) = 0 := by
  unfold extract_serial_number str_next_section
  dsimp only
  rw [str_next_section_loop_hash a _ ha]
  dsimp only
  rw [List.drop_one, List.tail_cons, str_next_section_loop_hash b _ hb]
  dsimp only
  rw [List.drop_one, List.tail_cons, str_next_section_loop_none f r hf hr]

theorem atoi_digits_eq_foldl (f : List Nat) (acc : Nat) (hf : ∀ c ∈ f, 48 ≤ c ∧ c ≤ 57) :
    atoi_digits f acc = f.foldl (fun v c => v * 10 + (c - 48)) acc := by
  induction f generalizing acc with
  | nil => rfl
  | cons c f ih =>
    unfold atoi_digits
    rw [if_pos (hf c (List.mem_cons_self _ _)), List.foldl_cons]
    exact ih _ (fun d hd => hf d (List.mem_cons_of_mem _ hd))

theorem atoi_of_digits (f : List Nat) (hne : f ≠ []) (hf : ∀ c ∈ f, 48 ≤ c ∧ c ≤ 57)
    (hv : decimal_value f ≤ 2 ^ 31 - 1) : atoi f = (decimal_value f : Int) := by
  cases f with
  | nil => exact absurd rfl hne
  | cons c cs =>
    have hc := hf c (List.mem_cons_self _ _)
    have hsp : isspace c = false := by
      unfold isspace
      simp
      omega
    unfold atoi
    rw [List.dropWhile_cons_of_neg (by simp [hsp])]
    dsimp only
    have h45 : c ≠ 45 := by omega
    have h43 : c ≠ 43 := by omega
    have hm : (match c :: cs with
        | 45 :: cs => -((atoi_digits cs 0 : Nat) : Int)
        | 43 :: cs => ((atoi_digits cs 0 : Nat) : Int)
        | _ => ((atoi_digits (c :: cs) 0 : Nat) : Int)) = ((atoi_digits (c :: cs) 0 : Nat) : Int) := by
      split
      · rename_i h; exact absurd (List.cons.inj h).1 h45
      · rename_i h; exact absurd (List.cons.inj h).1 h43
      · rfl
    rw [hm, atoi_digits_eq_foldl _ _ hf]
    unfold decimal_value at hv ⊢
    omega

theorem atoi_digits_not_digit (cs : List Nat) (h : ¬ leading_digit cs) :
    atoi_digits cs 0 = 0 := by
  cases cs with
  | nil => rfl
  | cons c cs =>
    have h2 : ¬ (48 ≤ c ∧ c ≤ 57) := h
    unfold atoi_digits
    rw [if_neg h2]

theorem strip_sign_eq (g : List Nat) (h45 : ∀ cs, g = 45 :: cs → False)
    (h43 : ∀ cs, g = 43 :: cs → False) : strip_sign g = g := by
  unfold strip_sign
  split
  · rename_i cs; exact absurd rfl (h45 cs)
  · rename_i cs; exact absurd rfl (h43 cs)
  · rfl

theorem atoi_not_number (f : List Nat) (h : ¬ starts_with_number f) : atoi f = 0 := by
  unfold starts_with_number at h
  unfold atoi
  dsimp only
  generalize f.dropWhile isspace = g at h
  have hv : (match g with
      | 45 :: cs => -((atoi_digits cs 0 : Nat) : Int)
      | 43 :: cs => ((atoi_digits cs 0 : Nat) : Int)
      | _ => ((atoi_digits g 0 : Nat) : Int)) = 0 := by
    split
    · rename_i cs
      have e : strip_sign (45 :: cs) = cs := rfl
      rw [e] at h
      rw [atoi_digits_not_digit _ h]; rfl
    · rename_i cs
      have e : strip_sign (43 :: cs) = cs := rfl
      rw [e] at h
      rw [atoi_digits_not_digit _ h]; rfl
    · rename_i h45 h43
      rw [strip_sign_eq g h45 h43] at h
      rw [atoi_digits_not_digit _ h]; rfl
  rw [hv]
  decide

theorem atoi_range (f : List Nat) : -(2 ^ 31) ≤ atoi f ∧ atoi f ≤ 2 ^ 31 - 1 := by
  unfold atoi
  dsimp only
  constructor
  · exact le_max_left _ _
  · exact max_le (by decide) (min_le_right _ _)

theorem extract_serial_number_range (str : Option (List Nat)) :
    -(2 ^ 31) ≤ extract_serial_number str ∧ extract_serial_number str ≤ 2 ^ 31 - 1 := by
  unfold extract_serial_number
  split
  · decide
  · split
    · decide
    · dsimp only
      split
      · decide
      · exact atoi_range _

theorem split_first_hash (v : List Nat) (hv : ∀ c ∈ v, c ≠ 0) (h : 35 ∈ v) :
    ∃ pre post, v = pre ++ 35 :: post ∧ (∀ c ∈ pre, c ≠ 0 ∧ c ≠ 35) ∧ (∀ c ∈ post, c ≠ 0) := by
  induction v with
  | nil => simp at h
  | cons c v ih =>
    by_cases hc : c = 35
    · subst hc
      exact ⟨[], v, rfl, by simp, fun d hd => hv d (List.mem_cons_of_mem _ hd)⟩
    · have h2 : 35 ∈ v := by
        rcases List.mem_cons.mp h with e | e
        · exact absurd e.symm hc
        · exact e
      obtain ⟨pre, post, e, hp, hq⟩ := ih (fun d hd => hv d (List.mem_cons_of_mem _ hd)) h2
      refine ⟨c :: pre, post, by rw [e]; rfl, ?_, hq⟩
      intro d hd
      rcases List.mem_cons.mp hd with e2 | e2
      · subst e2; exact ⟨hv d (List.mem_cons_self _ _), hc⟩
      · exact hp d e2

theorem extract_serial_number_none_hash (u r : List Nat) (hu : ∀ c ∈ u, c ≠ 35)
    (hr : r = [] ∨ ∃ r', r = 0 :: r') : extract_serial_number (some (u ++ r)) = 0 := by
  unfold extract_serial_number str_next_section
  dsimp only
  rw [str_next_section_loop_none u r hu hr]

theorem extract_serial_number_one_hash (a u r : List Nat) (ha : ∀ c ∈ a, c ≠ 0 ∧ c ≠ 35)
    (hu : ∀ c ∈ u, c ≠ 35) (hr : r = [] ∨ ∃ r', r = 0 :: r') :
    extract_serial_number (some (a ++ 35 :: (u ++ r))) = 0 := by
  unfold extract_serial_number str_next_section
  dsimp only
  rw [str_next_section_loop_hash a _ ha]
  dsimp only
  rw [List.drop_one, List.tail_cons, str_next_section_loop_none u r hu hr]

/-- The shape of a string without terminator: fewer than three `#`, and then
the result is 0 whatever follows the terminator, or the form `a#b#f#rest`. -/
theorem path_fields (u : List Nat) (hu : ∀ c ∈ u, c ≠ 0) :
    (u.count 35 < 3 ∧ ∀ r, (r = [] ∨ ∃ r', r = 0 :: r') →
        extract_serial_number (some (u ++ r)) = 0) ∨
    (∃ a b f rest, u = a ++ 35 :: (b ++ 35 :: (f ++ 35 :: rest)) ∧
      (∀ c ∈ a, c ≠ 0 ∧ c ≠ 35) ∧ (∀ c ∈ b, c ≠ 0 ∧ c ≠ 35) ∧ (∀ c ∈ f, c ≠ 0 ∧ c ≠ 35)) := by
  have cnt : ∀ l : List Nat, (∀ c ∈ l, c ≠ 0 ∧ c ≠ 35) → l.count 35 = 0 := fun l hl =>
    List.count_eq_zero_of_not_mem (fun hm => (hl 35 hm).2 rfl)
  have cnt2 : ∀ l : List Nat, 35 ∉ l → l.count 35 = 0 := fun l hl =>
    List.count_eq_zero_of_not_mem hl
  have nm : ∀ l : List Nat, 35 ∉ l → ∀ c ∈ l, c ≠ 35 := fun l hl c hc e => hl (e ▸ hc)
  by_cases h1 : 35 ∈ u
  · obtain ⟨a, u1, e1, ha, hu1⟩ := split_first_hash u hu h1
    by_cases h2 : 35 ∈ u1
    · obtain ⟨b, u2, e2, hb, hu2⟩ := split_first_hash u1 hu1 h2
      by_cases h3 : 35 ∈ u2
      · obtain ⟨f, rest, e3, hf, _⟩ := split_first_hash u2 hu2 h3
        right
        exact ⟨a, b, f, rest, by rw [e1, e2, e3], ha, hb, hf⟩
      · left
        constructor
        · rw [e1, e2]
          simp [List.count_append, List.count_cons, cnt a ha, cnt b hb, cnt2 u2 h3]
        · intro r hr
          rw [e1, e2]
          simp only [List.append_assoc, List.cons_append]
          exact extract_serial_number_two a b u2 r ha hb (nm u2 h3) hr
    · left
      constructor
      · rw [e1]
        simp [List.count_append, List.count_cons, cnt a ha, cnt2 u1 h2]
      · intro r hr
        rw [e1]
        simp only [List.append_assoc, List.cons_append]
        exact extract_serial_number_one_hash a u1 r ha (nm u1 h2) hr
  · left
    constructor
    · rw [cnt2 u h1]; decide
    · intro r hr
      exact extract_serial_number_none_hash u r (nm u h1) hr

theorem c_string_split (s : List Nat) :
    ∃ r, s = c_string s ++ r ∧ (r = [] ∨ ∃ r', r = 0 :: r') ∧ ∀ c ∈ c_string s, c ≠ 0 := by
  refine ⟨s.dropWhile (fun c => c ≠ 0), ?_, ?_, ?_⟩
  · unfold c_string
    exact (List.takeWhile_append_dropWhile _ s).symm
  · induction s with
    | nil => left; rfl
    | cons c s ih =>
      by_cases hc : c = 0
      · right
        subst hc
        exact ⟨s, by simp⟩
      · rw [List.dropWhile_cons_of_pos (by simpa using hc)]
        exact ih
  · intro c hc
    unfold c_string at hc
    simpa using List.mem_takeWhile_imp hc

theorem extract_serial_number_c_string (s : List Nat) :
    extract_serial_number (some s) = extract_serial_number (some (c_string s)) ∧
    ((c_string s).count 35 < 3 → extract_serial_number (some s) = 0) := by
  obtain ⟨r, e, hr, hu⟩ := c_string_split s
  generalize c_string s = u at e hu
  subst e
  rcases path_fields u hu with ⟨hc, h0⟩ | ⟨a, b, f, rest, e, ha, hb, hf⟩
  · have h1 := h0 r hr
    have h2 := h0 [] (Or.inl rfl)
    rw [List.append_nil] at h2
    exact ⟨by rw [h1, h2], fun _ => h1⟩
  · subst e
    constructor
    · have h1 := extract_serial_number_third a b f (rest ++ r) ha hb hf
      have h2 := extract_serial_number_third a b f rest ha hb hf
      simp only [List.append_assoc, List.cons_append]
      rw [h1, h2]
    · intro hc
      exfalso
      simp [List.count_append, List.count_cons] at hc
      omega

/-! ## C12: the serial number is the value of the third field -/

/-- C12, as stated, fails: the path `a#b#123` has two `#` characters and its
third field, the text after the second `#` up to the end of the path, is the
digit run `123`, yet `extract_serial_number` returns 0, because it asks for a
third `#` that closes the field. -/
theorem extract_serial_number_end_of_path_counterexample :
    (c_string [97, 35, 98, 35, 49, 50, 51, 0]).count 35 = 2 ∧
    (c_string [97, 35, 98, 35, 49, 50, 51, 0]).drop 4 = [49, 50, 51] ∧
    decimal_value [49, 50, 51] = 123 ∧
    extract_serial_number (some [97, 35, 98, 35, 49, 50, 51, 0]) = 0 ∧
    extract_serial_number (some [97, 35, 98, 35, 49, 50, 51]) = 0 := by
  decide

/-- C12 (amended): on a path `a#b#f#rest`, where `a` and `b` hold neither `#` nor
the terminator and the third field `f`, closed by a third `#`, is a non-empty run
of decimal digits whose value fits in int32, `extract_serial_number` returns that
decimal value; when the digits run to the end of the path instead (nothing, or
the terminator, follows them), it returns 0. -/
theorem extract_serial_number_third_field (a b f rest : List Nat)
    (ha : ∀ c ∈ a, c ≠ 0 ∧ c ≠ 35) (hb : ∀ c ∈ b, c ≠ 0 ∧ c ≠ 35)
    (hne : f ≠ []) (hf : ∀ c ∈ f, 48 ≤ c ∧ c ≤ 57) (hv : decimal_value f ≤ 2 ^ 31 - 1) :
    extract_serial_number (some (a ++ 35 :: (b ++ 35 :: (f ++ 35 :: rest)))) =
      (decimal_value f : Int) ∧
    ∀ r, (r = [] ∨ ∃ r', r = 0 :: r') →
      extract_serial_number (some (a ++ 35 :: (b ++ 35 :: (f ++ r)))) = 0 := by
  have hf2 : ∀ c ∈ f, c ≠ 0 ∧ c ≠ 35 := fun c hc => by
    have := hf c hc
    omega
  constructor
  · rw [extract_serial_number_third a b f rest ha hb hf2]
    exact atoi_of_digits f hne hf hv
  · intro r hr
    exact extract_serial_number_two a b f r ha hb (fun c hc => (hf2 c hc).2) hr

/-- C12 (amended), at the path `a#b#123#{` and at `a#b#123`. -/
theorem extract_serial_number_third_field_witness :
    extract_serial_number (some ([97] ++ 35 :: ([98] ++ 35 :: ([49, 50, 51] ++ 35 :: [123, 0])))) =
      (decimal_value [49, 50, 51] : Int) ∧
    decimal_value [49, 50, 51] = 123 ∧
    extract_serial_number (some ([97] ++ 35 :: ([98] ++ 35 :: ([49, 50, 51] ++ [0])))) = 0 :=
  have h := extract_serial_number_third_field [97] [98] [49, 50, 51] [123, 0]
    (by decide) (by decide) (by decide) (by decide) (by decide)
  ⟨h.1, by decide, h.2 [0] (Or.inr ⟨[], rfl⟩)⟩

/-! ## C13: the extraction fails soft -/

/-- C13: `extract_serial_number` is total and fails soft.  It returns 0 for the
null pointer and for the empty string; its result is an int32 and depends only on
the characters before the terminator; it returns 0 when fewer than three `#`
stand before the terminator (so whenever the path has fewer than two `#`, and
no third field), and when the third field of `a#b#f#rest` does not start with a
number. -/
theorem extract_serial_number_fails_soft (s : List Nat) :
    extract_serial_number none = 0 ∧
    extract_serial_number (some []) = 0 ∧
    extract_serial_number (some s) = extract_serial_number (some (c_string s)) ∧
    (-(2 ^ 31) ≤ extract_serial_number (some s) ∧ extract_serial_number (some s) ≤ 2 ^ 31 - 1) ∧
    ((c_string s).count 35 < 3 → extract_serial_number (some s) = 0) ∧
    (∀ a b f rest, s = a ++ 35 :: (b ++ 35 :: (f ++ 35 :: rest)) →
      (∀ c ∈ a, c ≠ 0 ∧ c ≠ 35) → (∀ c ∈ b, c ≠ 0 ∧ c ≠ 35) → (∀ c ∈ f, c ≠ 0 ∧ c ≠ 35) →
      ¬ starts_with_number f → extract_serial_number (some s) = 0) := by
  refine ⟨rfl, rfl, (extract_serial_number_c_string s).1, extract_serial_number_range _,
    (extract_serial_number_c_string s).2, ?_⟩
  intro a b f rest e ha hb hf hn
  rw [e, extract_serial_number_third a b f rest ha hb hf]
  exact atoi_not_number f hn

/-- C13, at the path `a#b#x1#{` (third field `x1`) and at the path `a#b`. -/
theorem extract_serial_number_fails_soft_witness :
    extract_serial_number (some [97, 35, 98, 35, 120, 49, 35, 123, 0]) = 0 ∧
    extract_serial_number (some [97, 35, 98, 0, 35, 49, 35]) = 0 :=
  ⟨(extract_serial_number_fails_soft [97, 35, 98, 35, 120, 49, 35, 123, 0]).2.2.2.2.2
      [97] [98] [120, 49] [123, 0] rfl (by decide) (by decide) (by decide)
      (fun h => absurd h.2 (by decide)),
   (extract_serial_number_fails_soft [97, 35, 98, 0, 35, 49, 35]).2.2.2.2.1 (by decide)⟩

/-! ## Lifecycle lemmas -/

theorem thread_loop_stopped (cycles : List cycle) (g : subsystem) (h : g.thread_exit_ = true) :
    thread_loop cycles g = some (g, [], 0) := by
  cases cycles with
  | nil => unfold thread_loop; rw [if_pos h]
  | cons c cs => unfold thread_loop; rw [if_pos h]

theorem js110_finalize_eq (g : subsystem) :
    js110_finalize g =
      (0, { cbk_fn_ := 0, cbk_user_data_ := 0, thread_ := 0, thread_id_ := g.thread_id_,
            thread_exit_ := true, device_change_ := g.device_change_,
            devices_ := g.devices_ }) := by
  unfold js110_finalize
  dsimp only
  by_cases h : g.thread_ = 0
  · rw [if_neg (by simpa using h)]
    cases g
    simp only at h
    subst h
    rfl
  · rw [if_pos h]

/-! ## C17: the stop request when the worker starts -/

/-- C17 does not hold of the code.  `thread_exit_` is set by `js110_finalize` and
cleared nowhere, so a successful `js110_initialize` made while a callback is
registered (it finalizes first) or after an earlier `js110_finalize` starts a
worker with the stop request still set: `js110_thread` leaves the loop before
its first run of the body and makes no scan, whatever the cycles offer.  Only
when no callback is registered and the flag is clear does the call leave it
clear. -/
theorem js110_initialize_stale_stop_request (g : subsystem) (cbk_fn cbk_user_data : Nat)
    (CreateThread : HANDLE × Nat) (cycles : List cycle)
    (hcbk : cbk_fn ≠ 0) (hthread : CreateThread.1 ≠ 0) :
    ( js110_initialize cbk_fn cbk_user_data CreateThread g).1 = 0 ∧
    ( js110_initialize cbk_fn cbk_user_data CreateThread g).2.2 = true ∧
    (g.cbk_fn_ ≠ 0 ∨ g.thread_exit_ = true →
      ( js110_initialize cbk_fn cbk_user_data CreateThread g).2.1.thread_exit_ = true ∧
      (js110_thread cycles ( js110_initialize cbk_fn cbk_user_data CreateThread g).2.1).map
        (fun r => (r.2.1, r.2.2)) = some ([], 0)) ∧
    (g.cbk_fn_ = 0 ∧ g.thread_exit_ = false →
      ( js110_initialize cbk_fn cbk_user_data CreateThread g).2.1.thread_exit_ = false) ∧
    (js110_finalize g).2.thread_exit_ = true := by
  have hexit : g.cbk_fn_ ≠ 0 ∨ g.thread_exit_ = true →
      ( js110_initialize cbk_fn cbk_user_data CreateThread g).2.1.thread_exit_ = true := by
    intro hp
    unfold js110_initialize
    dsimp only
    rw [if_neg hcbk, if_neg hthread]
    by_cases hc : g.cbk_fn_ = 0
    · rw [if_neg (by simpa using hc)]
      rcases hp with hp | hp
      · exact absurd hc hp
      · exact hp
    · rw [if_pos hc, js110_finalize_eq]
  refine ⟨?_, ?_, ?_, ?_, ?_⟩
  · unfold js110_initialize
    dsimp only
    rw [if_neg hcbk, if_neg hthread]
  · unfold js110_initialize
    dsimp only
    rw [if_neg hcbk, if_neg hthread]
  · intro hp
    refine ⟨hexit hp, ?_⟩
    have e := thread_loop_stopped cycles
      { ( js110_initialize cbk_fn cbk_user_data CreateThread g).2.1 with device_change_ := 1 }
      (hexit hp)
    unfold js110_thread
    rw [e]
    rfl
  · intro hp
    unfold js110_initialize
    dsimp only
    rw [if_neg hcbk, if_neg hthread, if_neg (by simpa using hp.1)]
    exact hp.2
  · rw [js110_finalize_eq]

/-- C17, at the sequence initialize, finalize, initialize from the program's
initial variables: the second start is reported as a success and its worker
makes no scan in a cycle in which the first worker made one. -/
theorem js110_initialize_stale_stop_request_witness :
    ( js110_initialize 1 9 (5, 7) subsystem_zero).1 = 0 ∧
    (js110_thread [fixture_cycle] fixture_running).map (fun r => (r.2.1, r.2.2)) = some ([], 1) ∧
    ( js110_initialize 1 9 (6, 8) (js110_finalize fixture_running).2).1 = 0 ∧
    ( js110_initialize 1 9 (6, 8) (js110_finalize fixture_running).2).2.2 = true ∧
    (js110_thread [fixture_cycle]
      ( js110_initialize 1 9 (6, 8) (js110_finalize fixture_running).2).2.1).map
        (fun r => (r.2.1, r.2.2)) = some ([], 0) :=
  have h := js110_initialize_stale_stop_request (js110_finalize fixture_running).2 1 9 (6, 8)
    [fixture_cycle] (by decide) (by decide)
  ⟨by decide, by decide, h.1, h.2.1, (h.2.2.1 (Or.inr (by decide))).2⟩

/-! ## C18: initialize without a callback -/

/-- C18, as stated, fails: on a running subsystem (callback 1, user context 9,
stop request clear) `js110_initialize` without a callback returns 1 and has
cleared the registered callback and the user context and set the stop request. -/
theorem js110_initialize_no_callback_counterexample :
    fixture_running.cbk_fn_ = 1 ∧ fixture_running.cbk_user_data_ = 9 ∧
    fixture_running.thread_exit_ = false ∧ fixture_running.thread_ = 5 ∧
    ( js110_initialize 0 0 (6, 8) fixture_running).1 = 1 ∧
    ( js110_initialize 0 0 (6, 8) fixture_running).2.1.cbk_fn_ = 0 ∧
    ( js110_initialize 0 0 (6, 8) fixture_running).2.1.cbk_user_data_ = 0 ∧
    ( js110_initialize 0 0 (6, 8) fixture_running).2.1.thread_exit_ = true ∧
    ( js110_initialize 0 0 (6, 8) fixture_running).2.1.thread_ = 0 := by
  decide

/-- C18 (amended): `js110_initialize` without a callback returns 1, starts no
worker and writes neither the slot table nor the device-change flag.  When no
callback is registered it leaves every variable as it was; when one is
registered it has finalized first: the callback, the user context and the
worker handle are cleared and the stop request is set. -/
theorem js110_initialize_no_callback (g : subsystem) (cbk_user_data : Nat)
    (CreateThread : HANDLE × Nat) :
    ( js110_initialize 0 cbk_user_data CreateThread g).1 = 1 ∧
    ( js110_initialize 0 cbk_user_data CreateThread g).2.2 = false ∧
    ( js110_initialize 0 cbk_user_data CreateThread g).2.1.devices_ = g.devices_ ∧
    ( js110_initialize 0 cbk_user_data CreateThread g).2.1.device_change_ = g.device_change_ ∧
    ( js110_initialize 0 cbk_user_data CreateThread g).2.1.thread_id_ = g.thread_id_ ∧
    (g.cbk_fn_ = 0 → ( js110_initialize 0 cbk_user_data CreateThread g).2.1 = g) ∧
    (g.cbk_fn_ ≠ 0 →
      ( js110_initialize 0 cbk_user_data CreateThread g).2.1 = (js110_finalize g).2 ∧
      ( js110_initialize 0 cbk_user_data CreateThread g).2.1.cbk_fn_ = 0 ∧
      ( js110_initialize 0 cbk_user_data CreateThread g).2.1.cbk_user_data_ = 0 ∧
      ( js110_initialize 0 cbk_user_data CreateThread g).2.1.thread_ = 0 ∧
      ( js110_initialize 0 cbk_user_data CreateThread g).2.1.thread_exit_ = true) := by
  unfold js110_initialize
  dsimp only
  rw [if_pos rfl]
  by_cases hc : g.cbk_fn_ = 0
  · rw [if_neg (by simpa using hc)]
    exact ⟨rfl, rfl, rfl, rfl, rfl, fun _ => rfl, fun h => absurd hc h⟩
  · rw [if_pos hc, js110_finalize_eq]
    exact ⟨rfl, rfl, rfl, rfl, rfl, fun h => absurd h hc, fun _ => ⟨rfl, rfl, rfl, rfl, rfl⟩⟩

/-- C18 (amended), at the program's initial variables and at a running subsystem. -/
theorem js110_initialize_no_callback_witness :
    ( js110_initialize 0 3 (6, 8) subsystem_zero).2.1 = subsystem_zero ∧
    ( js110_initialize 0 3 (6, 8) fixture_running).2.1.thread_exit_ = true :=
  ⟨(js110_initialize_no_callback subsystem_zero 3 (6, 8)).2.2.2.2.2.1 rfl,
   ((js110_initialize_no_callback fixture_running 3 (6, 8)).2.2.2.2.2.2 (by decide)).2.2.2.2⟩

/-! ## Open attempts of the scan -/

theorem scan_fold_opens_cons (ds : Devices) (e : dev_interface) (os : List dev_interface) :
    scan_fold_opens ds (e :: os) =
      (match e.detail with
        | some path => scan_entry_opens ds path
        | none => []) ++ scan_fold_opens (scan_step ds e) os := rfl

theorem scan_entry_opens_mem (ds : Devices) (p : List Nat) (i : Nat)
    (h : i ∈ scan_entry_opens ds p) :
    i = 0 ∨ (ds.slot i).state = ST_EMPTY ∨ (ds.slot i).state = ST_MISSING := by
  unfold scan_entry_opens at h
  dsimp only at h
  by_cases h0 : device_lookup ds p = 0
  · rw [if_pos h0] at h
    have hi := List.mem_singleton.mp h
    rcases device_add_spec ds p with ⟨ha, _⟩ | ⟨a, _, _, h3, _, h5⟩
    · left; rw [hi, ha]
    · right; left; rw [hi, h5]; exact h3
  · rw [if_neg h0] at h
    by_cases hs : (ds.slot (device_lookup ds p)).state = ST_MISSING
    · rw [if_pos hs] at h
      right; right
      rw [List.mem_singleton.mp h]; exact hs
    · rw [if_neg hs] at h
      cases h

theorem device_lookup_distinct (ds : Devices) (p : List Nat) (i : Nat)
    (hd : paths_distinct ds) (ht : tracked ds p i) : device_lookup ds p = i := by
  rcases device_lookup_spec ds p with ⟨_, hall⟩ | ⟨hl, _⟩
  · exact absurd ht (hall i)
  · exact hd _ _ p hl ht

theorem scan_entry_opens_missing (ds : Devices) (p : List Nat) (i : Nat)
    (hd : paths_distinct ds) (ht : tracked ds p i) (hm : (ds.slot i).state = ST_MISSING) :
    scan_entry_opens ds p = [i] := by
  unfold scan_entry_opens
  dsimp only
  rw [device_lookup_distinct ds p i hd ht, if_neg (by have := ht.1; omega), if_pos hm]

theorem scan_entry_known (ds : Devices) (p : List Nat) (t : transport_open) (i : Nat)
    (hd : paths_distinct ds) (h1 : 1 ≤ i) (h2 : i < 128)
    (hs : (ds.slot i).state = ST_PRESENT ∨ (ds.slot i).state = ST_OPEN) :
    ((ds.slot i).DevicePath = p → (scan_entry ds p t).slot i = { ds.slot i with mark := 1 }) ∧
    ((ds.slot i).DevicePath ≠ p → (scan_entry ds p t).slot i = ds.slot i) := by
  have hne : (ds.slot i).state ≠ ST_EMPTY := by rcases hs with h | h <;> simp [h]
  have hnm : (ds.slot i).state ≠ ST_MISSING := by rcases hs with h | h <;> simp [h]
  constructor
  · intro hp
    have ht : tracked ds p i := ⟨h1, h2, hne, hp⟩
    rcases scan_entry_cases ds p t with ⟨l, hl, _, e⟩ | ⟨a, _, _, hun, _, _, _⟩ | ⟨hun, _, _⟩
    · have hli : l = i := hd _ _ p hl ht
      subst hli
      rw [e, slot_write, if_pos rfl, if_neg hnm]
    · exact absurd ht (hun i)
    · exact absurd ht (hun i)
  · intro hp
    exact scan_entry_frame ds p t i h1 hne hp

/-- While the entries are handled, a slot that is Present or Open gets no open
attempt and only its mark is written. -/
theorem scan_fold_known (os : List dev_interface) (ds : Devices) (i : Nat)
    (hd : paths_distinct ds) (h1 : 1 ≤ i) (h2 : i < 128)
    (hs : (ds.slot i).state = ST_PRESENT ∨ (ds.slot i).state = ST_OPEN) :
    i ∉ scan_fold_opens ds os ∧
    ((∃ e ∈ os, e.detail = some (ds.slot i).DevicePath) →
      (os.foldl scan_step ds).slot i = { ds.slot i with mark := 1 }) ∧
    ((os.foldl scan_step ds).slot i = ds.slot i ∨
      (os.foldl scan_step ds).slot i = { ds.slot i with mark := 1 }) := by
  induction os generalizing ds with
  | nil =>
    refine ⟨by simp [scan_fold_opens], ?_, Or.inl rfl⟩
    rintro ⟨e, he, _⟩
    cases he
  | cons e os ih =>
    have hstep : (¬ i ∈ (match e.detail with
          | some path => scan_entry_opens ds path
          | none => [])) ∧
        (e.detail = some (ds.slot i).DevicePath →
          (scan_step ds e).slot i = { ds.slot i with mark := 1 }) ∧
        (e.detail ≠ some (ds.slot i).DevicePath → (scan_step ds e).slot i = ds.slot i) := by
      unfold scan_step
      cases hdet : e.detail with
      | none =>
        exact ⟨by simp, fun hc => Option.noConfusion hc, fun _ => rfl⟩
      | some p =>
        dsimp only
        have k := scan_entry_known ds p e.transport i hd h1 h2 hs
        refine ⟨?_, fun hc => k.1 (Option.some.inj hc).symm,
          fun hc => k.2 (fun hp => hc (by rw [hp]))⟩
        intro hm
        rcases scan_entry_opens_mem ds p i hm with h0 | h0 | h0
        · omega
        · rcases hs with h | h <;> rw [h] at h0 <;> cases h0
        · rcases hs with h | h <;> rw [h] at h0 <;> cases h0
    have hd' : paths_distinct (scan_step ds e) := by
      have := scan_fold_distinct [e] ds hd
      simpa using this
    rw [List.foldl_cons]
    by_cases hc : e.detail = some (ds.slot i).DevicePath
    · have e1 := hstep.2.1 hc
      have hs' : ((scan_step ds e).slot i).state = ST_PRESENT ∨
          ((scan_step ds e).slot i).state = ST_OPEN := by rw [e1]; exact hs
      obtain ⟨k1, _, k3⟩ := ih (scan_step ds e) hd' hs'
      refine ⟨?_, ?_, ?_⟩
      · rw [scan_fold_opens_cons, List.mem_append]
        exact fun hm => hm.elim hstep.1 k1
      · intro _
        rcases k3 with k3 | k3 <;> rw [k3, e1]
      · right
        rcases k3 with k3 | k3 <;> rw [k3, e1]
    · have e1 := hstep.2.2 hc
      have hs' : ((scan_step ds e).slot i).state = ST_PRESENT ∨
          ((scan_step ds e).slot i).state = ST_OPEN := by rw [e1]; exact hs
      obtain ⟨k1, k2, k3⟩ := ih (scan_step ds e) hd' hs'
      rw [e1] at k2 k3
      refine ⟨?_, ?_, k3⟩
      · rw [scan_fold_opens_cons, List.mem_append]
        exact fun hm => hm.elim hstep.1 k1
      · rintro ⟨e', he', hdet⟩
        rcases List.mem_cons.mp he' with h | h
        · subst h; exact absurd hdet hc
        · exact k2 ⟨e', h, hdet⟩

/-- While the entries are handled, a Missing slot whose path is among them is
passed to `device_open`. -/
theorem scan_fold_opens_missing (os : List dev_interface) (ds : Devices) (i : Nat)
    (hd : paths_distinct ds) (h1 : 1 ≤ i) (h2 : i < 128)
    (hm : (ds.slot i).state = ST_MISSING)
    (hp : ∃ e ∈ os, e.detail = some (ds.slot i).DevicePath) :
    i ∈ scan_fold_opens ds os := by
  induction os generalizing ds with
  | nil =>
    obtain ⟨e, he, _⟩ := hp
    cases he
  | cons e os ih =>
    have hne : (ds.slot i).state ≠ ST_EMPTY := by simp [hm]
    rw [scan_fold_opens_cons, List.mem_append]
    by_cases hc : e.detail = some (ds.slot i).DevicePath
    · left
      rw [hc]
      dsimp only
      rw [scan_entry_opens_missing ds _ i hd ⟨h1, h2, hne, rfl⟩ hm]
      exact List.mem_singleton.mpr rfl
    · right
      have e1 : (scan_step ds e).slot i = ds.slot i := by
        have := scan_fold_frame [e] ds i h1 hne (by
          intro e' he'
          rw [List.mem_singleton.mp he']
          exact hc)
        simpa using this
      have hd' : paths_distinct (scan_step ds e) := by
        have := scan_fold_distinct [e] ds hd
        simpa using this
      apply ih (scan_step ds e) hd' (by rw [e1]; exact hm)
      obtain ⟨e', he', hdet⟩ := hp
      rcases List.mem_cons.mp he' with h | h
      · subst h; exact absurd hdet hc
      · exact ⟨e', h, by rw [e1]; exact hdet⟩

/-- When the `while` loop ends, the open attempts it made are those of the
entries handled one after the other. -/
theorem scan_enumerate_opens_some (os : List dev_interface) (fuel k : Nat) (ds ds' : Devices)
    (h : scan_enumerate os fuel k ds = some ds') :
    scan_enumerate_opens os fuel k ds = some (scan_fold_opens ds (os.drop k)) := by
  induction fuel generalizing k ds with
  | zero => unfold scan_enumerate at h; cases h
  | succ fuel ih =>
    have hall := (scan_enumerate_some os (fuel + 1) k ds ds' h).1
    unfold scan_enumerate at h
    unfold scan_enumerate_opens
    by_cases hk : k < os.length
    · rw [List.getElem?_eq_getElem hk] at h ⊢
      dsimp only at h ⊢
      cases hd : os[k].detail with
      | none => exact absurd hd (hall k (le_refl _) hk)
      | some p =>
        rw [hd] at h
        dsimp only at h ⊢
        rw [ih (k + 1) _ h, List.drop_eq_getElem_cons hk, scan_fold_opens_cons]
        unfold scan_step
        rw [hd]
        rfl
    · rw [List.getElem?_eq_none (by omega)]
      dsimp only
      rw [List.drop_eq_nil_of_le (by omega)]
      rfl

theorem js110_scan_opens_some (os : List dev_interface) (fuel : Nat) (ds : Devices) (rc : Int)
    (ds' : Devices) (h : js110_scan fuel ds (some os) = some (rc, ds')) :
    js110_scan_opens fuel ds (some os) = some (scan_fold_opens (scan_clear_marks ds) os) := by
  unfold js110_scan at h
  dsimp only at h
  unfold js110_scan_opens
  dsimp only
  cases he : scan_enumerate os fuel 0 (scan_clear_marks ds) with
  | none => rw [he] at h; cases h
  | some d1 => rw [scan_enumerate_opens_some os fuel 0 _ d1 he, List.drop_zero]

/-- The scan calls `device_open` on exactly the ids `scan_entry_opens` lists:
`scan_entry` is the allocation (if the path is new), then `device_open` on each
of these ids, then the mark. -/
theorem scan_entry_via_opens (ds : Devices) (p : List Nat) (t : transport_open) :
    scan_entry ds p t =
      ((scan_entry_opens ds p).foldl (fun acc id => (device_open acc (id : Int) t).2)
        (if device_lookup ds p = 0 then (device_add ds p).2 else ds)).write
        (if device_lookup ds p = 0 then (device_add ds p).1 else device_lookup ds p)
        { (((scan_entry_opens ds p).foldl (fun acc id => (device_open acc (id : Int) t).2)
            (if device_lookup ds p = 0 then (device_add ds p).2 else ds)).slot
            (if device_lookup ds p = 0 then (device_add ds p).1 else device_lookup ds p)) with
          mark := 1 } := by
  unfold scan_entry scan_entry_opens
  dsimp only
  by_cases h0 : device_lookup ds p = 0
  · rw [if_pos h0, if_pos h0, if_pos h0, if_pos h0]
    rfl
  · rw [if_neg h0, if_neg h0, if_neg h0, if_neg h0]
    by_cases hm : (ds.slot (device_lookup ds p)).state = ST_MISSING
    · rw [if_pos hm, if_pos hm]
      rfl
    · rw [if_neg hm, if_neg hm]
      rfl

theorem known_step_keep (p : List Nat) (d : device_s) (e : dev_interface) :
    (known_step p d e).DevicePath = d.DevicePath ∧
    (d.state ≠ ST_EMPTY → (known_step p d e).state ≠ ST_EMPTY) ∧
    (d.mark = 1 → (known_step p d e).mark = 1) ∧
    (e.detail = some p → (known_step p d e).mark = 1) := by
  unfold known_step
  by_cases he : e.detail = some p
  · rw [if_pos he]
    by_cases hm : d.state = ST_MISSING
    · rw [if_pos hm]
      exact ⟨opened_slot_path _ _, fun h => opened_slot_not_empty _ _ h, fun _ => rfl,
        fun _ => rfl⟩
    · rw [if_neg hm]
      exact ⟨rfl, fun h => h, fun _ => rfl, fun _ => rfl⟩
  · rw [if_neg he]
    exact ⟨rfl, fun h => h, fun h => h, fun h => absurd h he⟩

theorem known_fold_keep (p : List Nat) (os : List dev_interface) (d : device_s) :
    (os.foldl (known_step p) d).DevicePath = d.DevicePath ∧
    (d.state ≠ ST_EMPTY → (os.foldl (known_step p) d).state ≠ ST_EMPTY) ∧
    (d.mark = 1 → (os.foldl (known_step p) d).mark = 1) ∧
    ((∃ e ∈ os, e.detail = some p) → (os.foldl (known_step p) d).mark = 1) := by
  induction os generalizing d with
  | nil =>
    refine ⟨rfl, fun h => h, fun h => h, ?_⟩
    rintro ⟨e, he, _⟩
    cases he
  | cons e os ih =>
    rw [List.foldl_cons]
    have k := known_step_keep p d e
    have k2 := ih (known_step p d e)
    refine ⟨k2.1.trans k.1, fun h => k2.2.1 (k.2.1 h), fun h => k2.2.2.1 (k.2.2.1 h), ?_⟩
    rintro ⟨e', he', hd⟩
    rcases List.mem_cons.mp he' with h | h
    · subst h
      exact k2.2.2.1 (k.2.2.2 hd)
    · exact k2.2.2.2 ⟨e', h, hd⟩

/-- While the entries are handled, a slot that is not Empty, in a table whose
paths are pairwise distinct, goes through `known_step`. -/
theorem scan_fold_slot (os : List dev_interface) (ds : Devices) (i : Nat)
    (hd : paths_distinct ds) (h1 : 1 ≤ i) (h2 : i < 128)
    (hne : (ds.slot i).state ≠ ST_EMPTY) :
    (os.foldl scan_step ds).slot i =
      os.foldl (known_step (ds.slot i).DevicePath) (ds.slot i) := by
  induction os generalizing ds with
  | nil => rfl
  | cons e os ih =>
    have hstep : (scan_step ds e).slot i = known_step (ds.slot i).DevicePath (ds.slot i) e := by
      unfold scan_step known_step
      cases hdet : e.detail with
      | none => simp
      | some q =>
        dsimp only
        by_cases hq : (ds.slot i).DevicePath = q
        · rw [if_pos (by rw [hq])]
          have ht : tracked ds q i := ⟨h1, h2, hne, hq⟩
          rcases scan_entry_cases ds q e.transport with
            ⟨l, hl, _, eq⟩ | ⟨a, _, _, hun, _, _, _⟩ | ⟨hun, _, _⟩
          · have hli : l = i := hd _ _ q hl ht
            subst hli
            rw [eq, slot_write, if_pos rfl]
          · exact absurd ht (hun i)
          · exact absurd ht (hun i)
        · rw [if_neg (fun hc => hq (Option.some.inj hc).symm)]
          exact scan_entry_frame ds q e.transport i h1 hne hq
    have hd' : paths_distinct (scan_step ds e) := by
      have := scan_fold_distinct [e] ds hd
      simpa using this
    have k := known_step_keep (ds.slot i).DevicePath (ds.slot i) e
    rw [List.foldl_cons, List.foldl_cons, ih (scan_step ds e) hd' (by rw [hstep]; exact k.2.1 hne),
      hstep, k.1]

theorem known_fold_filter (p : List Nat) (os : List dev_interface) (d : device_s) :
    os.foldl (known_step p) d =
      (os.filter (fun e => decide (e.detail = some p))).foldl (known_step p) d := by
  induction os generalizing d with
  | nil => rfl
  | cons e os ih =>
    by_cases he : e.detail = some p
    · rw [List.filter_cons_of_pos (by simpa using he), List.foldl_cons, List.foldl_cons, ih]
    · rw [List.filter_cons_of_neg (by simpa using he), List.foldl_cons, ih]
      unfold known_step
      rw [if_neg he]

theorem known_fold_state (p : List Nat) (os : List dev_interface) (d : device_s)
    (hs : d.state = ST_MISSING ∨ d.state = ST_OPEN) :
    ((∀ e ∈ os, e.detail = some p → e.transport.ok) → (∃ e ∈ os, e.detail = some p) →
      (os.foldl (known_step p) d).state = ST_OPEN) ∧
    ((∀ e ∈ os, e.detail = some p → e.transport.ok) → d.state = ST_OPEN →
      (os.foldl (known_step p) d).state = ST_OPEN) ∧
    ((∀ e ∈ os, e.detail = some p → ¬ e.transport.ok) → d.state = ST_MISSING →
      (os.foldl (known_step p) d).state = ST_MISSING) := by
  induction os generalizing d with
  | nil =>
    refine ⟨?_, fun _ h => h, fun _ h => h⟩
    rintro _ ⟨e, he, _⟩
    cases he
  | cons e os ih =>
    rw [List.foldl_cons]
    have hst : (known_step p d e).state =
        if e.detail = some p ∧ d.state = ST_MISSING ∧ e.transport.ok then ST_OPEN
        else d.state := by
      unfold known_step
      by_cases he : e.detail = some p
      · rw [if_pos he]
        by_cases hm : d.state = ST_MISSING
        · rw [if_pos hm]
          show (opened_slot d e.transport).state = _
          rw [opened_slot_state]
          by_cases hok : e.transport.ok
          · rw [if_pos hok, if_pos ⟨he, hm, hok⟩]
          · rw [if_neg hok, if_neg (fun hc => hok hc.2.2)]
        · rw [if_neg hm, if_neg (fun hc => hm hc.2.1)]
      · rw [if_neg he, if_neg (fun hc => he hc.1)]
    have hs' : (known_step p d e).state = ST_MISSING ∨ (known_step p d e).state = ST_OPEN := by
      rw [hst]
      split_ifs
      · right; rfl
      · exact hs
    obtain ⟨k1, k2, k3⟩ := ih (known_step p d e) hs'
    refine ⟨?_, ?_, ?_⟩
    · intro hok hex
      have hok' : ∀ e' ∈ os, e'.detail = some p → e'.transport.ok :=
        fun e' he' => hok e' (List.mem_cons_of_mem _ he')
      by_cases he : e.detail = some p
      · apply k2 hok'
        rw [hst]
        rcases hs with hm | ho
        · rw [if_pos ⟨he, hm, hok e (List.mem_cons_self _ _) he⟩]
        · rw [ho]; split_ifs <;> rfl
      · apply k1 hok'
        obtain ⟨e', he', hd⟩ := hex
        rcases List.mem_cons.mp he' with h | h
        · subst h; exact absurd hd he
        · exact ⟨e', h, hd⟩
    · intro hok ho
      apply k2 (fun e' he' => hok e' (List.mem_cons_of_mem _ he'))
      rw [hst, ho]; split_ifs <;> rfl
    · intro hno hm
      apply k3 (fun e' he' => hno e' (List.mem_cons_of_mem _ he'))
      rw [hst, if_neg (fun hc => hno e (List.mem_cons_self _ _) hc.1 hc.2.2)]
      exact hm

/-! ## C21: a scan leaves an enumerated Present or Open slot alone -/

/-- Claim C21: in a table reachable by scans and polls, take a slot of 1..127
whose path is enumerated.  `js110_scan` returns (with status 0) when every
detail retrieval succeeds and the fuel suffices.  Whenever it returns, whatever
the transport answers: if the slot was Present or Open, its id is not among
those passed to `device_open` and the slot is as before except that its mark is
1 (so a Present slot is still Present); if the slot was Missing, its id is
passed to `device_open`, which for a Missing slot runs `device_open_`, and the
slot after the scan is the one the open attempts leave: each entry holding the
path opens the slot with its transport answers while it is Missing and sets the
mark, so with one such entry the slot is `opened_slot` of it with the mark set,
it is Open when every such entry's transport succeeds and still Missing when
none does.  The ids passed to `device_open` are those on which the scan's loop
body calls it. -/
theorem js110_scan_known_slot (ds : Devices) (os : List dev_interface) (fuel i : Nat)
    (h : reachable ds) (h1 : 1 ≤ i) (h2 : i ≤ 127)
    (hp : ∃ e ∈ os, e.detail = some (ds.slot i).DevicePath) :
    ((∀ e ∈ os, e.detail ≠ none) → os.length < fuel →
      ∃ ds', js110_scan fuel ds (some os) = some (0, ds')) ∧
    (∀ rc ds', js110_scan fuel ds (some os) = some (rc, ds') →
      ∃ opens, js110_scan_opens fuel ds (some os) = some opens ∧
        ((ds.slot i).state = ST_PRESENT ∨ (ds.slot i).state = ST_OPEN →
          i ∉ opens ∧ ds'.slot i = { ds.slot i with mark := 1 }) ∧
        ((ds.slot i).state = ST_MISSING → i ∈ opens) ∧
        ((ds.slot i).state ≠ ST_EMPTY →
          ds'.slot i =
            os.foldl (known_step (ds.slot i).DevicePath) { ds.slot i with mark := 0 }) ∧
        ((ds.slot i).state = ST_MISSING →
          ∀ e, os.filter (fun e' => decide (e'.detail = some (ds.slot i).DevicePath)) = [e] →
            ds'.slot i =
              { opened_slot { ds.slot i with mark := 0 } e.transport with mark := 1 }) ∧
        ((ds.slot i).state = ST_MISSING →
          (∀ e ∈ os, e.detail = some (ds.slot i).DevicePath → e.transport.ok) →
          (ds'.slot i).state = ST_OPEN) ∧
        ((ds.slot i).state = ST_MISSING →
          (∀ e ∈ os, e.detail = some (ds.slot i).DevicePath → ¬ e.transport.ok) →
          (ds'.slot i).state = ST_MISSING)) ∧
    (∀ ds2 t, (ds2.slot i).state = ST_MISSING →
      device_open ds2 (i : Int) t = device_open_ ds2 (i : Int) t) ∧
    (∀ ds2 q t, scan_entry ds2 q t =
      ((scan_entry_opens ds2 q).foldl (fun acc id => (device_open acc (id : Int) t).2)
        (if device_lookup ds2 q = 0 then (device_add ds2 q).2 else ds2)).write
        (if device_lookup ds2 q = 0 then (device_add ds2 q).1 else device_lookup ds2 q)
        { (((scan_entry_opens ds2 q).foldl (fun acc id => (device_open acc (id : Int) t).2)
            (if device_lookup ds2 q = 0 then (device_add ds2 q).2 else ds2)).slot
            (if device_lookup ds2 q = 0 then (device_add ds2 q).1 else device_lookup ds2 q)) with
          mark := 1 }) := by
  have hd : paths_distinct (scan_clear_marks ds) := by
    intro a b q ha hb
    exact reachable_distinct ds h a b q ((tracked_clear_marks ds q a).mp ha)
      ((tracked_clear_marks ds q b).mp hb)
  have h0 : (scan_clear_marks ds).slot i = { ds.slot i with mark := 0 } := by
    rw [scan_clear_marks_slot, if_pos ⟨h1, by omega⟩]
  have hslot : ∀ rc ds', js110_scan fuel ds (some os) = some (rc, ds') →
      (ds.slot i).state ≠ ST_EMPTY →
      ds'.slot i =
        os.foldl (known_step (ds.slot i).DevicePath) { ds.slot i with mark := 0 } := by
    intro rc ds' hret hne
    have k := scan_fold_slot os (scan_clear_marks ds) i hd h1 (by omega) (by rw [h0]; exact hne)
    rw [h0] at k
    have km := (known_fold_keep (ds.slot i).DevicePath os { ds.slot i with mark := 0 }).2.2.2 hp
    rw [(js110_scan_some os fuel ds rc ds' hret).2.2, scan_close_unmarked_slot, k,
      if_neg (fun hc => absurd (km.symm.trans hc.2.2.1) (by decide))]
  refine ⟨fun hok hf => ⟨_, js110_scan_eq os hok fuel hf ds⟩, ?_, ?_, scan_entry_via_opens⟩
  · intro rc ds' hret
    refine ⟨_, js110_scan_opens_some os fuel ds rc ds' hret, ?_, ?_, hslot rc ds' hret, ?_, ?_, ?_⟩
    · intro hs
      have k := scan_fold_known os (scan_clear_marks ds) i hd h1 (by omega)
        (by rw [h0]; exact hs)
      refine ⟨k.1, ?_⟩
      have k2 := k.2.1 (by rw [h0]; exact hp)
      rw [(js110_scan_some os fuel ds rc ds' hret).2.2, scan_close_unmarked_slot, k2,
        if_neg (fun hc => absurd hc.2.2.1 (by simp)), h0]
    · intro hm
      exact scan_fold_opens_missing os (scan_clear_marks ds) i hd h1 (by omega)
        (by rw [h0]; exact hm) (by rw [h0]; exact hp)
    · intro hm e hf
      have he : e.detail = some (ds.slot i).DevicePath := by
        have : e ∈ os.filter (fun e' => decide (e'.detail = some (ds.slot i).DevicePath)) := by
          rw [hf]; exact List.mem_singleton.mpr rfl
        simpa using (List.mem_filter.mp this).2
      rw [hslot rc ds' hret (by rw [hm]; decide), known_fold_filter, hf, List.foldl_cons,
        List.foldl_nil]
      unfold known_step
      rw [if_pos he, if_pos hm]
    · intro hm hok
      rw [hslot rc ds' hret (by rw [hm]; decide)]
      exact (known_fold_state _ os { ds.slot i with mark := 0 } (Or.inl hm)).1 hok hp
    · intro hm hno
      rw [hslot rc ds' hret (by rw [hm]; decide)]
      exact (known_fold_state _ os { ds.slot i with mark := 0 } (Or.inl hm)).2.2 hno hm
  · intro ds2 t hm
    unfold device_open
    rw [if_neg (by unfold DEVICE_COUNT_MAX; omega)]
    simp only [Int.toNat_ofNat]
    rw [hm]

set_option maxRecDepth 100000 in
/-- Claim C21 at two runs from the zeroed table.  First run: a scan enumerates
the path `a#b#123#x` and `WinUsb_Initialize` fails, so slot 1 is Present; a
second scan enumerates the same path with a transport that would succeed, and
slot 1 is not passed to `device_open` and is as before with its mark set, still
Present.  Second run: the device is opened by a scan, a scan that enumerates
nothing leaves slot 1 Missing, and the next scan that enumerates the path
passes slot 1 to `device_open` and leaves it Open. -/
theorem js110_scan_known_slot_witness :
    (∃ ds1 ds2 opens,
      js110_scan 2 devices_zero
        (some [⟨some [97, 35, 98, 35, 49, 50, 51, 35, 120], transport_no_winusb⟩]) =
          some (0, ds1) ∧
      (ds1.slot 1).state = ST_PRESENT ∧
      js110_scan 2 ds1 (some [⟨some [97, 35, 98, 35, 49, 50, 51, 35, 120], transport_ok⟩]) =
        some (0, ds2) ∧
      js110_scan_opens 2 ds1
        (some [⟨some [97, 35, 98, 35, 49, 50, 51, 35, 120], transport_ok⟩]) = some opens ∧
      1 ∉ opens ∧ ds2.slot 1 = { ds1.slot 1 with mark := 1 }) ∧
    (∃ ds1 ds2 ds3 opens,
      js110_scan 2 devices_zero
        (some [⟨some [97, 35, 98, 35, 49, 50, 51, 35, 120], transport_ok⟩]) = some (0, ds1) ∧
      js110_scan 1 ds1 (some []) = some (0, ds2) ∧
      (ds2.slot 1).state = ST_MISSING ∧
      js110_scan 2 ds2 (some [⟨some [97, 35, 98, 35, 49, 50, 51, 35, 120], transport_ok⟩]) =
        some (0, ds3) ∧
      js110_scan_opens 2 ds2
        (some [⟨some [97, 35, 98, 35, 49, 50, 51, 35, 120], transport_ok⟩]) = some opens ∧
      1 ∈ opens ∧ (ds3.slot 1).state = ST_OPEN) := by
  constructor
  · have hret := js110_scan_eq
      [⟨some [97, 35, 98, 35, 49, 50, 51, 35, 120], transport_no_winusb⟩] (by simp) 2
      (by decide) devices_zero
    have hst : ((scan_close_unmarked
        ([(⟨some [97, 35, 98, 35, 49, 50, 51, 35, 120], transport_no_winusb⟩ :
          dev_interface)].foldl scan_step (scan_clear_marks devices_zero))).slot 1).state =
        ST_PRESENT := by decide!
    have hpath : ((scan_close_unmarked
        ([(⟨some [97, 35, 98, 35, 49, 50, 51, 35, 120], transport_no_winusb⟩ :
          dev_interface)].foldl scan_step (scan_clear_marks devices_zero))).slot 1).DevicePath =
        [97, 35, 98, 35, 49, 50, 51, 35, 120] := by decide!
    have k := js110_scan_known_slot _
      [⟨some [97, 35, 98, 35, 49, 50, 51, 35, 120], transport_ok⟩] 2 1
      (reachable.scan _ _ _ _ _ reachable.zero hret) (by decide) (by decide)
      ⟨_, List.mem_singleton.mpr rfl, by rw [hpath]⟩
    obtain ⟨ds2, h2⟩ := k.1 (by simp) (by decide)
    obtain ⟨opens, ho, hk, _⟩ := k.2.1 0 ds2 h2
    exact ⟨_, ds2, opens, hret, hst, h2, ho, hk (Or.inl hst)⟩
  · have hret1 := js110_scan_eq
      [⟨some [97, 35, 98, 35, 49, 50, 51, 35, 120], transport_ok⟩] (by simp) 2
      (by decide) devices_zero
    have hret2 := js110_scan_eq [] (by simp) 1 (by decide)
      (scan_close_unmarked
        ([(⟨some [97, 35, 98, 35, 49, 50, 51, 35, 120], transport_ok⟩ :
          dev_interface)].foldl scan_step (scan_clear_marks devices_zero)))
    have hst : ((scan_close_unmarked (([] : List dev_interface).foldl scan_step (scan_clear_marks
        (scan_close_unmarked
        ([(⟨some [97, 35, 98, 35, 49, 50, 51, 35, 120], transport_ok⟩ :
          dev_interface)].foldl scan_step (scan_clear_marks devices_zero)))))).slot 1).state =
        ST_MISSING := by decide!
    have hpath : ((scan_close_unmarked (([] : List dev_interface).foldl scan_step (scan_clear_marks
        (scan_close_unmarked
        ([(⟨some [97, 35, 98, 35, 49, 50, 51, 35, 120], transport_ok⟩ :
          dev_interface)].foldl scan_step (scan_clear_marks devices_zero)))))).slot 1).DevicePath =
        [97, 35, 98, 35, 49, 50, 51, 35, 120] := by decide!
    have k := js110_scan_known_slot _
      [⟨some [97, 35, 98, 35, 49, 50, 51, 35, 120], transport_ok⟩] 2 1
      (reachable.scan _ _ _ _ _ (reachable.scan _ _ _ _ _ reachable.zero hret1) hret2)
      (by decide) (by decide) ⟨_, List.mem_singleton.mpr rfl, by rw [hpath]⟩
    obtain ⟨ds3, h3⟩ := k.1 (by simp) (by decide)
    obtain ⟨opens, ho, _, hk, _, _, hopen, _⟩ := k.2.1 0 ds3 h3
    refine ⟨_, _, ds3, opens, hret1, hret2, hst, h3, ho, hk hst, hopen hst ?_⟩
    intro e he _
    rw [List.mem_singleton.mp he]
    decide

/-! ## C22: termination of the scan -/

/-- C22 does not hold of the code.  When the detail retrieval of an enumerated
entry fails, the loop body ends with `continue` before `++member_index`: the
next evaluation of the loop condition asks for the same entry with the same
table, so the loop does not advance, and `js110_scan` returns for no amount of
fuel.  It returns 0 (given fuel beyond the length of the enumeration) exactly
when no detail retrieval fails, and 1 at once when the enumeration cannot be
started. -/
theorem js110_scan_detail_failure_loops (ds : Devices) (os : List dev_interface) (fuel : Nat) :
    ((∃ e ∈ os, e.detail = none) → js110_scan fuel ds (some os) = none) ∧
    (∀ k e ds1, os[k]? = some e → e.detail = none →
      scan_enumerate os (fuel + 1) k ds1 = scan_enumerate os fuel k ds1) ∧
    ((∀ e ∈ os, e.detail ≠ none) → os.length < fuel →
      ∃ ds', js110_scan fuel ds (some os) = some (0, ds')) ∧
    js110_scan fuel ds none = some (1, ds) := by
  refine ⟨?_, ?_, fun hok hf => ⟨_, js110_scan_eq os hok fuel hf ds⟩, rfl⟩
  · rintro ⟨e, he, hd⟩
    cases hr : js110_scan fuel ds (some os) with
    | none => rfl
    | some r =>
      exact absurd hd ((js110_scan_some os fuel ds r.1 r.2 hr).1 e he)
  · intro k e ds1 hk hd
    conv => lhs; unfold scan_enumerate
    rw [hk]
    dsimp only
    rw [hd]

/-- C22, at an enumeration of one entry whose detail retrieval fails, and at the
same entry when the retrieval succeeds. -/
theorem js110_scan_detail_failure_loops_witness :
    js110_scan 1000 devices_zero (some [⟨none, transport_ok⟩]) = none ∧
    scan_enumerate [⟨none, transport_ok⟩] 1000 0 devices_zero =
      scan_enumerate [⟨none, transport_ok⟩] 999 0 devices_zero ∧
    ∃ ds', js110_scan 1000 devices_zero (some [⟨some [200], transport_ok⟩]) = some (0, ds') :=
  have h := js110_scan_detail_failure_loops devices_zero [⟨none, transport_ok⟩] 1000
  have h2 := js110_scan_detail_failure_loops devices_zero [⟨none, transport_ok⟩] 999
  have h3 := js110_scan_detail_failure_loops devices_zero [⟨some [200], transport_ok⟩] 1000
  ⟨h.1 ⟨_, List.mem_singleton.mpr rfl, rfl⟩, h2.2.1 0 _ devices_zero rfl rfl,
    h3.2.2.1 (by simp) (by decide)⟩

/-! ## C23: the range check on the slot id -/

end JS110
